import Mathlib

/-!
SQL Server Virtual Device Interface samples: the command loop and the
multi-process orchestrator.

A shallow embedding of `samples/features/sqlvdi/mprocess/mprocess.cpp`.

The program talks to three outside parties: the C runtime (the sink file), the
virtual device / device set COM objects, and the Win32 process API.  Each call
to one of them is recorded as an `Event`; the value the call returns is taken
from a script supplied by the environment, so every theorem quantifies over all
possible answers of the outside world.  A blocking call with an infinite timeout
whose answer never comes (script exhausted) leaves the function `blocked`.
-/

namespace Mprocess

/-! ## Platform types and constants (`windows.h`) -/

/-- Win32 process handle. -/
abbrev HANDLE := Nat

/-- COM status code, a signed 32-bit value; negative values are failures.
Unsigned 32-bit quantities (`DWORD`) are plain natural numbers: the program
does no arithmetic on them that could wrap around. -/
abbrev HRESULT := Int

/-- The `SUCCEEDED` test of `winerror.h`: `hr >= 0`. -/
def SUCCEEDED (hr : HRESULT) : Bool := decide (0 ≤ hr)

def ERROR_SUCCESS : Nat := 0

def ERROR_HANDLE_EOF : Nat := 38

def ERROR_NOT_SUPPORTED : Nat := 50

def ERROR_DISK_FULL : Nat := 112

def WAIT_OBJECT_0 : Nat := 0

/-! ## Constants of `vdi.h` / `vdierror.h`

The two headers are not among the sources, so the constants the program uses
are a parameter of the embedding. -/

/-- The constants of `vdi.h` and `vdierror.h` that `mprocess.cpp` refers to. -/
structure VdiHeader where
  VDC_Read : Nat
  VDC_Write : Nat
  VDC_Flush : Nat
  VDC_ClearError : Nat
  VD_E_CLOSE : HRESULT
  VDF_WriteMedia : Nat
  deriving DecidableEq, Repr

/-- Modelled from the spec: `vdi.h` and `vdierror.h` are missing from the
sources.  The four command codes are the labels of one `switch`, hence pairwise
distinct; `Closed` is a condition with which the next-command request *fails*,
hence a failure `HRESULT`; write-media is a feature *flag*, hence nonzero. -/
def VdiHeader.WellFormed (K : VdiHeader) : Prop :=
  K.VDC_Read ≠ K.VDC_Write ∧ K.VDC_Read ≠ K.VDC_Flush ∧ K.VDC_Read ≠ K.VDC_ClearError ∧
  K.VDC_Write ≠ K.VDC_Flush ∧ K.VDC_Write ≠ K.VDC_ClearError ∧
  K.VDC_Flush ≠ K.VDC_ClearError ∧
  K.VD_E_CLOSE < 0 ∧ K.VDF_WriteMedia ≠ 0

instance (K : VdiHeader) : Decidable K.WellFormed := by
  unfold VdiHeader.WellFormed; infer_instance

/-- One admissible assignment of the header constants, used for concrete runs. -/
def sampleHeader : VdiHeader :=
  { VDC_Read := 1, VDC_Write := 2, VDC_ClearError := 3, VDC_Flush := 12,
    VD_E_CLOSE := -2139684851, VDF_WriteMedia := 65536 }

/-! ## Data model -/

/-- The `VDC_Command` record delivered by `GetCommand`; `buffer` is the address
of the payload buffer. -/
structure VDC_Command where
  commandCode : Nat
  size : Nat
  position : Nat
  buffer : Nat
  deriving DecidableEq, Repr

/-- How a function of the program ends: it returns a value, or it never comes
back from a blocking call made with an infinite timeout. -/
inductive Outcome where
  | returned (termCode : Int)
  | blocked
  deriving DecidableEq, Repr

/-- A call made by the program to the outside world, with the value the call
returned. -/
inductive Event where
  | fopen (fname mode : String) (ok : Bool)
  | fread (buffer : Nat) (count : Nat) (ret : Nat)
  | fwrite (buffer : Nat) (count : Nat) (ret : Nat)
  | fflush (ret : Int)
  | fclose
  | GetCommand (hr : HRESULT) (cmd : VDC_Command)
  | CompleteCommand (cmd : VDC_Command) (completionCode bytesTransferred : Nat) (hr : HRESULT)
  | OpenInSecondary (name : String) (hr : HRESULT)
  | OpenDevice (name : String) (hr : HRESULT)
  | GetConfiguration (timeout : Option Nat) (hr : HRESULT) (features : Nat)
  | SignalAbort
  | Close
  | CreateProcess (cmd : String) (ret : Option HANDLE)
  | WaitForMultipleObjects (nCount : Nat) (handles : List HANDLE) (ret : Nat)
  | GetExitCodeProcess (h : HANDLE) (ok : Bool) (exitCode : Nat)
  | CloseHandle (h : HANDLE)
  | CoInitializeEx (hr : HRESULT)
  | CoCreateInstance (hr : HRESULT)
  | CoUninitialize
  | Create (name : String) (deviceCount : Int) (hr : HRESULT)
  | Release
  deriving DecidableEq, Repr

/-! ## The command loop of `performTransfer` -/

/-- What the outside world answers during one pass of the `while` loop of
`performTransfer`: the result of `GetCommand` (status and delivered command),
the return value of the `fread`/`fwrite` the pass may make, the return value of
the `fflush` it may make, and the status of `CompleteCommand`. -/
structure DeviceRound where
  hrGet : HRESULT
  cmd : VDC_Command
  ioRet : Nat
  flushRet : Int
  hrComplete : HRESULT
  deriving DecidableEq, Repr

/-- The `switch (cmd->commandCode)` of `performTransfer`, entered with
`bytesTransferred = 0`: the sink calls made, then `completionCode` and
`bytesTransferred`.  `fread`/`fwrite` return at most `count`, a `DWORD`, so
storing their result in the `DWORD bytesTransferred` loses nothing. -/
def switchCommandCode (K : VdiHeader) (cmd : VDC_Command) (ioRet : Nat) (flushRet : Int) :
    List Event × Nat × Nat :=
  if cmd.commandCode = K.VDC_Read then
    ([Event.fread cmd.buffer cmd.size ioRet],
      (if ioRet = cmd.size then ERROR_SUCCESS else ERROR_HANDLE_EOF), ioRet)
  else if cmd.commandCode = K.VDC_Write then
    ([Event.fwrite cmd.buffer cmd.size ioRet],
      (if ioRet = cmd.size then ERROR_SUCCESS else ERROR_DISK_FULL), ioRet)
  else if cmd.commandCode = K.VDC_Flush then
    ([Event.fflush flushRet], ERROR_SUCCESS, 0)
  else if cmd.commandCode = K.VDC_ClearError then
    ([], ERROR_SUCCESS, 0)
  else
    ([], ERROR_NOT_SUPPORTED, 0)

/-- The calls of one pass that follow a successful `GetCommand`: the sink calls
of the `switch`, then `CompleteCommand`. -/
def completeRound (K : VdiHeader) (r : DeviceRound) : List Event :=
  (switchCommandCode K r.cmd r.ioRet r.flushRet).1 ++
    [Event.CompleteCommand r.cmd (switchCommandCode K r.cmd r.ioRet r.flushRet).2.1
      (switchCommandCode K r.cmd r.ioRet r.flushRet).2.2 r.hrComplete]

/-- The `while (SUCCEEDED (hr = vd->GetCommand (INFINITE, &cmd)))` loop of
`performTransfer`: the calls made, and the value of `hr` when the loop is left
(`none` when `GetCommand` never answers). -/
def commandLoop (K : VdiHeader) : List DeviceRound → List Event × Option HRESULT
  | [] => ([], none)
  | r :: rest =>
    if SUCCEEDED r.hrGet then
      if SUCCEEDED r.hrComplete then
        (Event.GetCommand r.hrGet r.cmd :: (completeRound K r ++ (commandLoop K rest).1),
          (commandLoop K rest).2)
      else
        (Event.GetCommand r.hrGet r.cmd :: completeRound K r, some r.hrComplete)
    else
      ([Event.GetCommand r.hrGet r.cmd], some r.hrGet)

/-- The sink file name, `sprintf (fname, "multi.%d.dmp", streamId)`. -/
def sinkName (streamId : Int) : String :=
  "multi." ++ toString streamId ++ ".dmp"

/-- The `fopen` mode, `(backup) ? "wb" : "rb"`. -/
def sinkMode (backup : Int) : String :=
  if backup ≠ 0 then "wb" else "rb"

/-- The function `performTransfer (vd, backup, streamId)`.  `fopenOk` tells
whether `fopen` returns a non-NULL stream, `script` holds the answers of the
device and the sink, pass by pass. -/
def performTransfer (K : VdiHeader) (fopenOk : Bool) (script : List DeviceRound)
    (backup : Int) (streamId : Int) : List Event × Outcome :=
  if fopenOk then
    match commandLoop K script with
    | (calls, some hr) =>
      (Event.fopen (sinkName streamId) (sinkMode backup) true :: (calls ++ [Event.fclose]),
        Outcome.returned (if hr ≠ K.VD_E_CLOSE then -1 else 0))
    | (calls, none) =>
      (Event.fopen (sinkName streamId) (sinkMode backup) true :: calls, Outcome.blocked)
  else
    ([Event.fopen (sinkName streamId) (sinkMode backup) false], Outcome.returned (-1))

/-- The calls that follow the loop when it starts on `rest`: the rest of the
loop, then `fclose` if the loop is ever left. -/
def afterRound (K : VdiHeader) (rest : List DeviceRound) : List Event :=
  (commandLoop K rest).1 ++ (if (commandLoop K rest).2.isSome then [Event.fclose] else [])

/-! ## Device calls and their alternation -/

/-- The calls to the virtual device (`GetCommand`, `CompleteCommand`) among a
list of calls, in order. -/
def deviceCalls : List Event → List Event
  | [] => []
  | Event.GetCommand hr cmd :: rest => Event.GetCommand hr cmd :: deviceCalls rest
  | Event.CompleteCommand cmd cc bt hr :: rest =>
    Event.CompleteCommand cmd cc bt hr :: deviceCalls rest
  | _ :: rest => deviceCalls rest

/-- A list of device calls strictly alternates: it is a sequence of pairs, a
successful `GetCommand` delivering a command followed by one `CompleteCommand`
for that same command, ended either by nothing, by a failing `GetCommand`, or
right after a failing `CompleteCommand`. -/
def StrictlyAlternates : List Event → Prop
  | [] => True
  | [Event.GetCommand hr _] => SUCCEEDED hr = false
  | Event.GetCommand hr cmd :: Event.CompleteCommand cmd2 _ _ hr2 :: rest =>
    SUCCEEDED hr = true ∧ cmd2 = cmd ∧ (SUCCEEDED hr2 = false → rest = []) ∧
      StrictlyAlternates rest
  | _ => False

/-! ## The secondary process: `runSecondary` -/

/-- What the outside world answers during a run of `runSecondary`: the status
of `OpenInSecondary`, of `OpenDevice`, the answer of
`GetConfiguration (INFINITE, &config)` (status and `config.features`; `none`
when it never answers), then what `performTransfer` needs. -/
structure SecondaryWorld where
  hrOpenInSecondary : HRESULT
  hrOpenDevice : HRESULT
  configuration : Option (HRESULT × Nat)
  fopenOk : Bool
  script : List DeviceRound
  deriving DecidableEq, Repr

/-- The device name built at the top of `runSecondary`: the set name for stream
0, else `swprintf (devName, L"%ls%d", wVdsName, streamId)`. -/
def deviceName (wVdsName : String) (streamId : Int) : String :=
  if streamId = 0 then wVdsName else wVdsName ++ toString streamId

/-- The label `errExit` of `runSecondary`: abort if `termCode != 0`, then close
the device set. -/
def errExit (termCode : Int) : List Event :=
  (if termCode ≠ 0 then [Event.SignalAbort] else []) ++ [Event.Close]

/-- The function `runSecondary (streamId, vds)`; `wVdsName` is the global set
name.  The `backup` argument handed to `performTransfer` is
`config.features & VDF_WriteMedia`, a `DWORD` converted to `int` (which keeps
zero zero and nonzero nonzero). -/
def runSecondary (K : VdiHeader) (wVdsName : String) (w : SecondaryWorld) (streamId : Int) :
    List Event × Outcome :=
  if SUCCEEDED w.hrOpenInSecondary then
    if SUCCEEDED w.hrOpenDevice then
      match w.configuration with
      | none =>
        ([Event.OpenInSecondary wVdsName w.hrOpenInSecondary,
          Event.OpenDevice (deviceName wVdsName streamId) w.hrOpenDevice], Outcome.blocked)
      | some (hr, features) =>
        if SUCCEEDED hr then
          match performTransfer K w.fopenOk w.script
              ((features &&& K.VDF_WriteMedia : Nat) : Int) streamId with
          | (calls, Outcome.returned termCode) =>
            (Event.OpenInSecondary wVdsName w.hrOpenInSecondary ::
              Event.OpenDevice (deviceName wVdsName streamId) w.hrOpenDevice ::
              Event.GetConfiguration none hr features :: (calls ++ errExit termCode),
              Outcome.returned termCode)
          | (calls, Outcome.blocked) =>
            (Event.OpenInSecondary wVdsName w.hrOpenInSecondary ::
              Event.OpenDevice (deviceName wVdsName streamId) w.hrOpenDevice ::
              Event.GetConfiguration none hr features :: calls, Outcome.blocked)
        else
          (Event.OpenInSecondary wVdsName w.hrOpenInSecondary ::
            Event.OpenDevice (deviceName wVdsName streamId) w.hrOpenDevice ::
            Event.GetConfiguration none hr features :: errExit (-1), Outcome.returned (-1))
    else
      ([Event.OpenInSecondary wVdsName w.hrOpenInSecondary,
        Event.OpenDevice (deviceName wVdsName streamId) w.hrOpenDevice], Outcome.returned (-1))
  else
    ([Event.OpenInSecondary wVdsName w.hrOpenInSecondary], Outcome.returned (-1))

/-! ## The primary process: `startSecondaries` -/

/-- The array `HANDLE children[33]`, as a map from index to handle.  The array
holds `nStreams + 1` live entries and `main` keeps `nStreams` within 1..32. -/
abbrev Children := Nat → HANDLE

/-- The assignment `children[ix] = h`. -/
def Children.assign (children : Children) (ix : Nat) (h : HANDLE) : Children :=
  fun i => if i = ix then h else children i

/-- The call `memmove (&children[ix], &children[ix+1], sizeof (HANDLE) * count)`:
entries `ix+1 .. ix+count` are copied one place down. -/
def Children.memmove (children : Children) (ix count : Nat) : Children :=
  fun i => if ix ≤ i ∧ i < ix + count then children (i + 1) else children i

/-- The first `nActive` entries of the array, the handles that
`WaitForMultipleObjects (nActive, children, FALSE, INFINITE)` waits on. -/
def Children.active (children : Children) (nActive : Nat) : List HANDLE :=
  (List.range nActive).map children

/-- The command line of the secondary for stream `ix`,
`sprintf (cmd, "%s s %d %ls", pgmName, ix, wVdsName)`. -/
def secondaryCommandLine (pgmName wVdsName : String) (ix : Nat) : String :=
  pgmName ++ " s " ++ toString ix ++ " " ++ wVdsName

/-- The first `n` passes of the loop `for (ix=0; ix<nStreams; ix++)` of
`startSecondaries`: the calls made and the array, or `none` for the array when
a `CreateProcess` failed (`goto errorExit`).  `createProcess ix` is the answer
to the call made for stream `ix`: the new process handle, or `none` when the
call fails.  The array starts uninitialised (shown as 0); an entry is only read
after it has been assigned. -/
def spawnLoop (pgmName wVdsName : String) (createProcess : Nat → Option HANDLE) :
    Nat → List Event × Option Children
  | 0 => ([], some (fun _ => 0))
  | ix + 1 =>
    match spawnLoop pgmName wVdsName createProcess ix with
    | (calls, none) => (calls, none)
    | (calls, some children) =>
      match createProcess ix with
      | none =>
        (calls ++ [Event.CreateProcess (secondaryCommandLine pgmName wVdsName ix) none], none)
      | some h =>
        (calls ++ [Event.CreateProcess (secondaryCommandLine pgmName wVdsName ix) (some h)],
          some (children.assign ix h))

/-- What the outside world answers during one pass of the `do ... while` loop
of `startSecondaries`: the value returned by `WaitForMultipleObjects`, then the
result of `GetExitCodeProcess` (its `BOOL` and the exit code it stores). -/
structure WaitRound where
  waitStatus : Nat
  exitOk : Bool
  exitCode : Nat
  deriving DecidableEq, Repr

/-- The loop `do { ... } while (nActive > 0)` of `startSecondaries`, entered
with the given array and count; every `goto errorExit` is followed through to
`SignalAbort` and `return -1`. -/
def waitLoop : Children → Nat → List WaitRound → List Event × Outcome
  | _, _, [] => ([], Outcome.blocked)
  | children, nActive, r :: rest =>
    if WAIT_OBJECT_0 ≤ r.waitStatus ∧ r.waitStatus < WAIT_OBJECT_0 + nActive then
      if r.exitOk then
        if r.exitCode ≠ 0 then
          ([Event.WaitForMultipleObjects nActive (children.active nActive) r.waitStatus,
            Event.GetExitCodeProcess (children (r.waitStatus - WAIT_OBJECT_0)) true r.exitCode,
            Event.SignalAbort], Outcome.returned (-1))
        else if nActive - 1 > 0 then
          (Event.WaitForMultipleObjects nActive (children.active nActive) r.waitStatus ::
            Event.GetExitCodeProcess (children (r.waitStatus - WAIT_OBJECT_0)) true r.exitCode ::
            Event.CloseHandle (children (r.waitStatus - WAIT_OBJECT_0)) ::
            (waitLoop
              (children.memmove (r.waitStatus - WAIT_OBJECT_0)
                (nActive - (r.waitStatus - WAIT_OBJECT_0) - 1))
              (nActive - 1) rest).1,
            (waitLoop
              (children.memmove (r.waitStatus - WAIT_OBJECT_0)
                (nActive - (r.waitStatus - WAIT_OBJECT_0) - 1))
              (nActive - 1) rest).2)
        else
          ([Event.WaitForMultipleObjects nActive (children.active nActive) r.waitStatus,
            Event.GetExitCodeProcess (children (r.waitStatus - WAIT_OBJECT_0)) true r.exitCode,
            Event.CloseHandle (children (r.waitStatus - WAIT_OBJECT_0))], Outcome.returned 0)
      else
        ([Event.WaitForMultipleObjects nActive (children.active nActive) r.waitStatus,
          Event.GetExitCodeProcess (children (r.waitStatus - WAIT_OBJECT_0)) false r.exitCode,
          Event.SignalAbort], Outcome.returned (-1))
    else
      ([Event.WaitForMultipleObjects nActive (children.active nActive) r.waitStatus,
        Event.SignalAbort], Outcome.returned (-1))

/-- The function `startSecondaries (vds, hSQLProcess, nStreams, pgmName)`;
`wVdsName` is the global set name, `createProcess` and `waits` are the answers
of the process API. -/
def startSecondaries (pgmName wVdsName : String) (createProcess : Nat → Option HANDLE)
    (waits : List WaitRound) (hSQLProcess : HANDLE) (nStreams : Nat) : List Event × Outcome :=
  match spawnLoop pgmName wVdsName createProcess nStreams with
  | (calls, none) => (calls ++ [Event.SignalAbort], Outcome.returned (-1))
  | (calls, some children) =>
    (calls ++ (waitLoop (children.assign nStreams hSQLProcess) (nStreams + 1) waits).1,
      (waitLoop (children.assign nStreams hSQLProcess) (nStreams + 1) waits).2)

/-! ## What a trace of `startSecondaries` shows -/

/-- The handles of the processes started: the results of the successful
`CreateProcess` calls, in order. -/
def spawned : List Event → List HANDLE
  | [] => []
  | Event.CreateProcess _ (some h) :: rest => h :: spawned rest
  | _ :: rest => spawned rest

/-- The participants observed to have exited with exit code 0: the handles for
which `GetExitCodeProcess` succeeded and stored 0, in order. -/
def observedExitZero : List Event → List HANDLE
  | [] => []
  | Event.GetExitCodeProcess h ok exitCode :: rest =>
    if ok = true ∧ exitCode = 0 then h :: observedExitZero rest else observedExitZero rest
  | _ :: rest => observedExitZero rest

/-- The observations that end the wait: a participant seen with a nonzero exit
code, or a wait result outside `[WAIT_OBJECT_0, WAIT_OBJECT_0 + nCount)`. -/
def FailureObserved : Event → Prop
  | Event.GetExitCodeProcess _ ok exitCode => ok = true ∧ exitCode ≠ 0
  | Event.WaitForMultipleObjects nCount _ ret =>
    ¬ (WAIT_OBJECT_0 ≤ ret ∧ ret < WAIT_OBJECT_0 + nCount)
  | _ => False

/-- The calls to `CreateProcess` among a list of calls, in order. -/
def processLaunches : List Event → List Event
  | [] => []
  | Event.CreateProcess cmd ret :: rest => Event.CreateProcess cmd ret :: processLaunches rest
  | _ :: rest => processLaunches rest

/-! ## The SQL command: `execSQL` -/

/-- The text appended to `cmd` by the first `k` passes of the loop
`for (ix=1; ix<nStreams; ix++)` of `execSQL`, each pass appending
`sprintf (extend, ", VIRTUAL_DEVICE='%ls%d'", wVdsName, ix)`. -/
def execSQLExtend (wVdsName : String) : Nat → String
  | 0 => ""
  | k + 1 =>
    execSQLExtend wVdsName k ++ (", VIRTUAL_DEVICE='" ++ wVdsName ++ toString (k + 1) ++ "'")

/-- The command line built by `execSQL (doBackup, nStreams)`: the first
`sprintf`, the loop (which makes `nStreams - 1` passes), and the closing
quote. -/
def execSQLCommand (doBackup : Bool) (wVdsName : String) (nStreams : Nat) : String :=
  "osql -E -b -Q\"" ++ (if doBackup then "BACKUP" else "RESTORE") ++ " DATABASE PUBS " ++
    (if doBackup then "TO" else "FROM") ++ " VIRTUAL_DEVICE='" ++ wVdsName ++ "'" ++
    execSQLExtend wVdsName (nStreams - 1) ++ "\""

/-- One `VIRTUAL_DEVICE='name'` clause of the SQL command. -/
def deviceClause (name : String) : String :=
  "VIRTUAL_DEVICE='" ++ name ++ "'"

/-- The clauses for a list of device names, separated by a comma and a blank:
the device list of a `BACKUP ... TO` / `RESTORE ... FROM` statement. -/
def deviceList : List String → String
  | [] => ""
  | [name] => deviceClause name
  | name :: rest => deviceClause name ++ ", " ++ deviceList rest

/-- The value of a string of decimal digits. -/
def decimalValue (digits : List Char) : Nat :=
  digits.foldl (fun acc c => 10 * acc + (c.toNat - 48)) 0

/-! ## The program entry: `main` -/

/-- The command line of the program as `main` looks at it: `argc`, `argv[0]`,
the first character of `argv[1]`, what `sscanf (argv[2], "%d", &nStreams)`
stores (`none` when it converts nothing), and `argv[3]`. -/
structure MainArgs where
  argc : Nat
  argv0 : String
  mode : Char
  scanned : Option Int
  argv3 : String
  deriving DecidableEq, Repr

/-- What the outside world answers during a run of `main`: the COM start-up
calls, the generated set name (`CoCreateGuid`, `StringFromGUID2`),
`vds->Create`, the `CreateProcess` of `execSQL`, `GetConfiguration (15000)`,
then what `startSecondaries` and `runSecondary` need. -/
structure MainWorld where
  hrCoInitializeEx : HRESULT
  hrCoCreateInstance : HRESULT
  guidName : String
  hrCreate : HRESULT
  execSQL : Option HANDLE
  hrGetConfiguration : HRESULT
  features : Nat
  createProcess : Nat → Option HANDLE
  waits : List WaitRound
  secondary : SecondaryWorld

/-- The argument check at the top of `main`: `none` for a bad parameter, else
`(doBackup, isSecondary)`. -/
def parseMode (a : MainArgs) : Option (Bool × Bool) :=
  if 3 ≤ a.argc then
    if a.mode.toUpper = 'B' then some (true, false)
    else if a.mode.toUpper = 'R' then some (false, false)
    else if a.mode.toUpper = 'S' then some (false, true)
    else none
  else none

/-- The value of `nStreams` after the argument check: initialised to 1, then
overwritten by `sscanf` when `argc >= 3`. -/
def scannedStreams (a : MainArgs) : Int :=
  if 3 ≤ a.argc then a.scanned.getD 1 else 1

/-- The limiting of `nStreams` to 1..32 done for the primary process. -/
def limitStreams (nStreams : Int) : Int :=
  if nStreams < 1 then 1 else if nStreams > 32 then 32 else nStreams

/-- The primary part of `main`, from `vds->Create` to the label `exit`. -/
def runPrimary (a : MainArgs) (w : MainWorld) (doBackup : Bool) (nStreams : Int) :
    List Event × Outcome :=
  if SUCCEEDED w.hrCreate then
    match w.execSQL with
    | none =>
      ([Event.Create w.guidName nStreams w.hrCreate,
        Event.CreateProcess (execSQLCommand doBackup w.guidName nStreams.toNat) none,
        Event.Close, Event.Release, Event.CoUninitialize], Outcome.returned (-1))
    | some hProcess =>
      if SUCCEEDED w.hrGetConfiguration then
        match startSecondaries a.argv0 w.guidName w.createProcess w.waits hProcess
            nStreams.toNat with
        | (calls, Outcome.returned termCode) =>
          (Event.Create w.guidName nStreams w.hrCreate ::
            Event.CreateProcess (execSQLCommand doBackup w.guidName nStreams.toNat)
              (some hProcess) ::
            Event.GetConfiguration (some 15000) w.hrGetConfiguration w.features ::
            (calls ++ [Event.Close, Event.Release, Event.CoUninitialize]),
            Outcome.returned termCode)
        | (calls, Outcome.blocked) =>
          (Event.Create w.guidName nStreams w.hrCreate ::
            Event.CreateProcess (execSQLCommand doBackup w.guidName nStreams.toNat)
              (some hProcess) ::
            Event.GetConfiguration (some 15000) w.hrGetConfiguration w.features :: calls,
            Outcome.blocked)
      else
        ([Event.Create w.guidName nStreams w.hrCreate,
          Event.CreateProcess (execSQLCommand doBackup w.guidName nStreams.toNat)
            (some hProcess),
          Event.GetConfiguration (some 15000) w.hrGetConfiguration w.features,
          Event.Close, Event.Release, Event.CoUninitialize], Outcome.returned (-1))
  else
    ([Event.Create w.guidName nStreams w.hrCreate, Event.CoUninitialize],
      Outcome.returned (-1))

/-- The function `main`.  `exit (1)` ends the process with exit code 1; for a
secondary the global `wVdsName` is `argv[3]` and `nStreams` is the stream id;
for the primary `wVdsName` is the generated name and `nStreams` is limited to
1..32 before it becomes `config.deviceCount`. -/
def main (K : VdiHeader) (a : MainArgs) (w : MainWorld) : List Event × Outcome :=
  match parseMode a with
  | none => ([], Outcome.returned 1)
  | some (doBackup, isSecondary) =>
    if SUCCEEDED w.hrCoInitializeEx then
      if SUCCEEDED w.hrCoCreateInstance then
        if isSecondary then
          match runSecondary K a.argv3 w.secondary (scannedStreams a) with
          | (calls, Outcome.returned termCode) =>
            (Event.CoInitializeEx w.hrCoInitializeEx ::
              Event.CoCreateInstance w.hrCoCreateInstance ::
              (calls ++ [Event.CoUninitialize]), Outcome.returned termCode)
          | (calls, Outcome.blocked) =>
            (Event.CoInitializeEx w.hrCoInitializeEx ::
              Event.CoCreateInstance w.hrCoCreateInstance :: calls, Outcome.blocked)
        else
          (Event.CoInitializeEx w.hrCoInitializeEx ::
            Event.CoCreateInstance w.hrCoCreateInstance ::
            (runPrimary a w doBackup (limitStreams (scannedStreams a))).1,
            (runPrimary a w doBackup (limitStreams (scannedStreams a))).2)
      else
        ([Event.CoInitializeEx w.hrCoInitializeEx,
          Event.CoCreateInstance w.hrCoCreateInstance, Event.CoUninitialize],
          Outcome.returned (-1))
    else
      ([Event.CoInitializeEx w.hrCoInitializeEx], Outcome.returned 1)

/-- The observations that send `startSecondaries` to `errorExit`: a
`CreateProcess` that failed, a `GetExitCodeProcess` that failed or stored a
nonzero exit code, a wait result outside
`[WAIT_OBJECT_0, WAIT_OBJECT_0 + nCount)`. -/
def ExitFailure : Event → Prop
  | Event.CreateProcess _ ret => ret = none
  | Event.GetExitCodeProcess _ ok exitCode => ok = false ∨ exitCode ≠ 0
  | Event.WaitForMultipleObjects nCount _ ret =>
    ¬ (WAIT_OBJECT_0 ≤ ret ∧ ret < WAIT_OBJECT_0 + nCount)
  | _ => False

/-- The operations on the open sink among a list of calls, in order: `fread`,
`fwrite`, `fflush` and `fclose`. -/
def sinkOperations : List Event → List Event
  | [] => []
  | Event.fread buffer count ret :: rest => Event.fread buffer count ret :: sinkOperations rest
  | Event.fwrite buffer count ret :: rest =>
    Event.fwrite buffer count ret :: sinkOperations rest
  | Event.fflush ret :: rest => Event.fflush ret :: sinkOperations rest
  | Event.fclose :: rest => Event.fclose :: sinkOperations rest
  | _ :: rest => sinkOperations rest

/-- The `CompleteCommand` calls among a list of calls, in order. -/
def completions : List Event → List Event
  | [] => []
  | Event.CompleteCommand cmd cc bt hr :: rest =>
    Event.CompleteCommand cmd cc bt hr :: completions rest
  | _ :: rest => completions rest

/-! ## The command loops of `simple.cpp` and `osimple.cpp`

Both functions return `void`; the second component of their result tells
whether they return at all. -/

namespace Simple

/-- The `switch (cmd->commandCode)` of `performTransfer` in `simple.cpp`,
entered with `bytesTransferred = 0`: the sink calls made, then `completionCode`
and `bytesTransferred`. -/
def switchCommandCode (K : VdiHeader) (cmd : VDC_Command) (ioRet : Nat) (flushRet : Int) :
    List Event × Nat × Nat :=
  if cmd.commandCode = K.VDC_Read then
    ([Event.fread cmd.buffer cmd.size ioRet],
      (if ioRet = cmd.size then ERROR_SUCCESS else ERROR_HANDLE_EOF), ioRet)
  else if cmd.commandCode = K.VDC_Write then
    ([Event.fwrite cmd.buffer cmd.size ioRet],
      (if ioRet = cmd.size then ERROR_SUCCESS else ERROR_DISK_FULL), ioRet)
  else if cmd.commandCode = K.VDC_Flush then
    ([Event.fflush flushRet], ERROR_SUCCESS, 0)
  else if cmd.commandCode = K.VDC_ClearError then
    ([], ERROR_SUCCESS, 0)
  else
    ([], ERROR_NOT_SUPPORTED, 0)

/-- The `while (SUCCEEDED (hr=vd->GetCommand (INFINITE, &cmd)))` loop of
`performTransfer` in `simple.cpp`: the calls made, and whether the loop is
ever left. -/
def commandLoop (K : VdiHeader) : List DeviceRound → List Event × Bool
  | [] => ([], false)
  | r :: rest =>
    if SUCCEEDED r.hrGet then
      if SUCCEEDED r.hrComplete then
        (Event.GetCommand r.hrGet r.cmd ::
          ((switchCommandCode K r.cmd r.ioRet r.flushRet).1 ++
            Event.CompleteCommand r.cmd (switchCommandCode K r.cmd r.ioRet r.flushRet).2.1
              (switchCommandCode K r.cmd r.ioRet r.flushRet).2.2 r.hrComplete ::
            (commandLoop K rest).1),
          (commandLoop K rest).2)
      else
        (Event.GetCommand r.hrGet r.cmd ::
          ((switchCommandCode K r.cmd r.ioRet r.flushRet).1 ++
            [Event.CompleteCommand r.cmd (switchCommandCode K r.cmd r.ioRet r.flushRet).2.1
              (switchCommandCode K r.cmd r.ioRet r.flushRet).2.2 r.hrComplete]), true)
    else
      ([Event.GetCommand r.hrGet r.cmd], true)

/-- The function `performTransfer (vd, backup)` of `simple.cpp`; the sink is
the file `superbak.dmp`. -/
def performTransfer (K : VdiHeader) (fopenOk : Bool) (script : List DeviceRound)
    (backup : Int) : List Event × Bool :=
  if fopenOk then
    if (commandLoop K script).2 then
      (Event.fopen "superbak.dmp" (if backup ≠ 0 then "wb" else "rb") true ::
        ((commandLoop K script).1 ++ [Event.fclose]), true)
    else
      (Event.fopen "superbak.dmp" (if backup ≠ 0 then "wb" else "rb") true ::
        (commandLoop K script).1, false)
  else
    ([Event.fopen "superbak.dmp" (if backup ≠ 0 then "wb" else "rb") false], true)

end Simple

namespace Osimple

/-- The `switch (cmd->commandCode)` of `performTransfer` in `osimple.cpp`,
entered with `bytesTransferred = 0`: the sink calls made, then `completionCode`
and `bytesTransferred`. -/
def switchCommandCode (K : VdiHeader) (cmd : VDC_Command) (ioRet : Nat) (flushRet : Int) :
    List Event × Nat × Nat :=
  if cmd.commandCode = K.VDC_Read then
    ([Event.fread cmd.buffer cmd.size ioRet],
      (if ioRet = cmd.size then ERROR_SUCCESS else ERROR_HANDLE_EOF), ioRet)
  else if cmd.commandCode = K.VDC_Write then
    ([Event.fwrite cmd.buffer cmd.size ioRet],
      (if ioRet = cmd.size then ERROR_SUCCESS else ERROR_DISK_FULL), ioRet)
  else if cmd.commandCode = K.VDC_Flush then
    ([Event.fflush flushRet], ERROR_SUCCESS, 0)
  else if cmd.commandCode = K.VDC_ClearError then
    ([], ERROR_SUCCESS, 0)
  else
    ([], ERROR_NOT_SUPPORTED, 0)

/-- The `while (SUCCEEDED (hr=vd->GetCommand (INFINITE, &cmd)))` loop of
`performTransfer` in `osimple.cpp`: the calls made, and whether the loop is
ever left. -/
def commandLoop (K : VdiHeader) : List DeviceRound → List Event × Bool
  | [] => ([], false)
  | r :: rest =>
    if SUCCEEDED r.hrGet then
      if SUCCEEDED r.hrComplete then
        (Event.GetCommand r.hrGet r.cmd ::
          ((switchCommandCode K r.cmd r.ioRet r.flushRet).1 ++
            Event.CompleteCommand r.cmd (switchCommandCode K r.cmd r.ioRet r.flushRet).2.1
              (switchCommandCode K r.cmd r.ioRet r.flushRet).2.2 r.hrComplete ::
            (commandLoop K rest).1),
          (commandLoop K rest).2)
      else
        (Event.GetCommand r.hrGet r.cmd ::
          ((switchCommandCode K r.cmd r.ioRet r.flushRet).1 ++
            [Event.CompleteCommand r.cmd (switchCommandCode K r.cmd r.ioRet r.flushRet).2.1
              (switchCommandCode K r.cmd r.ioRet r.flushRet).2.2 r.hrComplete]), true)
    else
      ([Event.GetCommand r.hrGet r.cmd], true)

/-- The function `performTransfer (vd, backup)` of `osimple.cpp`; the sink is
the file `superbak.dmp`. -/
def performTransfer (K : VdiHeader) (fopenOk : Bool) (script : List DeviceRound)
    (backup : Int) : List Event × Bool :=
  if fopenOk then
    if (commandLoop K script).2 then
      (Event.fopen "superbak.dmp" (if backup ≠ 0 then "wb" else "rb") true ::
        ((commandLoop K script).1 ++ [Event.fclose]), true)
    else
      (Event.fopen "superbak.dmp" (if backup ≠ 0 then "wb" else "rb") true ::
        (commandLoop K script).1, false)
  else
    ([Event.fopen "superbak.dmp" (if backup ≠ 0 then "wb" else "rb") false], true)

end Osimple

/-! ## Structure of the trace of the command loop -/

theorem append_split_of_not_mem {α : Type} (l t p q : List α) (x : α)
    (h : l ++ t = p ++ x :: q) (hx : x ∉ l) :
    ∃ p2, p = l ++ p2 ∧ t = p2 ++ x :: q := by
  induction l generalizing p with
  | nil => exact ⟨p, by simp, by simpa using h⟩
  | cons a l ih =>
    cases p with
    | nil =>
      simp only [List.cons_append, List.nil_append, List.cons.injEq] at h
      exact absurd (by simp [h.1]) hx
    | cons b p =>
      simp only [List.cons_append, List.cons.injEq] at h
      obtain ⟨p2, hp, ht⟩ := ih p h.2 (fun hm => hx (List.mem_cons_of_mem _ hm))
      exact ⟨p2, by simp [h.1, hp], ht⟩

theorem snoc_split_of_ne {α : Type} (l p q : List α) (x y : α)
    (h : l ++ [y] = p ++ x :: q) (hxy : x ≠ y) :
    ∃ q2, l = p ++ x :: q2 ∧ q = q2 ++ [y] := by
  induction l generalizing p with
  | nil =>
    cases p with
    | nil =>
      simp only [List.nil_append, List.cons.injEq] at h
      exact absurd h.1.symm hxy
    | cons b p =>
      simp only [List.nil_append, List.cons_append, List.cons.injEq] at h
      exact absurd h.2 (by simp)
  | cons a l ih =>
    cases p with
    | nil =>
      simp only [List.cons_append, List.nil_append, List.cons.injEq] at h
      exact ⟨l, by simp [h.1], h.2.symm⟩
    | cons b p =>
      simp only [List.cons_append, List.cons.injEq] at h
      obtain ⟨q2, hl, hq⟩ := ih p h.2
      exact ⟨q2, by simp [h.1, hl], hq⟩

theorem GetCommand_not_mem_completeRound (K : VdiHeader) (r : DeviceRound) (hr : HRESULT)
    (cmd : VDC_Command) : Event.GetCommand hr cmd ∉ completeRound K r := by
  unfold completeRound switchCommandCode
  split_ifs <;> simp

theorem deviceCalls_append (l t : List Event) :
    deviceCalls (l ++ t) = deviceCalls l ++ deviceCalls t := by
  induction l with
  | nil => rfl
  | cons e l ih => cases e <;> simp [deviceCalls, ih]

theorem deviceCalls_completeRound (K : VdiHeader) (r : DeviceRound) :
    deviceCalls (completeRound K r) =
      [Event.CompleteCommand r.cmd (switchCommandCode K r.cmd r.ioRet r.flushRet).2.1
        (switchCommandCode K r.cmd r.ioRet r.flushRet).2.2 r.hrComplete] := by
  unfold completeRound
  rw [deviceCalls_append]
  have h : deviceCalls (switchCommandCode K r.cmd r.ioRet r.flushRet).1 = [] := by
    unfold switchCommandCode
    split_ifs <;> rfl
  rw [h]
  rfl

theorem commandLoop_continue (K : VdiHeader) (r : DeviceRound) (rest : List DeviceRound)
    (h1 : SUCCEEDED r.hrGet = true) (h2 : SUCCEEDED r.hrComplete = true) :
    commandLoop K (r :: rest) =
      (Event.GetCommand r.hrGet r.cmd :: (completeRound K r ++ (commandLoop K rest).1),
        (commandLoop K rest).2) := by
  simp [commandLoop, h1, h2]

theorem commandLoop_break (K : VdiHeader) (r : DeviceRound) (rest : List DeviceRound)
    (h1 : SUCCEEDED r.hrGet = true) (h2 : SUCCEEDED r.hrComplete = false) :
    commandLoop K (r :: rest) =
      (Event.GetCommand r.hrGet r.cmd :: completeRound K r, some r.hrComplete) := by
  simp [commandLoop, h1, h2]

theorem commandLoop_fail (K : VdiHeader) (r : DeviceRound) (rest : List DeviceRound)
    (h1 : SUCCEEDED r.hrGet = false) :
    commandLoop K (r :: rest) = ([Event.GetCommand r.hrGet r.cmd], some r.hrGet) := by
  simp [commandLoop, h1]

/-- Every successful `GetCommand` in the trace of the loop is followed by the
calls of its pass; the loop then goes on with the rest of the script when
`CompleteCommand` succeeded and stops when it failed. -/
theorem commandLoop_split (K : VdiHeader) (s : List DeviceRound) (pre post : List Event)
    (hr : HRESULT) (cmd : VDC_Command)
    (h : (commandLoop K s).1 = pre ++ Event.GetCommand hr cmd :: post)
    (hs : SUCCEEDED hr = true) :
    ∃ r rest, r.hrGet = hr ∧ r.cmd = cmd ∧
      ((SUCCEEDED r.hrComplete = true ∧ post = completeRound K r ++ (commandLoop K rest).1 ∧
          (commandLoop K s).2 = (commandLoop K rest).2) ∨
       (SUCCEEDED r.hrComplete = false ∧ post = completeRound K r ∧
          (commandLoop K s).2 = some r.hrComplete)) := by
  induction s generalizing pre with
  | nil => simp [commandLoop] at h
  | cons r rest ih =>
    cases h1 : SUCCEEDED r.hrGet with
    | true =>
      cases h2 : SUCCEEDED r.hrComplete with
      | true =>
        rw [commandLoop_continue K r rest h1 h2] at h ⊢
        cases pre with
        | nil =>
          simp only [List.nil_append, List.cons.injEq, Event.GetCommand.injEq] at h
          exact ⟨r, rest, h.1.1, h.1.2, Or.inl ⟨h2, h.2.symm, rfl⟩⟩
        | cons e pre =>
          simp only [List.cons_append, List.cons.injEq] at h
          obtain ⟨p2, -, ht⟩ := append_split_of_not_mem _ _ _ _ _ h.2
            (GetCommand_not_mem_completeRound K r hr cmd)
          exact ih p2 ht
      | false =>
        rw [commandLoop_break K r rest h1 h2] at h ⊢
        cases pre with
        | nil =>
          simp only [List.nil_append, List.cons.injEq, Event.GetCommand.injEq] at h
          exact ⟨r, rest, h.1.1, h.1.2, Or.inr ⟨h2, h.2.symm, rfl⟩⟩
        | cons e pre =>
          simp only [List.cons_append, List.cons.injEq] at h
          have hm : Event.GetCommand hr cmd ∈ completeRound K r := by
            rw [h.2]; simp
          exact absurd hm (GetCommand_not_mem_completeRound K r hr cmd)
    | false =>
      rw [commandLoop_fail K r rest h1] at h
      cases pre with
      | nil =>
        simp only [List.nil_append, List.cons.injEq, Event.GetCommand.injEq] at h
        rw [h.1.1, hs] at h1
        exact absurd h1 (by simp)
      | cons e pre =>
        simp only [List.cons_append, List.cons.injEq] at h
        exact absurd h.2 (by simp)

/-! ## Structure of the trace of `performTransfer` -/

theorem performTransfer_no_sink (K : VdiHeader) (script : List DeviceRound)
    (backup streamId : Int) :
    performTransfer K false script backup streamId =
      ([Event.fopen (sinkName streamId) (sinkMode backup) false], Outcome.returned (-1)) := by
  simp [performTransfer]

theorem performTransfer_trace (K : VdiHeader) (script : List DeviceRound)
    (backup streamId : Int) :
    (performTransfer K true script backup streamId).1 =
      Event.fopen (sinkName streamId) (sinkMode backup) true :: afterRound K script := by
  unfold performTransfer afterRound
  rcases hloop : commandLoop K script with ⟨calls, _ | hr⟩ <;> simp

theorem performTransfer_outcome (K : VdiHeader) (script : List DeviceRound)
    (backup streamId : Int) :
    (performTransfer K true script backup streamId).2 =
      match (commandLoop K script).2 with
      | some hr => Outcome.returned (if hr ≠ K.VD_E_CLOSE then -1 else 0)
      | none => Outcome.blocked := by
  unfold performTransfer
  rcases hloop : commandLoop K script with ⟨calls, _ | hr⟩ <;> simp

/-- Where the loop stands after a pass: either it is waiting in `GetCommand`
for an answer that never comes, or its next call is `GetCommand`. -/
theorem afterRound_head (K : VdiHeader) (rest : List DeviceRound) :
    (afterRound K rest = [] ∧ (commandLoop K rest).2 = none) ∨
      ∃ hr cmd t, afterRound K rest = Event.GetCommand hr cmd :: t := by
  cases rest with
  | nil => exact Or.inl ⟨by simp [afterRound, commandLoop], by simp [commandLoop]⟩
  | cons r rest =>
    refine Or.inr ⟨r.hrGet, r.cmd, ?_⟩
    unfold afterRound
    cases h1 : SUCCEEDED r.hrGet with
    | true =>
      cases h2 : SUCCEEDED r.hrComplete with
      | true => rw [commandLoop_continue K r rest h1 h2]; exact ⟨_, rfl⟩
      | false => rw [commandLoop_break K r rest h1 h2]; exact ⟨_, rfl⟩
    | false => rw [commandLoop_fail K r rest h1]; exact ⟨_, rfl⟩

/-- Every successful `GetCommand` in a run of `performTransfer` is followed by
the calls of its pass; after a successful `CompleteCommand` the run goes on
with the next pass, after a failed one it closes the sink and ends. -/
theorem performTransfer_split (K : VdiHeader) (fopenOk : Bool) (script : List DeviceRound)
    (backup streamId : Int) (pre post : List Event) (hr : HRESULT) (cmd : VDC_Command)
    (h : (performTransfer K fopenOk script backup streamId).1 =
      pre ++ Event.GetCommand hr cmd :: post)
    (hs : SUCCEEDED hr = true) :
    ∃ r rest, r.hrGet = hr ∧ r.cmd = cmd ∧
      ((SUCCEEDED r.hrComplete = true ∧ post = completeRound K r ++ afterRound K rest ∧
          ((commandLoop K rest).2 = none →
            (performTransfer K fopenOk script backup streamId).2 = Outcome.blocked)) ∨
       (SUCCEEDED r.hrComplete = false ∧ post = completeRound K r ++ [Event.fclose])) := by
  cases fopenOk with
  | false =>
    rw [performTransfer_no_sink] at h
    cases pre with
    | nil => simp at h
    | cons e pre => simp at h
  | true =>
    rw [performTransfer_trace] at h
    rw [performTransfer_outcome]
    cases pre with
    | nil => simp at h
    | cons e pre =>
      simp only [List.cons_append, List.cons.injEq] at h
      have h := h.2
      unfold afterRound at h
      cases hx : (commandLoop K script).2 with
      | none =>
        simp only [hx, Option.isSome_none, Bool.false_eq_true, if_false,
          List.append_nil] at h
        obtain ⟨r, rest, hg, hc, hcase⟩ := commandLoop_split K script pre post hr cmd h hs
        refine ⟨r, rest, hg, hc, ?_⟩
        rcases hcase with ⟨h2, hp, he⟩ | ⟨h2, hp, he⟩
        · rw [hx] at he
          exact Or.inl ⟨h2, by simp [afterRound, ← he, hp], fun _ => rfl⟩
        · rw [hx] at he
          exact absurd he (by simp)
      | some hr0 =>
        simp only [hx, Option.isSome_some, if_true] at h
        obtain ⟨q2, hl, hq⟩ := snoc_split_of_ne _ _ _ _ _ h (by simp)
        obtain ⟨r, rest, hg, hc, hcase⟩ := commandLoop_split K script pre q2 hr cmd hl hs
        refine ⟨r, rest, hg, hc, ?_⟩
        rcases hcase with ⟨h2, hp, he⟩ | ⟨h2, hp, he⟩
        · rw [hx] at he
          refine Or.inl ⟨h2, by simp [afterRound, ← he, hp, hq], fun hn => ?_⟩
          rw [hn] at he
          exact absurd he (by simp)
        · exact Or.inr ⟨h2, by rw [hq, hp]⟩

/-- The calls that follow a successful `GetCommand` start with the calls of
its pass. -/
theorem performTransfer_pass (K : VdiHeader) (fopenOk : Bool) (script : List DeviceRound)
    (backup streamId : Int) (pre post : List Event) (hr : HRESULT) (cmd : VDC_Command)
    (h : (performTransfer K fopenOk script backup streamId).1 =
      pre ++ Event.GetCommand hr cmd :: post)
    (hs : SUCCEEDED hr = true) :
    ∃ r tail, r.cmd = cmd ∧ post = completeRound K r ++ tail := by
  obtain ⟨r, rest, -, hc, hcase⟩ :=
    performTransfer_split K fopenOk script backup streamId pre post hr cmd h hs
  rcases hcase with ⟨-, hp, -⟩ | ⟨-, hp⟩
  · exact ⟨r, _, hc, hp⟩
  · exact ⟨r, _, hc, hp⟩

theorem completeRound_read (K : VdiHeader) (r : DeviceRound)
    (hc : r.cmd.commandCode = K.VDC_Read) :
    completeRound K r = [Event.fread r.cmd.buffer r.cmd.size r.ioRet,
      Event.CompleteCommand r.cmd
        (if r.ioRet = r.cmd.size then ERROR_SUCCESS else ERROR_HANDLE_EOF) r.ioRet
        r.hrComplete] := by
  simp [completeRound, switchCommandCode, hc]

theorem completeRound_write (K : VdiHeader) (hK : K.WellFormed) (r : DeviceRound)
    (hc : r.cmd.commandCode = K.VDC_Write) :
    completeRound K r = [Event.fwrite r.cmd.buffer r.cmd.size r.ioRet,
      Event.CompleteCommand r.cmd
        (if r.ioRet = r.cmd.size then ERROR_SUCCESS else ERROR_DISK_FULL) r.ioRet
        r.hrComplete] := by
  have h1 : K.VDC_Write ≠ K.VDC_Read := fun h => hK.1 h.symm
  simp [completeRound, switchCommandCode, hc, h1]

theorem completeRound_flush (K : VdiHeader) (hK : K.WellFormed) (r : DeviceRound)
    (hc : r.cmd.commandCode = K.VDC_Flush) :
    completeRound K r = [Event.fflush r.flushRet,
      Event.CompleteCommand r.cmd ERROR_SUCCESS 0 r.hrComplete] := by
  have h1 : K.VDC_Flush ≠ K.VDC_Read := fun h => hK.2.1 h.symm
  have h2 : K.VDC_Flush ≠ K.VDC_Write := fun h => hK.2.2.2.1 h.symm
  simp [completeRound, switchCommandCode, hc, h1, h2]

theorem completeRound_clearError (K : VdiHeader) (hK : K.WellFormed) (r : DeviceRound)
    (hc : r.cmd.commandCode = K.VDC_ClearError) :
    completeRound K r = [Event.CompleteCommand r.cmd ERROR_SUCCESS 0 r.hrComplete] := by
  have h1 : K.VDC_ClearError ≠ K.VDC_Read := fun h => hK.2.2.1 h.symm
  have h2 : K.VDC_ClearError ≠ K.VDC_Write := fun h => hK.2.2.2.2.1 h.symm
  have h3 : K.VDC_ClearError ≠ K.VDC_Flush := fun h => hK.2.2.2.2.2.1 h.symm
  simp [completeRound, switchCommandCode, hc, h1, h2, h3]

theorem completeRound_default (K : VdiHeader) (r : DeviceRound)
    (h1 : r.cmd.commandCode ≠ K.VDC_Read) (h2 : r.cmd.commandCode ≠ K.VDC_Write)
    (h3 : r.cmd.commandCode ≠ K.VDC_Flush) (h4 : r.cmd.commandCode ≠ K.VDC_ClearError) :
    completeRound K r = [Event.CompleteCommand r.cmd ERROR_NOT_SUPPORTED 0 r.hrComplete] := by
  simp [completeRound, switchCommandCode, h1, h2, h3, h4]

/-! ## Terminal status of `performTransfer` -/

theorem CompleteCommand_mem_completeRound (K : VdiHeader) (r : DeviceRound)
    (c : VDC_Command) (cc bt : Nat) (h : HRESULT)
    (hm : Event.CompleteCommand c cc bt h ∈ completeRound K r) : h = r.hrComplete := by
  unfold completeRound switchCommandCode at hm
  split_ifs at hm <;> simp at hm <;> exact hm.2.2.2

theorem completeRound_has_CompleteCommand (K : VdiHeader) (r : DeviceRound) :
    ∃ c cc bt, Event.CompleteCommand c cc bt r.hrComplete ∈ completeRound K r :=
  ⟨r.cmd, (switchCommandCode K r.cmd r.ioRet r.flushRet).2.1,
    (switchCommandCode K r.cmd r.ioRet r.flushRet).2.2, by unfold completeRound; simp⟩

theorem not_SUCCEEDED_of_neg (hr : HRESULT) (h : hr < 0) : SUCCEEDED hr = false := by
  unfold SUCCEEDED
  simp [h]

/-- The loop is left with `hr == VD_E_CLOSE` exactly when some `GetCommand` or
some `CompleteCommand` returned `VD_E_CLOSE`. -/
theorem commandLoop_closed_iff (K : VdiHeader) (hK : K.VD_E_CLOSE < 0) (s : List DeviceRound) :
    (commandLoop K s).2 = some K.VD_E_CLOSE ↔
      ((∃ cmd, Event.GetCommand K.VD_E_CLOSE cmd ∈ (commandLoop K s).1) ∨
        ∃ c cc bt, Event.CompleteCommand c cc bt K.VD_E_CLOSE ∈ (commandLoop K s).1) := by
  have hclose := not_SUCCEEDED_of_neg _ hK
  induction s with
  | nil => simp [commandLoop]
  | cons r rest ih =>
    cases h1 : SUCCEEDED r.hrGet with
    | true =>
      have hne : r.hrGet ≠ K.VD_E_CLOSE := fun h => by rw [h, hclose] at h1; simp at h1
      cases h2 : SUCCEEDED r.hrComplete with
      | true =>
        have hne2 : r.hrComplete ≠ K.VD_E_CLOSE := fun h => by
          rw [h, hclose] at h2; simp at h2
        rw [commandLoop_continue K r rest h1 h2]
        simp only [ih, List.mem_cons, List.mem_append, Event.GetCommand.injEq, reduceCtorEq,
          false_or]
        constructor
        · rintro (⟨cmd, hm⟩ | ⟨c, cc, bt, hm⟩)
          · exact Or.inl ⟨cmd, Or.inr (Or.inr hm)⟩
          · exact Or.inr ⟨c, cc, bt, Or.inr hm⟩
        · rintro (⟨cmd, hm⟩ | ⟨c, cc, bt, hm⟩)
          · rcases hm with hm | hm | hm
            · exact absurd hm.1.symm hne
            · exact absurd hm (GetCommand_not_mem_completeRound K r _ _)
            · exact Or.inl ⟨cmd, hm⟩
          · rcases hm with hm | hm
            · exact absurd (CompleteCommand_mem_completeRound K r c cc bt _ hm).symm hne2
            · exact Or.inr ⟨c, cc, bt, hm⟩
      | false =>
        rw [commandLoop_break K r rest h1 h2]
        simp only [Option.some.injEq, List.mem_cons, Event.GetCommand.injEq, reduceCtorEq,
          false_or]
        constructor
        · intro h
          obtain ⟨c, cc, bt, hm⟩ := completeRound_has_CompleteCommand K r
          exact Or.inr ⟨c, cc, bt, by rw [← h]; exact hm⟩
        · rintro (⟨cmd, hm⟩ | ⟨c, cc, bt, hm⟩)
          · rcases hm with hm | hm
            · exact absurd hm.1.symm hne
            · exact absurd hm (GetCommand_not_mem_completeRound K r _ _)
          · exact (CompleteCommand_mem_completeRound K r c cc bt _ hm).symm
    | false =>
      rw [commandLoop_fail K r rest h1]
      simp only [Option.some.injEq, List.mem_singleton, Event.GetCommand.injEq, reduceCtorEq,
        exists_false, or_false]
      constructor
      · intro h
        exact ⟨r.cmd, h.symm, rfl⟩
      · rintro ⟨cmd, h, -⟩
        exact h.symm

/-- The terminal status of `performTransfer` is 0 exactly when some `GetCommand`
or some `CompleteCommand` returned `VD_E_CLOSE`; the function does not tell the
two apart, as both leave their status in the same variable `hr`. -/
theorem performTransfer_zero_iff (K : VdiHeader) (hK : K.VD_E_CLOSE < 0) (fopenOk : Bool)
    (script : List DeviceRound) (backup streamId : Int) :
    (performTransfer K fopenOk script backup streamId).2 = Outcome.returned 0 ↔
      ((∃ cmd, Event.GetCommand K.VD_E_CLOSE cmd ∈
          (performTransfer K fopenOk script backup streamId).1) ∨
        ∃ c cc bt, Event.CompleteCommand c cc bt K.VD_E_CLOSE ∈
          (performTransfer K fopenOk script backup streamId).1) := by
  cases fopenOk with
  | false => simp [performTransfer_no_sink]
  | true =>
    rw [performTransfer_trace, performTransfer_outcome]
    have hmem : ∀ e : Event, e ≠ Event.fclose →
        (e ∈ afterRound K script ↔ e ∈ (commandLoop K script).1) := by
      intro e he
      unfold afterRound
      split_ifs <;> simp [he]
    have hg : ∀ c, (Event.GetCommand K.VD_E_CLOSE c ∈ afterRound K script ↔
        Event.GetCommand K.VD_E_CLOSE c ∈ (commandLoop K script).1) :=
      fun c => hmem _ (by simp)
    have hc : ∀ c cc bt, (Event.CompleteCommand c cc bt K.VD_E_CLOSE ∈ afterRound K script ↔
        Event.CompleteCommand c cc bt K.VD_E_CLOSE ∈ (commandLoop K script).1) :=
      fun c cc bt => hmem _ (by simp)
    simp only [List.mem_cons, reduceCtorEq, false_or, hg, hc]
    rw [← commandLoop_closed_iff K hK script]
    cases hx : (commandLoop K script).2 with
    | none => simp
    | some hr =>
      by_cases hh : hr = K.VD_E_CLOSE <;> simp [hh]

/-- Outside the contract of the device: were a `CompleteCommand` itself to fail
with `VD_E_CLOSE`, the loop would be left through the completion-failure `break`
with `hr == VD_E_CLOSE`, and `performTransfer` would return 0, as both calls
leave their status in the same variable `hr`. -/
theorem performTransfer_zero_after_failed_completion :
    performTransfer sampleHeader true
        [⟨0, ⟨sampleHeader.VDC_ClearError, 0, 0, 0⟩, 0, 0, sampleHeader.VD_E_CLOSE⟩] 1 0 =
      ([Event.fopen "multi.0.dmp" "wb" true,
        Event.GetCommand 0 ⟨sampleHeader.VDC_ClearError, 0, 0, 0⟩,
        Event.CompleteCommand ⟨sampleHeader.VDC_ClearError, 0, 0, 0⟩ ERROR_SUCCESS 0
          sampleHeader.VD_E_CLOSE,
        Event.fclose], Outcome.returned 0) ∧
      SUCCEEDED sampleHeader.VD_E_CLOSE = false := by
  decide

theorem commandLoop_failed_GetCommand (K : VdiHeader) (s : List DeviceRound)
    (hr : HRESULT) (cmd : VDC_Command)
    (hm : Event.GetCommand hr cmd ∈ (commandLoop K s).1) (hf : SUCCEEDED hr = false) :
    (commandLoop K s).2 = some hr := by
  induction s with
  | nil => simp [commandLoop] at hm
  | cons r rest ih =>
    cases h1 : SUCCEEDED r.hrGet with
    | true =>
      have hne : hr ≠ r.hrGet := fun h => by rw [h, h1] at hf; simp at hf
      cases h2 : SUCCEEDED r.hrComplete with
      | true =>
        rw [commandLoop_continue K r rest h1 h2] at hm ⊢
        simp only [List.mem_cons, List.mem_append, Event.GetCommand.injEq] at hm
        rcases hm with hm | hm | hm
        · exact absurd hm.1 hne
        · exact absurd hm (GetCommand_not_mem_completeRound K r _ _)
        · exact ih hm
      | false =>
        rw [commandLoop_break K r rest h1 h2] at hm
        simp only [List.mem_cons, Event.GetCommand.injEq] at hm
        rcases hm with hm | hm
        · exact absurd hm.1 hne
        · exact absurd hm (GetCommand_not_mem_completeRound K r _ _)
    | false =>
      rw [commandLoop_fail K r rest h1] at hm ⊢
      simp only [List.mem_singleton, Event.GetCommand.injEq] at hm
      rw [hm.1]

theorem commandLoop_failed_CompleteCommand (K : VdiHeader) (s : List DeviceRound)
    (c : VDC_Command) (cc bt : Nat) (hr : HRESULT)
    (hm : Event.CompleteCommand c cc bt hr ∈ (commandLoop K s).1)
    (hf : SUCCEEDED hr = false) :
    (commandLoop K s).2 = some hr ∧ ∃ r ∈ s, r.hrComplete = hr := by
  induction s with
  | nil => simp [commandLoop] at hm
  | cons r rest ih =>
    cases h1 : SUCCEEDED r.hrGet with
    | true =>
      cases h2 : SUCCEEDED r.hrComplete with
      | true =>
        have hne : hr ≠ r.hrComplete := fun h => by rw [h, h2] at hf; simp at hf
        rw [commandLoop_continue K r rest h1 h2] at hm ⊢
        simp only [List.mem_cons, List.mem_append, reduceCtorEq, false_or] at hm
        rcases hm with hm | hm
        · exact absurd (CompleteCommand_mem_completeRound K r c cc bt _ hm) hne
        · obtain ⟨hx, r2, hr2, he⟩ := ih hm
          exact ⟨hx, r2, List.mem_cons_of_mem _ hr2, he⟩
      | false =>
        rw [commandLoop_break K r rest h1 h2] at hm ⊢
        simp only [List.mem_cons, reduceCtorEq, false_or] at hm
        have he := CompleteCommand_mem_completeRound K r c cc bt _ hm
        exact ⟨by rw [he], r, List.mem_cons_self _ _, he.symm⟩
    | false =>
      rw [commandLoop_fail K r rest h1] at hm
      simp at hm

theorem CompleteCommand_mem_commandLoop (K : VdiHeader) (s : List DeviceRound)
    (c : VDC_Command) (cc bt : Nat) (hr : HRESULT)
    (hm : Event.CompleteCommand c cc bt hr ∈ (commandLoop K s).1) :
    ∃ r ∈ s, r.hrComplete = hr := by
  induction s with
  | nil => simp [commandLoop] at hm
  | cons r rest ih =>
    cases h1 : SUCCEEDED r.hrGet with
    | true =>
      cases h2 : SUCCEEDED r.hrComplete with
      | true =>
        rw [commandLoop_continue K r rest h1 h2] at hm
        simp only [List.mem_cons, List.mem_append, reduceCtorEq, false_or] at hm
        rcases hm with hm | hm
        · exact ⟨r, List.mem_cons_self _ _,
            (CompleteCommand_mem_completeRound K r c cc bt _ hm).symm⟩
        · obtain ⟨r2, hr2, he⟩ := ih hm
          exact ⟨r2, List.mem_cons_of_mem _ hr2, he⟩
      | false =>
        rw [commandLoop_break K r rest h1 h2] at hm
        simp only [List.mem_cons, reduceCtorEq, false_or] at hm
        exact ⟨r, List.mem_cons_self _ _,
          (CompleteCommand_mem_completeRound K r c cc bt _ hm).symm⟩
    | false =>
      rw [commandLoop_fail K r rest h1] at hm
      simp at hm

/-- A device call recorded in a run of `performTransfer` was made by the
command loop, which only runs once the sink is open. -/
theorem mem_commandLoop_of_mem_performTransfer (K : VdiHeader) (fopenOk : Bool)
    (script : List DeviceRound) (backup streamId : Int) (e : Event)
    (hopen : ∀ n m ok, e ≠ Event.fopen n m ok) (hclose : e ≠ Event.fclose)
    (hm : e ∈ (performTransfer K fopenOk script backup streamId).1) :
    fopenOk = true ∧ e ∈ (commandLoop K script).1 := by
  cases fopenOk with
  | false =>
    rw [performTransfer_no_sink] at hm
    simp only [List.mem_singleton] at hm
    exact absurd hm (hopen _ _ _)
  | true =>
    rw [performTransfer_trace] at hm
    simp only [List.mem_cons] at hm
    rcases hm with hm | hm
    · exact absurd hm (hopen _ _ _)
    · unfold afterRound at hm
      rw [List.mem_append] at hm
      rcases hm with hm | hm
      · exact ⟨rfl, hm⟩
      · split_ifs at hm
        · simp only [List.mem_singleton] at hm
          exact absurd hm hclose
        · simp at hm

/-- Claim C1: let the device keep to its contract, under which the close status
`VD_E_CLOSE` is an answer of `GetCommand` only, never of `CompleteCommand`.
Then for every sequence of device and sink results `performTransfer` returns 0
if and only if a `GetCommand` call returned `VD_E_CLOSE`; it returns -1 when the
sink cannot be opened, when a `GetCommand` fails with any other status, and when
a `CompleteCommand` fails; and it never returns anything but 0 or -1. -/
theorem performTransfer_zero_iff_closed (K : VdiHeader) (hK : K.VD_E_CLOSE < 0)
    (fopenOk : Bool) (script : List DeviceRound) (backup streamId : Int)
    (hcontract : ∀ r ∈ script, r.hrComplete ≠ K.VD_E_CLOSE) :
    ((performTransfer K fopenOk script backup streamId).2 = Outcome.returned 0 ↔
      ∃ cmd, Event.GetCommand K.VD_E_CLOSE cmd ∈
        (performTransfer K fopenOk script backup streamId).1) ∧
    (fopenOk = false →
      (performTransfer K fopenOk script backup streamId).2 = Outcome.returned (-1)) ∧
    (∀ hr cmd, Event.GetCommand hr cmd ∈
        (performTransfer K fopenOk script backup streamId).1 →
      SUCCEEDED hr = false → hr ≠ K.VD_E_CLOSE →
      (performTransfer K fopenOk script backup streamId).2 = Outcome.returned (-1)) ∧
    (∀ c cc bt hr, Event.CompleteCommand c cc bt hr ∈
        (performTransfer K fopenOk script backup streamId).1 →
      SUCCEEDED hr = false →
      (performTransfer K fopenOk script backup streamId).2 = Outcome.returned (-1)) ∧
    (∀ termCode,
      (performTransfer K fopenOk script backup streamId).2 = Outcome.returned termCode →
      termCode = 0 ∨ termCode = -1) := by
  refine ⟨?_, ?_, ?_, ?_, ?_⟩
  · rw [performTransfer_zero_iff K hK]
    constructor
    · rintro (h | ⟨c, cc, bt, hm⟩)
      · exact h
      · obtain ⟨-, hl⟩ := mem_commandLoop_of_mem_performTransfer K fopenOk script backup
          streamId _ (by simp) (by simp) hm
        obtain ⟨r, hr, he⟩ := CompleteCommand_mem_commandLoop K script c cc bt _ hl
        exact absurd he (hcontract r hr)
    · exact Or.inl
  · intro h
    rw [h, performTransfer_no_sink]
  · intro hr cmd hm hf hne
    obtain ⟨ho, hl⟩ := mem_commandLoop_of_mem_performTransfer K fopenOk script backup
      streamId _ (by simp) (by simp) hm
    rw [ho, performTransfer_outcome, commandLoop_failed_GetCommand K script hr cmd hl hf]
    simp [hne]
  · intro c cc bt hr hm hf
    obtain ⟨ho, hl⟩ := mem_commandLoop_of_mem_performTransfer K fopenOk script backup
      streamId _ (by simp) (by simp) hm
    obtain ⟨hx, r, hrm, he⟩ := commandLoop_failed_CompleteCommand K script c cc bt hr hl hf
    have hne : hr ≠ K.VD_E_CLOSE := he ▸ hcontract r hrm
    rw [ho, performTransfer_outcome, hx]
    simp [hne]
  · intro termCode h
    cases fopenOk with
    | false =>
      rw [performTransfer_no_sink] at h
      simp only [Outcome.returned.injEq] at h
      exact Or.inr h.symm
    | true =>
      rw [performTransfer_outcome] at h
      cases hx : (commandLoop K script).2 with
      | none => rw [hx] at h; simp at h
      | some hr =>
        rw [hx] at h
        simp only [Outcome.returned.injEq] at h
        by_cases hh : hr = K.VD_E_CLOSE
        · left; rw [← h]; simp [hh]
        · right; rw [← h]; simp [hh]

theorem performTransfer_zero_iff_closed_witness :
    (∀ r ∈ [(⟨0, ⟨sampleHeader.VDC_Write, 4, 0, 0⟩, 4, 0, 0⟩ : DeviceRound),
        ⟨sampleHeader.VD_E_CLOSE, ⟨0, 0, 0, 0⟩, 0, 0, 0⟩],
      r.hrComplete ≠ sampleHeader.VD_E_CLOSE) ∧
    (performTransfer sampleHeader true
      [⟨0, ⟨sampleHeader.VDC_Write, 4, 0, 0⟩, 4, 0, 0⟩,
        ⟨sampleHeader.VD_E_CLOSE, ⟨0, 0, 0, 0⟩, 0, 0, 0⟩] 1 0).2 = Outcome.returned 0 ∧
    ∃ cmd, Event.GetCommand sampleHeader.VD_E_CLOSE cmd ∈
      (performTransfer sampleHeader true
        [⟨0, ⟨sampleHeader.VDC_Write, 4, 0, 0⟩, 4, 0, 0⟩,
          ⟨sampleHeader.VD_E_CLOSE, ⟨0, 0, 0, 0⟩, 0, 0, 0⟩] 1 0).1 :=
  ⟨by decide, by decide,
    (performTransfer_zero_iff_closed sampleHeader (by decide) true
      [⟨0, ⟨sampleHeader.VDC_Write, 4, 0, 0⟩, 4, 0, 0⟩,
        ⟨sampleHeader.VD_E_CLOSE, ⟨0, 0, 0, 0⟩, 0, 0, 0⟩] 1 0 (by decide)).1.mp (by decide)⟩

/-- A run within the contract in which `CompleteCommand` fails (with
`E_FAIL`): the sink is closed and the result is -1. -/
theorem performTransfer_failed_completion_run :
    performTransfer sampleHeader true
        [⟨0, ⟨sampleHeader.VDC_ClearError, 0, 0, 0⟩, 0, 0, -2147467259⟩] 1 0 =
      ([Event.fopen "multi.0.dmp" "wb" true,
        Event.GetCommand 0 ⟨sampleHeader.VDC_ClearError, 0, 0, 0⟩,
        Event.CompleteCommand ⟨sampleHeader.VDC_ClearError, 0, 0, 0⟩ ERROR_SUCCESS 0
          (-2147467259),
        Event.fclose], Outcome.returned (-1)) := by
  decide

/-! ## The claims on `performTransfer` -/

theorem commandLoop_strictly_alternates (K : VdiHeader) (script : List DeviceRound) :
    StrictlyAlternates (deviceCalls (commandLoop K script).1) := by
  induction script with
  | nil => simp [commandLoop, deviceCalls, StrictlyAlternates]
  | cons r rest ih =>
    cases h1 : SUCCEEDED r.hrGet with
    | true =>
      cases h2 : SUCCEEDED r.hrComplete with
      | true =>
        rw [commandLoop_continue K r rest h1 h2]
        simp [deviceCalls, deviceCalls_append, deviceCalls_completeRound,
          StrictlyAlternates, h1, h2, ih]
      | false =>
        rw [commandLoop_break K r rest h1 h2]
        simp [deviceCalls, deviceCalls_completeRound, StrictlyAlternates, h1]
    | false =>
      rw [commandLoop_fail K r rest h1]
      simp [deviceCalls, StrictlyAlternates, h1]

/-- Claim C2: in every run of `performTransfer` the calls to the device strictly
alternate: each successful `GetCommand` is followed by exactly one
`CompleteCommand`, for the command just delivered (whatever its code), before
any further `GetCommand`. -/
theorem performTransfer_strictly_alternates (K : VdiHeader) (fopenOk : Bool)
    (script : List DeviceRound) (backup streamId : Int) :
    StrictlyAlternates (deviceCalls (performTransfer K fopenOk script backup streamId).1) := by
  cases fopenOk with
  | false => simp [performTransfer_no_sink, deviceCalls, StrictlyAlternates]
  | true =>
    rw [performTransfer_trace]
    have hfin : deviceCalls (afterRound K script) = deviceCalls (commandLoop K script).1 := by
      unfold afterRound
      rw [deviceCalls_append]
      split_ifs <;> simp [deviceCalls]
    simp only [deviceCalls, hfin]
    exact commandLoop_strictly_alternates K script

/-- Claim C5: for every `Read` command delivered, the handler asks the sink for
`cmd.size` bytes (`fread`), then completes that command with `ERROR_SUCCESS`
when the count read equals `cmd.size` and with `ERROR_HANDLE_EOF` when it does
not (in particular when fewer bytes were read). -/
theorem performTransfer_read_completion (K : VdiHeader) (fopenOk : Bool)
    (script : List DeviceRound) (backup streamId : Int) (pre post : List Event)
    (hr : HRESULT) (cmd : VDC_Command)
    (h : (performTransfer K fopenOk script backup streamId).1 =
      pre ++ Event.GetCommand hr cmd :: post)
    (hs : SUCCEEDED hr = true) (hc : cmd.commandCode = K.VDC_Read) :
    ∃ n code hr2 post2,
      post = Event.fread cmd.buffer cmd.size n ::
        Event.CompleteCommand cmd code n hr2 :: post2 ∧
      (n = cmd.size → code = ERROR_SUCCESS) ∧ (n ≠ cmd.size → code = ERROR_HANDLE_EOF) := by
  obtain ⟨r, tail, hcmd, hp⟩ :=
    performTransfer_pass K fopenOk script backup streamId pre post hr cmd h hs
  subst hcmd
  rw [completeRound_read K r hc] at hp
  refine ⟨r.ioRet, _, r.hrComplete, tail, hp, fun hn => ?_, fun hn => ?_⟩
  · simp [hn]
  · simp [hn]

theorem performTransfer_read_completion_witness :
    ∃ n code hr2 post2,
      [Event.fread 7 4096 100, Event.CompleteCommand ⟨1, 4096, 0, 7⟩ ERROR_HANDLE_EOF 100 0] =
        Event.fread 7 4096 n :: Event.CompleteCommand ⟨1, 4096, 0, 7⟩ code n hr2 :: post2 ∧
      (n = 4096 → code = ERROR_SUCCESS) ∧ (n ≠ 4096 → code = ERROR_HANDLE_EOF) :=
  performTransfer_read_completion sampleHeader true [⟨0, ⟨1, 4096, 0, 7⟩, 100, 0, 0⟩] 0 0
    [Event.fopen "multi.0.dmp" "rb" true]
    [Event.fread 7 4096 100, Event.CompleteCommand ⟨1, 4096, 0, 7⟩ ERROR_HANDLE_EOF 100 0]
    0 ⟨1, 4096, 0, 7⟩ (by decide) (by decide) (by decide)

/-- Claim C6: for every `Write` command delivered, the handler writes the
payload buffer, `cmd.size` bytes, to the sink (`fwrite`), then completes that
command with `ERROR_SUCCESS` when the count written equals `cmd.size` and with
`ERROR_DISK_FULL` when the write was short or failed. -/
theorem performTransfer_write_completion (K : VdiHeader) (hK : K.WellFormed) (fopenOk : Bool)
    (script : List DeviceRound) (backup streamId : Int) (pre post : List Event)
    (hr : HRESULT) (cmd : VDC_Command)
    (h : (performTransfer K fopenOk script backup streamId).1 =
      pre ++ Event.GetCommand hr cmd :: post)
    (hs : SUCCEEDED hr = true) (hc : cmd.commandCode = K.VDC_Write) :
    ∃ n code hr2 post2,
      post = Event.fwrite cmd.buffer cmd.size n ::
        Event.CompleteCommand cmd code n hr2 :: post2 ∧
      (n = cmd.size → code = ERROR_SUCCESS) ∧ (n ≠ cmd.size → code = ERROR_DISK_FULL) := by
  obtain ⟨r, tail, hcmd, hp⟩ :=
    performTransfer_pass K fopenOk script backup streamId pre post hr cmd h hs
  subst hcmd
  rw [completeRound_write K hK r hc] at hp
  refine ⟨r.ioRet, _, r.hrComplete, tail, hp, fun hn => ?_, fun hn => ?_⟩
  · simp [hn]
  · simp [hn]

theorem performTransfer_write_completion_witness :
    ∃ n code hr2 post2,
      [Event.fwrite 7 4096 4096, Event.CompleteCommand ⟨2, 4096, 0, 7⟩ ERROR_SUCCESS 4096 0] =
        Event.fwrite 7 4096 n :: Event.CompleteCommand ⟨2, 4096, 0, 7⟩ code n hr2 :: post2 ∧
      (n = 4096 → code = ERROR_SUCCESS) ∧ (n ≠ 4096 → code = ERROR_DISK_FULL) :=
  performTransfer_write_completion sampleHeader (by decide) true
    [⟨0, ⟨2, 4096, 0, 7⟩, 4096, 0, 0⟩] 1 0
    [Event.fopen "multi.0.dmp" "wb" true]
    [Event.fwrite 7 4096 4096, Event.CompleteCommand ⟨2, 4096, 0, 7⟩ ERROR_SUCCESS 4096 0]
    0 ⟨2, 4096, 0, 7⟩ (by decide) (by decide) (by decide)

/-- Claim C7 (as stated it fails): a `Flush` command whose `fflush` reports an
I/O error (returns `EOF`, that is -1) is completed with `ERROR_SUCCESS`, not
with a failure status. -/
theorem performTransfer_flush_error_reported_as_success :
    (performTransfer sampleHeader true
        [⟨0, ⟨sampleHeader.VDC_Flush, 0, 0, 0⟩, 0, -1, 0⟩] 1 0).1 =
      [Event.fopen "multi.0.dmp" "wb" true,
        Event.GetCommand 0 ⟨sampleHeader.VDC_Flush, 0, 0, 0⟩,
        Event.fflush (-1),
        Event.CompleteCommand ⟨sampleHeader.VDC_Flush, 0, 0, 0⟩ ERROR_SUCCESS 0 0] ∧
      ERROR_SUCCESS ≠ ERROR_NOT_SUPPORTED := by
  decide

/-- Claim C7, amended: for every `Flush` command delivered, the handler flushes
the sink (`fflush`) and completes that command with `ERROR_SUCCESS` and zero
bytes, whatever `fflush` returned: the result of the flush is not examined. -/
theorem performTransfer_flush_completion (K : VdiHeader) (hK : K.WellFormed) (fopenOk : Bool)
    (script : List DeviceRound) (backup streamId : Int) (pre post : List Event)
    (hr : HRESULT) (cmd : VDC_Command)
    (h : (performTransfer K fopenOk script backup streamId).1 =
      pre ++ Event.GetCommand hr cmd :: post)
    (hs : SUCCEEDED hr = true) (hc : cmd.commandCode = K.VDC_Flush) :
    ∃ ret hr2 post2,
      post = Event.fflush ret :: Event.CompleteCommand cmd ERROR_SUCCESS 0 hr2 :: post2 := by
  obtain ⟨r, tail, hcmd, hp⟩ :=
    performTransfer_pass K fopenOk script backup streamId pre post hr cmd h hs
  subst hcmd
  rw [completeRound_flush K hK r hc] at hp
  exact ⟨r.flushRet, r.hrComplete, tail, hp⟩

theorem performTransfer_flush_completion_witness :
    ∃ ret hr2 post2,
      [Event.fflush (-1), Event.CompleteCommand ⟨12, 0, 0, 0⟩ ERROR_SUCCESS 0 0] =
        Event.fflush ret :: Event.CompleteCommand ⟨12, 0, 0, 0⟩ ERROR_SUCCESS 0 hr2 :: post2 :=
  performTransfer_flush_completion sampleHeader (by decide) true
    [⟨0, ⟨12, 0, 0, 0⟩, 0, -1, 0⟩] 1 0
    [Event.fopen "multi.0.dmp" "wb" true]
    [Event.fflush (-1), Event.CompleteCommand ⟨12, 0, 0, 0⟩ ERROR_SUCCESS 0 0]
    0 ⟨12, 0, 0, 0⟩ (by decide) (by decide) (by decide)

/-- Claim C8: for every delivered command whose code is none of `VDC_Read`,
`VDC_Write`, `VDC_Flush`, `VDC_ClearError`, the handler makes no sink call and
completes the command with `ERROR_NOT_SUPPORTED`; when that `CompleteCommand`
succeeds, the handler goes on to request the next command: its next call is
`GetCommand`, or it is waiting inside `GetCommand` for an answer. -/
theorem performTransfer_unknown_command (K : VdiHeader) (fopenOk : Bool)
    (script : List DeviceRound) (backup streamId : Int) (pre post : List Event)
    (hr : HRESULT) (cmd : VDC_Command)
    (h : (performTransfer K fopenOk script backup streamId).1 =
      pre ++ Event.GetCommand hr cmd :: post)
    (hs : SUCCEEDED hr = true)
    (h1 : cmd.commandCode ≠ K.VDC_Read) (h2 : cmd.commandCode ≠ K.VDC_Write)
    (h3 : cmd.commandCode ≠ K.VDC_Flush) (h4 : cmd.commandCode ≠ K.VDC_ClearError) :
    ∃ hr2 post2,
      post = Event.CompleteCommand cmd ERROR_NOT_SUPPORTED 0 hr2 :: post2 ∧
      (SUCCEEDED hr2 = true →
        (∃ hr3 cmd3 post3, post2 = Event.GetCommand hr3 cmd3 :: post3) ∨
        (post2 = [] ∧
          (performTransfer K fopenOk script backup streamId).2 = Outcome.blocked)) := by
  obtain ⟨r, rest, -, hcmd, hcase⟩ :=
    performTransfer_split K fopenOk script backup streamId pre post hr cmd h hs
  subst hcmd
  rw [completeRound_default K r h1 h2 h3 h4] at hcase
  rcases hcase with ⟨-, hp, hb⟩ | ⟨hf, hp⟩
  · refine ⟨r.hrComplete, afterRound K rest, hp, fun _ => ?_⟩
    rcases afterRound_head K rest with ⟨he, hn⟩ | hg
    · exact Or.inr ⟨he, hb hn⟩
    · exact Or.inl hg
  · refine ⟨r.hrComplete, [Event.fclose], hp, fun hsucc => ?_⟩
    rw [hf] at hsucc
    exact absurd hsucc (by simp)

theorem performTransfer_unknown_command_witness :
    ∃ hr2 post2,
      [Event.CompleteCommand ⟨99, 0, 0, 0⟩ ERROR_NOT_SUPPORTED 0 0,
        Event.GetCommand sampleHeader.VD_E_CLOSE ⟨0, 0, 0, 0⟩, Event.fclose] =
        Event.CompleteCommand ⟨99, 0, 0, 0⟩ ERROR_NOT_SUPPORTED 0 hr2 :: post2 ∧
      (SUCCEEDED hr2 = true →
        (∃ hr3 cmd3 post3, post2 = Event.GetCommand hr3 cmd3 :: post3) ∨
        (post2 = [] ∧
          (performTransfer sampleHeader true
            [⟨0, ⟨99, 0, 0, 0⟩, 0, 0, 0⟩, ⟨sampleHeader.VD_E_CLOSE, ⟨0, 0, 0, 0⟩, 0, 0, 0⟩]
            1 0).2 = Outcome.blocked)) :=
  performTransfer_unknown_command sampleHeader true
    [⟨0, ⟨99, 0, 0, 0⟩, 0, 0, 0⟩, ⟨sampleHeader.VD_E_CLOSE, ⟨0, 0, 0, 0⟩, 0, 0, 0⟩] 1 0
    [Event.fopen "multi.0.dmp" "wb" true]
    [Event.CompleteCommand ⟨99, 0, 0, 0⟩ ERROR_NOT_SUPPORTED 0 0,
      Event.GetCommand sampleHeader.VD_E_CLOSE ⟨0, 0, 0, 0⟩, Event.fclose]
    0 ⟨99, 0, 0, 0⟩ (by decide) (by decide) (by decide) (by decide) (by decide) (by decide)

/-- Claim C9: when the sink cannot be opened, `performTransfer` makes no call
but the failed `fopen` (no `GetCommand`, no `CompleteCommand`) and returns -1. -/
theorem performTransfer_sink_open_failure (K : VdiHeader) (script : List DeviceRound)
    (backup streamId : Int) :
    (performTransfer K false script backup streamId).1 =
        [Event.fopen (sinkName streamId) (sinkMode backup) false] ∧
      deviceCalls (performTransfer K false script backup streamId).1 = [] ∧
      (performTransfer K false script backup streamId).2 = Outcome.returned (-1) := by
  simp [performTransfer, deviceCalls]

/-! ## The claim on the data direction -/

/-- Claim C10 (as stated it fails): with the write-media flag set in the
configuration (a backup), the handler started by `runSecondary` opens its sink
with mode "wb", for writing, and not for reading. -/
theorem runSecondary_backup_opens_for_writing :
    (runSecondary sampleHeader "VDS" ⟨0, 0, some (0, sampleHeader.VDF_WriteMedia), true, []⟩ 0).1 =
      [Event.OpenInSecondary "VDS" 0, Event.OpenDevice "VDS" 0,
        Event.GetConfiguration none 0 sampleHeader.VDF_WriteMedia,
        Event.fopen "multi.0.dmp" "wb" true] ∧
    (runSecondary sampleHeader "VDS" ⟨0, 0, some (0, 0), true, []⟩ 0).1 =
      [Event.OpenInSecondary "VDS" 0, Event.OpenDevice "VDS" 0,
        Event.GetConfiguration none 0 0,
        Event.fopen "multi.0.dmp" "rb" true] := by
  decide

/-- Claim C10, amended: once the device set and the device are open and
`GetConfiguration` has succeeded, the handler opens its sink, and it opens it
for writing ("wb") when the write-media flag is set in the features of the
session configuration (backup) and for reading ("rb") when it is not
(restore). -/
theorem runSecondary_sink_mode (K : VdiHeader) (wVdsName : String) (w : SecondaryWorld)
    (streamId : Int) (hr : HRESULT) (features : Nat)
    (h1 : SUCCEEDED w.hrOpenInSecondary = true) (h2 : SUCCEEDED w.hrOpenDevice = true)
    (h3 : w.configuration = some (hr, features)) (h4 : SUCCEEDED hr = true) :
    ∃ post, (runSecondary K wVdsName w streamId).1 =
      Event.OpenInSecondary wVdsName w.hrOpenInSecondary ::
      Event.OpenDevice (deviceName wVdsName streamId) w.hrOpenDevice ::
      Event.GetConfiguration none hr features ::
      Event.fopen (sinkName streamId)
        (if features &&& K.VDF_WriteMedia ≠ 0 then "wb" else "rb") w.fopenOk :: post := by
  have hmode : sinkMode ((features &&& K.VDF_WriteMedia : Nat) : Int) =
      (if features &&& K.VDF_WriteMedia ≠ 0 then "wb" else "rb") := by
    unfold sinkMode
    by_cases hz : features &&& K.VDF_WriteMedia = 0 <;> simp [hz]
  have hhead : ∃ t, (performTransfer K w.fopenOk w.script
      ((features &&& K.VDF_WriteMedia : Nat) : Int) streamId).1 =
      Event.fopen (sinkName streamId)
        (if features &&& K.VDF_WriteMedia ≠ 0 then "wb" else "rb") w.fopenOk :: t := by
    cases hf : w.fopenOk with
    | false => rw [performTransfer_no_sink, hmode]; exact ⟨_, rfl⟩
    | true => rw [performTransfer_trace, hmode]; exact ⟨_, rfl⟩
  obtain ⟨t, ht⟩ := hhead
  unfold runSecondary
  simp only [h1, h2, h3, h4, if_true]
  rcases hp : performTransfer K w.fopenOk w.script
      ((features &&& K.VDF_WriteMedia : Nat) : Int) streamId with ⟨calls, code | _⟩
  · rw [hp] at ht
    simp only at ht
    subst ht
    exact ⟨_, rfl⟩
  · rw [hp] at ht
    simp only at ht
    subst ht
    exact ⟨_, rfl⟩

theorem runSecondary_sink_mode_witness :
    ∃ post, (runSecondary sampleHeader "VDS"
        ⟨0, 0, some (0, sampleHeader.VDF_WriteMedia), true, []⟩ 3).1 =
      Event.OpenInSecondary "VDS" 0 :: Event.OpenDevice (deviceName "VDS" 3) 0 ::
      Event.GetConfiguration none 0 sampleHeader.VDF_WriteMedia ::
      Event.fopen (sinkName 3)
        (if sampleHeader.VDF_WriteMedia &&& sampleHeader.VDF_WriteMedia ≠ 0
          then "wb" else "rb") true :: post :=
  runSecondary_sink_mode sampleHeader "VDS"
    ⟨0, 0, some (0, sampleHeader.VDF_WriteMedia), true, []⟩ 3 0 sampleHeader.VDF_WriteMedia
    (by decide) (by decide) rfl (by decide)

/-! ## The array of children -/

theorem perm_cons_eraseIdx {α : Type} (l : List α) (i : Nat) (h : i < l.length) :
    (l[i] :: l.eraseIdx i).Perm l := by
  induction l generalizing i with
  | nil => simp at h
  | cons a l ih =>
    cases i with
    | zero => simp
    | succ i =>
      simp only [List.length_cons, Nat.add_lt_add_iff_right] at h
      simp only [List.getElem_cons_succ, List.eraseIdx_cons_succ]
      exact (List.Perm.swap a l[i] (l.eraseIdx i)).trans ((ih i h).cons a)

theorem Children.length_active (children : Children) (n : Nat) :
    (children.active n).length = n := by
  simp [Children.active]

theorem Children.getElem_active (children : Children) (n i : Nat)
    (h : i < (children.active n).length) : (children.active n)[i] = children i := by
  simp [Children.active]

/-- Removing entry `ix` with `memmove` and decrementing `nActive` leaves, as the
active entries, the former ones without the one at index `ix`. -/
theorem Children.active_memmove (children : Children) (n ix : Nat) (h : ix < n) :
    (children.memmove ix (n - ix - 1)).active (n - 1) = (children.active n).eraseIdx ix := by
  apply List.ext_getElem
  · rw [List.length_eraseIdx, Children.length_active, Children.length_active]
    simp [h]
  · intro i h1 h2
    rw [Children.getElem_active, List.getElem_eraseIdx]
    rw [Children.length_active] at h1
    by_cases hi : i < ix
    · have : ¬ (ix ≤ i ∧ i < ix + (n - ix - 1)) := by omega
      simp [Children.memmove, this, hi, Children.getElem_active]
    · have : ix ≤ i ∧ i < ix + (n - ix - 1) := by omega
      simp [Children.memmove, this, hi, Children.getElem_active]

theorem Children.active_assign (children : Children) (n : Nat) (h : HANDLE) :
    (children.assign n h).active (n + 1) = children.active n ++ [h] := by
  unfold Children.active
  rw [List.range_succ, List.map_append]
  congr 1
  · apply List.map_congr_left
    intro i hi
    have : i ≠ n := by
      have := List.mem_range.mp hi
      omega
    simp [Children.assign, this]
  · simp [Children.assign]

/-! ## Structure of the trace of `startSecondaries` -/

theorem spawned_append (l t : List Event) : spawned (l ++ t) = spawned l ++ spawned t := by
  induction l with
  | nil => rfl
  | cons e l ih =>
    cases e with
    | CreateProcess c r => cases r <;> simp [spawned, ih]
    | _ => simp [spawned, ih]

theorem observedExitZero_append (l t : List Event) :
    observedExitZero (l ++ t) = observedExitZero l ++ observedExitZero t := by
  induction l with
  | nil => rfl
  | cons e l ih =>
    cases e with
    | GetExitCodeProcess h ok c =>
      by_cases hc : ok = true ∧ c = 0 <;> simp [observedExitZero, ih, hc]
    | _ => simp [observedExitZero, ih]

/-- The loop that starts the secondaries only calls `CreateProcess`. -/
theorem spawnLoop_events (pgmName wVdsName : String) (createProcess : Nat → Option HANDLE)
    (n : Nat) :
    ∀ e ∈ (spawnLoop pgmName wVdsName createProcess n).1, ∃ c r, e = Event.CreateProcess c r := by
  induction n with
  | zero => simp [spawnLoop]
  | succ n ih =>
    intro e he
    unfold spawnLoop at he
    rcases hsp : spawnLoop pgmName wVdsName createProcess n with ⟨calls, _ | children⟩
    · rw [hsp] at he ih
      exact ih e he
    · rw [hsp] at he ih
      cases hc : createProcess n with
      | none =>
        simp only [hc, List.mem_append, List.mem_singleton] at he
        rcases he with he | he
        · exact ih e he
        · exact ⟨_, _, he⟩
      | some h =>
        simp only [hc, List.mem_append, List.mem_singleton] at he
        rcases he with he | he
        · exact ih e he
        · exact ⟨_, _, he⟩

theorem observedExitZero_of_CreateProcess (l : List Event)
    (h : ∀ e ∈ l, ∃ c r, e = Event.CreateProcess c r) : observedExitZero l = [] := by
  induction l with
  | nil => rfl
  | cons e l ih =>
    obtain ⟨c, r, he⟩ := h e (by simp)
    subst he
    simp only [observedExitZero]
    exact ih (fun e he => h e (List.mem_cons_of_mem _ he))

/-- When every `CreateProcess` succeeded, the handles started are, in order,
the first `n` entries of the array. -/
theorem spawnLoop_some (pgmName wVdsName : String) (createProcess : Nat → Option HANDLE)
    (n : Nat) (children : Children)
    (h : (spawnLoop pgmName wVdsName createProcess n).2 = some children) :
    spawned (spawnLoop pgmName wVdsName createProcess n).1 = children.active n := by
  induction n generalizing children with
  | zero => simp [spawnLoop, spawned, Children.active]
  | succ n ih =>
    unfold spawnLoop at h ⊢
    rcases hsp : spawnLoop pgmName wVdsName createProcess n with ⟨calls, _ | c0⟩
    · rw [hsp] at h
      simp at h
    · rw [hsp] at h ih
      cases hc : createProcess n with
      | none => simp [hc] at h
      | some hd =>
        simp only [hc, Option.some.injEq] at h ⊢
        subst h
        rw [spawned_append, ih c0 rfl, Children.active_assign]
        simp [spawned]

/-- When a `CreateProcess` failed, fewer than `n` processes were started. -/
theorem spawnLoop_none (pgmName wVdsName : String) (createProcess : Nat → Option HANDLE)
    (n : Nat) (h : (spawnLoop pgmName wVdsName createProcess n).2 = none) :
    (spawned (spawnLoop pgmName wVdsName createProcess n).1).length < n := by
  induction n with
  | zero => simp [spawnLoop] at h
  | succ n ih =>
    unfold spawnLoop at h ⊢
    rcases hsp : spawnLoop pgmName wVdsName createProcess n with ⟨calls, _ | c0⟩
    · rw [hsp] at ih
      have := ih rfl
      simp only at this ⊢
      omega
    · rw [hsp] at h
      have hlen := spawnLoop_some pgmName wVdsName createProcess n c0 (by rw [hsp])
      rw [hsp] at hlen
      cases hc : createProcess n with
      | none =>
        simp only [hc, spawned_append, List.length_append]
        simp only at hlen
        rw [hlen, Children.length_active]
        simp [spawned]
      | some hd => simp [hc] at h

theorem waitLoop_unexpected (children : Children) (nActive : Nat) (r : WaitRound)
    (rest : List WaitRound)
    (h : ¬ (WAIT_OBJECT_0 ≤ r.waitStatus ∧ r.waitStatus < WAIT_OBJECT_0 + nActive)) :
    waitLoop children nActive (r :: rest) =
      ([Event.WaitForMultipleObjects nActive (children.active nActive) r.waitStatus,
        Event.SignalAbort], Outcome.returned (-1)) := by
  simp only [waitLoop, h, if_false]

theorem waitLoop_query_failed (children : Children) (nActive : Nat) (r : WaitRound)
    (rest : List WaitRound)
    (h : WAIT_OBJECT_0 ≤ r.waitStatus ∧ r.waitStatus < WAIT_OBJECT_0 + nActive)
    (hok : r.exitOk = false) :
    waitLoop children nActive (r :: rest) =
      ([Event.WaitForMultipleObjects nActive (children.active nActive) r.waitStatus,
        Event.GetExitCodeProcess (children (r.waitStatus - WAIT_OBJECT_0)) false r.exitCode,
        Event.SignalAbort], Outcome.returned (-1)) := by
  simp [waitLoop, h, hok]

theorem waitLoop_nonzero (children : Children) (nActive : Nat) (r : WaitRound)
    (rest : List WaitRound)
    (h : WAIT_OBJECT_0 ≤ r.waitStatus ∧ r.waitStatus < WAIT_OBJECT_0 + nActive)
    (hok : r.exitOk = true) (hcode : r.exitCode ≠ 0) :
    waitLoop children nActive (r :: rest) =
      ([Event.WaitForMultipleObjects nActive (children.active nActive) r.waitStatus,
        Event.GetExitCodeProcess (children (r.waitStatus - WAIT_OBJECT_0)) true r.exitCode,
        Event.SignalAbort], Outcome.returned (-1)) := by
  simp [waitLoop, h, hok, hcode]

theorem waitLoop_more (children : Children) (nActive : Nat) (r : WaitRound)
    (rest : List WaitRound)
    (h : WAIT_OBJECT_0 ≤ r.waitStatus ∧ r.waitStatus < WAIT_OBJECT_0 + nActive)
    (hok : r.exitOk = true) (hcode : r.exitCode = 0) (hn : nActive - 1 > 0) :
    waitLoop children nActive (r :: rest) =
      (Event.WaitForMultipleObjects nActive (children.active nActive) r.waitStatus ::
        Event.GetExitCodeProcess (children (r.waitStatus - WAIT_OBJECT_0)) true 0 ::
        Event.CloseHandle (children (r.waitStatus - WAIT_OBJECT_0)) ::
        (waitLoop
          (children.memmove (r.waitStatus - WAIT_OBJECT_0)
            (nActive - (r.waitStatus - WAIT_OBJECT_0) - 1))
          (nActive - 1) rest).1,
        (waitLoop
          (children.memmove (r.waitStatus - WAIT_OBJECT_0)
            (nActive - (r.waitStatus - WAIT_OBJECT_0) - 1))
          (nActive - 1) rest).2) := by
  simp [waitLoop, h, hok, hcode, hn]

theorem waitLoop_done (children : Children) (nActive : Nat) (r : WaitRound)
    (rest : List WaitRound)
    (h : WAIT_OBJECT_0 ≤ r.waitStatus ∧ r.waitStatus < WAIT_OBJECT_0 + nActive)
    (hok : r.exitOk = true) (hcode : r.exitCode = 0) (hn : ¬ nActive - 1 > 0) :
    waitLoop children nActive (r :: rest) =
      ([Event.WaitForMultipleObjects nActive (children.active nActive) r.waitStatus,
        Event.GetExitCodeProcess (children (r.waitStatus - WAIT_OBJECT_0)) true 0,
        Event.CloseHandle (children (r.waitStatus - WAIT_OBJECT_0))], Outcome.returned 0) := by
  simp [waitLoop, h, hok, hcode, hn]

/-- The five ways a pass of the wait loop can go. -/
theorem waitLoop_cases (nActive : Nat) (r : WaitRound) :
    (¬ (WAIT_OBJECT_0 ≤ r.waitStatus ∧ r.waitStatus < WAIT_OBJECT_0 + nActive)) ∨
    ((WAIT_OBJECT_0 ≤ r.waitStatus ∧ r.waitStatus < WAIT_OBJECT_0 + nActive) ∧
      (r.exitOk = false ∨ (r.exitOk = true ∧ r.exitCode ≠ 0) ∨
        (r.exitOk = true ∧ r.exitCode = 0 ∧ nActive - 1 > 0) ∨
        (r.exitOk = true ∧ r.exitCode = 0 ∧ ¬ nActive - 1 > 0))) := by
  by_cases h : WAIT_OBJECT_0 ≤ r.waitStatus ∧ r.waitStatus < WAIT_OBJECT_0 + nActive
  · refine Or.inr ⟨h, ?_⟩
    cases hok : r.exitOk with
    | false => exact Or.inl rfl
    | true =>
      by_cases hc : r.exitCode = 0
      · by_cases hn : nActive - 1 > 0
        · exact Or.inr (Or.inr (Or.inl ⟨rfl, hc, hn⟩))
        · exact Or.inr (Or.inr (Or.inr ⟨rfl, hc, hn⟩))
      · exact Or.inr (Or.inl ⟨rfl, hc⟩)
  · exact Or.inl h

/-- What the wait loop has observed when it ends: if it returns 0, the handles
seen with exit code 0 are exactly the active entries it started with and no
abort was signalled; otherwise fewer than `nActive` handles were seen with exit
code 0. -/
theorem waitLoop_spec (waits : List WaitRound) (children : Children) (nActive : Nat)
    (hpos : 0 < nActive) :
    ((waitLoop children nActive waits).2 = Outcome.returned 0 →
      (observedExitZero (waitLoop children nActive waits).1).Perm (children.active nActive) ∧
      Event.SignalAbort ∉ (waitLoop children nActive waits).1) ∧
    ((waitLoop children nActive waits).2 ≠ Outcome.returned 0 →
      (observedExitZero (waitLoop children nActive waits).1).length < nActive) := by
  induction waits generalizing children nActive with
  | nil => simp [waitLoop, observedExitZero, hpos]
  | cons r rest ih =>
    rcases waitLoop_cases nActive r with h | ⟨h, hok | ⟨hok, hc⟩ | ⟨hok, hc, hn⟩ |
      ⟨hok, hc, hn⟩⟩
    · rw [waitLoop_unexpected children nActive r rest h]
      simp [observedExitZero, hpos]
    · rw [waitLoop_query_failed children nActive r rest h hok]
      simp [observedExitZero, hpos]
    · rw [waitLoop_nonzero children nActive r rest h hok hc]
      simp [observedExitZero, hpos, hc]
    · rw [waitLoop_more children nActive r rest h hok hc hn]
      have hix : r.waitStatus - WAIT_OBJECT_0 < nActive := by
        have := h.2
        simp only [WAIT_OBJECT_0] at this ⊢
        omega
      obtain ⟨ih1, ih2⟩ := ih (children.memmove (r.waitStatus - WAIT_OBJECT_0)
        (nActive - (r.waitStatus - WAIT_OBJECT_0) - 1)) (nActive - 1) hn
      rw [Children.active_memmove children nActive _ hix] at ih1
      constructor
      · intro ho
        obtain ⟨hperm, hab⟩ := ih1 ho
        constructor
        · simp only [observedExitZero, and_self, if_true]
          have hlen : r.waitStatus - WAIT_OBJECT_0 < (children.active nActive).length := by
            rw [Children.length_active]; exact hix
          have hp := perm_cons_eraseIdx (children.active nActive) _ hlen
          rw [Children.getElem_active] at hp
          exact (hperm.cons _).trans hp
        · simpa using hab
      · intro ho
        have := ih2 ho
        simp only [observedExitZero, and_self, if_true, List.length_cons]
        omega
    · rw [waitLoop_done children nActive r rest h hok hc hn]
      have hn1 : nActive = 1 := by omega
      have hix : r.waitStatus - WAIT_OBJECT_0 = 0 := by
        have := h.2
        simp only [WAIT_OBJECT_0] at this ⊢
        omega
      subst hn1
      simp [observedExitZero, hix, Children.active, List.range_succ]

theorem waitLoop_spawned (waits : List WaitRound) (children : Children) (nActive : Nat) :
    spawned (waitLoop children nActive waits).1 = [] := by
  induction waits generalizing children nActive with
  | nil => simp [waitLoop, spawned]
  | cons r rest ih =>
    rcases waitLoop_cases nActive r with h | ⟨h, hok | ⟨hok, hc⟩ | ⟨hok, hc, hn⟩ |
      ⟨hok, hc, hn⟩⟩
    · rw [waitLoop_unexpected children nActive r rest h]; simp [spawned]
    · rw [waitLoop_query_failed children nActive r rest h hok]; simp [spawned]
    · rw [waitLoop_nonzero children nActive r rest h hok hc]; simp [spawned]
    · rw [waitLoop_more children nActive r rest h hok hc hn]; simp [spawned, ih]
    · rw [waitLoop_done children nActive r rest h hok hc hn]; simp [spawned]

/-- In the wait loop, an observed failure is followed by `SignalAbort` and
nothing else, and the loop ends with -1. -/
theorem waitLoop_fail_fast (waits : List WaitRound) (children : Children) (nActive : Nat)
    (pre post : List Event) (e : Event)
    (h : (waitLoop children nActive waits).1 = pre ++ e :: post) (hf : FailureObserved e) :
    post = [Event.SignalAbort] ∧
      (waitLoop children nActive waits).2 = Outcome.returned (-1) := by
  induction waits generalizing children nActive pre with
  | nil => simp [waitLoop] at h
  | cons r rest ih =>
    rcases waitLoop_cases nActive r with hr | ⟨hr, hok | ⟨hok, hc⟩ | ⟨hok, hc, hn⟩ |
      ⟨hok, hc, hn⟩⟩
    · rw [waitLoop_unexpected children nActive r rest hr] at h ⊢
      rcases pre with _ | ⟨a, _ | ⟨b, pre⟩⟩
      · simp only [List.nil_append, List.cons.injEq] at h
        exact ⟨h.2.symm, rfl⟩
      · simp only [List.cons_append, List.nil_append, List.cons.injEq] at h
        rw [← h.2.1] at hf
        exact absurd hf (by simp [FailureObserved])
      · simp at h
    · rw [waitLoop_query_failed children nActive r rest hr hok] at h ⊢
      rcases pre with _ | ⟨a, _ | ⟨b, _ | ⟨c, pre⟩⟩⟩
      · simp only [List.nil_append, List.cons.injEq] at h
        rw [← h.1] at hf
        exact absurd hr hf
      · simp only [List.cons_append, List.nil_append, List.cons.injEq] at h
        rw [← h.2.1] at hf
        exact absurd hf (by simp [FailureObserved])
      · simp only [List.cons_append, List.nil_append, List.cons.injEq] at h
        rw [← h.2.2.1] at hf
        exact absurd hf (by simp [FailureObserved])
      · simp at h
    · rw [waitLoop_nonzero children nActive r rest hr hok hc] at h ⊢
      rcases pre with _ | ⟨a, _ | ⟨b, _ | ⟨c, pre⟩⟩⟩
      · simp only [List.nil_append, List.cons.injEq] at h
        rw [← h.1] at hf
        exact absurd hr hf
      · simp only [List.cons_append, List.nil_append, List.cons.injEq] at h
        exact ⟨h.2.2.symm, rfl⟩
      · simp only [List.cons_append, List.nil_append, List.cons.injEq] at h
        rw [← h.2.2.1] at hf
        exact absurd hf (by simp [FailureObserved])
      · simp at h
    · rw [waitLoop_more children nActive r rest hr hok hc hn] at h ⊢
      rcases pre with _ | ⟨a, _ | ⟨b, _ | ⟨c, pre⟩⟩⟩
      · simp only [List.nil_append, List.cons.injEq] at h
        rw [← h.1] at hf
        exact absurd hr hf
      · simp only [List.cons_append, List.nil_append, List.cons.injEq] at h
        rw [← h.2.1] at hf
        exact absurd hf (by simp [FailureObserved])
      · simp only [List.cons_append, List.nil_append, List.cons.injEq] at h
        rw [← h.2.2.1] at hf
        exact absurd hf (by simp [FailureObserved])
      · simp only [List.cons_append, List.cons.injEq] at h
        exact ih _ _ pre h.2.2.2
    · rw [waitLoop_done children nActive r rest hr hok hc hn] at h ⊢
      rcases pre with _ | ⟨a, _ | ⟨b, _ | ⟨c, pre⟩⟩⟩
      · simp only [List.nil_append, List.cons.injEq] at h
        rw [← h.1] at hf
        exact absurd hr hf
      · simp only [List.cons_append, List.nil_append, List.cons.injEq] at h
        rw [← h.2.1] at hf
        exact absurd hf (by simp [FailureObserved])
      · simp only [List.cons_append, List.nil_append, List.cons.injEq] at h
        rw [← h.2.2.1] at hf
        exact absurd hf (by simp [FailureObserved])
      · simp at h

theorem startSecondaries_spawn_failed (pgmName wVdsName : String)
    (createProcess : Nat → Option HANDLE) (waits : List WaitRound) (hSQLProcess : HANDLE)
    (nStreams : Nat) (h : (spawnLoop pgmName wVdsName createProcess nStreams).2 = none) :
    startSecondaries pgmName wVdsName createProcess waits hSQLProcess nStreams =
      ((spawnLoop pgmName wVdsName createProcess nStreams).1 ++ [Event.SignalAbort],
        Outcome.returned (-1)) := by
  unfold startSecondaries
  rcases hsp : spawnLoop pgmName wVdsName createProcess nStreams with ⟨calls, _ | children⟩
  · rfl
  · rw [hsp] at h; simp at h

theorem startSecondaries_spawned (pgmName wVdsName : String)
    (createProcess : Nat → Option HANDLE) (waits : List WaitRound) (hSQLProcess : HANDLE)
    (nStreams : Nat) (children : Children)
    (h : (spawnLoop pgmName wVdsName createProcess nStreams).2 = some children) :
    startSecondaries pgmName wVdsName createProcess waits hSQLProcess nStreams =
      ((spawnLoop pgmName wVdsName createProcess nStreams).1 ++
        (waitLoop (children.assign nStreams hSQLProcess) (nStreams + 1) waits).1,
        (waitLoop (children.assign nStreams hSQLProcess) (nStreams + 1) waits).2) := by
  unfold startSecondaries
  rcases hsp : spawnLoop pgmName wVdsName createProcess nStreams with ⟨calls, _ | c0⟩
  · rw [hsp] at h; simp at h
  · rw [hsp] at h
    simp only [Option.some.injEq] at h
    subst h
    rfl

/-! ## The claims on `startSecondaries` -/

/-- Claim C3: `startSecondaries` returns 0 if and only if all `nStreams`
secondaries were started, the handles the wait loop saw exit with exit code 0
are exactly the `nStreams + 1` participants (the secondaries started and the
SQL process, each once), and `SignalAbort` was never called.  The array
`children[33]` bounds `nStreams` by 32. -/
theorem startSecondaries_zero_iff (pgmName wVdsName : String)
    (createProcess : Nat → Option HANDLE) (waits : List WaitRound) (hSQLProcess : HANDLE)
    (nStreams : Nat) (_hn : nStreams ≤ 32) :
    (startSecondaries pgmName wVdsName createProcess waits hSQLProcess nStreams).2 =
        Outcome.returned 0 ↔
      ((spawned (startSecondaries pgmName wVdsName createProcess waits hSQLProcess
          nStreams).1).length = nStreams ∧
        (observedExitZero (startSecondaries pgmName wVdsName createProcess waits hSQLProcess
          nStreams).1).Perm
          (spawned (startSecondaries pgmName wVdsName createProcess waits hSQLProcess
            nStreams).1 ++ [hSQLProcess]) ∧
        Event.SignalAbort ∉
          (startSecondaries pgmName wVdsName createProcess waits hSQLProcess nStreams).1) := by
  have hev := spawnLoop_events pgmName wVdsName createProcess nStreams
  have hab : Event.SignalAbort ∉ (spawnLoop pgmName wVdsName createProcess nStreams).1 := by
    intro hm
    obtain ⟨c, r, he⟩ := hev _ hm
    simp at he
  cases hsp : (spawnLoop pgmName wVdsName createProcess nStreams).2 with
  | none =>
    rw [startSecondaries_spawn_failed pgmName wVdsName createProcess waits hSQLProcess
      nStreams hsp]
    simp
  | some children =>
    rw [startSecondaries_spawned pgmName wVdsName createProcess waits hSQLProcess
      nStreams children hsp]
    have hs := spawnLoop_some pgmName wVdsName createProcess nStreams children hsp
    obtain ⟨w1, w2⟩ := waitLoop_spec waits (children.assign nStreams hSQLProcess)
      (nStreams + 1) (Nat.succ_pos _)
    simp only [spawned_append, observedExitZero_append, waitLoop_spawned, List.append_nil, hs,
      observedExitZero_of_CreateProcess _ hev, List.nil_append, Children.length_active,
      true_and, List.mem_append, hab, false_or]
    rw [Children.active_assign] at w1
    constructor
    · intro ho
      exact w1 ho
    · rintro ⟨hperm, -⟩
      by_contra ho
      have hlt := w2 ho
      have hlen := hperm.length_eq
      simp only [List.length_append, Children.length_active, List.length_singleton] at hlen
      omega

theorem startSecondaries_zero_iff_witness :
    (startSecondaries "mprocess" "VDS" (fun i => some (100 + i))
        [⟨1, true, 0⟩, ⟨1, true, 0⟩, ⟨0, true, 0⟩] 7 2).2 = Outcome.returned 0 ↔
      ((spawned (startSecondaries "mprocess" "VDS" (fun i => some (100 + i))
          [⟨1, true, 0⟩, ⟨1, true, 0⟩, ⟨0, true, 0⟩] 7 2).1).length = 2 ∧
        (observedExitZero (startSecondaries "mprocess" "VDS" (fun i => some (100 + i))
          [⟨1, true, 0⟩, ⟨1, true, 0⟩, ⟨0, true, 0⟩] 7 2).1).Perm
          (spawned (startSecondaries "mprocess" "VDS" (fun i => some (100 + i))
            [⟨1, true, 0⟩, ⟨1, true, 0⟩, ⟨0, true, 0⟩] 7 2).1 ++ [7]) ∧
        Event.SignalAbort ∉
          (startSecondaries "mprocess" "VDS" (fun i => some (100 + i))
            [⟨1, true, 0⟩, ⟨1, true, 0⟩, ⟨0, true, 0⟩] 7 2).1) :=
  startSecondaries_zero_iff "mprocess" "VDS" (fun i => some (100 + i))
    [⟨1, true, 0⟩, ⟨1, true, 0⟩, ⟨0, true, 0⟩] 7 2 (by decide)

/-- Claim C4: in every run of `startSecondaries`, whenever a participant is
observed with a nonzero exit code, or `WaitForMultipleObjects` returns a value
outside `[WAIT_OBJECT_0, WAIT_OBJECT_0 + nActive)`, the very next call is
`SignalAbort`, it is the last call (no further wait, no further exit-code
query), and the function returns -1. -/
theorem startSecondaries_fail_fast (pgmName wVdsName : String)
    (createProcess : Nat → Option HANDLE) (waits : List WaitRound) (hSQLProcess : HANDLE)
    (nStreams : Nat) (pre post : List Event) (e : Event)
    (h : (startSecondaries pgmName wVdsName createProcess waits hSQLProcess nStreams).1 =
      pre ++ e :: post)
    (hf : FailureObserved e) :
    post = [Event.SignalAbort] ∧
      (startSecondaries pgmName wVdsName createProcess waits hSQLProcess nStreams).2 =
        Outcome.returned (-1) := by
  have hev := spawnLoop_events pgmName wVdsName createProcess nStreams
  have hnot : e ∉ (spawnLoop pgmName wVdsName createProcess nStreams).1 := by
    intro hm
    obtain ⟨c, r, he⟩ := hev _ hm
    rw [he] at hf
    exact hf
  cases hsp : (spawnLoop pgmName wVdsName createProcess nStreams).2 with
  | none =>
    rw [startSecondaries_spawn_failed pgmName wVdsName createProcess waits hSQLProcess
      nStreams hsp] at h
    obtain ⟨p2, -, ht⟩ := append_split_of_not_mem _ _ _ _ _ h hnot
    rcases p2 with _ | ⟨a, p2⟩
    · simp only [List.nil_append, List.cons.injEq] at ht
      rw [← ht.1] at hf
      exact absurd hf (by simp [FailureObserved])
    · simp at ht
  | some children =>
    rw [startSecondaries_spawned pgmName wVdsName createProcess waits hSQLProcess
      nStreams children hsp] at h ⊢
    obtain ⟨p2, -, ht⟩ := append_split_of_not_mem _ _ _ _ _ h hnot
    exact waitLoop_fail_fast waits _ _ p2 post e ht hf

theorem startSecondaries_fail_fast_witness :
    [Event.SignalAbort] = [Event.SignalAbort] ∧
      (startSecondaries "mprocess" "VDS" (fun i => some (100 + i))
        [⟨1, true, 0⟩, ⟨0, true, 3⟩, ⟨0, true, 0⟩] 7 2).2 = Outcome.returned (-1) :=
  startSecondaries_fail_fast "mprocess" "VDS" (fun i => some (100 + i))
    [⟨1, true, 0⟩, ⟨0, true, 3⟩, ⟨0, true, 0⟩] 7 2
    [Event.CreateProcess "mprocess s 0 VDS" (some 100),
      Event.CreateProcess "mprocess s 1 VDS" (some 101),
      Event.WaitForMultipleObjects 3 [100, 101, 7] 1,
      Event.GetExitCodeProcess 101 true 0, Event.CloseHandle 101,
      Event.WaitForMultipleObjects 2 [100, 7] 0]
    [Event.SignalAbort] (Event.GetExitCodeProcess 100 true 3) (by decide)
    (by simp [FailureObserved])

/-! ## The sink and the terminal status: further claims on `performTransfer` -/

theorem fclose_not_mem_completeRound (K : VdiHeader) (r : DeviceRound) :
    Event.fclose ∉ completeRound K r := by
  unfold completeRound switchCommandCode
  split_ifs <;> simp

theorem fclose_not_mem_commandLoop (K : VdiHeader) (s : List DeviceRound) :
    Event.fclose ∉ (commandLoop K s).1 := by
  induction s with
  | nil => simp [commandLoop]
  | cons r rest ih =>
    cases h1 : SUCCEEDED r.hrGet with
    | true =>
      cases h2 : SUCCEEDED r.hrComplete with
      | true =>
        rw [commandLoop_continue K r rest h1 h2]
        simp [fclose_not_mem_completeRound, ih]
      | false =>
        rw [commandLoop_break K r rest h1 h2]
        simp [fclose_not_mem_completeRound]
    | false =>
      rw [commandLoop_fail K r rest h1]
      simp

/-- Claim C11: in every run of `performTransfer` in which the sink was opened
and the loop was left (the function returns), the trace is the `fopen`, the
calls of the loop, and one `fclose` as the very last call; the calls of the
loop (all sink reads, writes and flushes among them) contain no `fclose`. -/
theorem performTransfer_closes_sink_once (K : VdiHeader) (script : List DeviceRound)
    (backup streamId : Int) (termCode : Int)
    (h : (performTransfer K true script backup streamId).2 = Outcome.returned termCode) :
    ∃ calls, (performTransfer K true script backup streamId).1 =
        Event.fopen (sinkName streamId) (sinkMode backup) true :: (calls ++ [Event.fclose]) ∧
      Event.fclose ∉ calls ∧ calls = (commandLoop K script).1 := by
  rw [performTransfer_outcome] at h
  rw [performTransfer_trace]
  refine ⟨(commandLoop K script).1, ?_, fclose_not_mem_commandLoop K script, rfl⟩
  unfold afterRound
  cases hx : (commandLoop K script).2 with
  | none => rw [hx] at h; simp at h
  | some hr => simp

theorem performTransfer_closes_sink_once_witness :
    ∃ calls, (performTransfer sampleHeader true
        [⟨0, ⟨2, 8, 0, 7⟩, 8, 0, 0⟩, ⟨0, ⟨12, 0, 0, 0⟩, 0, 0, -5⟩] 1 0).1 =
        Event.fopen (sinkName 0) (sinkMode 1) true :: (calls ++ [Event.fclose]) ∧
      Event.fclose ∉ calls ∧ calls = (commandLoop sampleHeader
        [⟨0, ⟨2, 8, 0, 7⟩, 8, 0, 0⟩, ⟨0, ⟨12, 0, 0, 0⟩, 0, 0, -5⟩]).1 :=
  performTransfer_closes_sink_once sampleHeader
    [⟨0, ⟨2, 8, 0, 7⟩, 8, 0, 0⟩, ⟨0, ⟨12, 0, 0, 0⟩, 0, 0, -5⟩] 1 0 (-1) (by decide)

/-- A script whose passes all succeed, followed by a `GetCommand` that returns
`VD_E_CLOSE`: every pass is carried out and the loop is left with
`hr == VD_E_CLOSE`. -/
theorem commandLoop_closed_run (K : VdiHeader) (hK : K.VD_E_CLOSE < 0)
    (cmds : List DeviceRound) (closing : DeviceRound) (rest : List DeviceRound)
    (hall : ∀ r ∈ cmds, SUCCEEDED r.hrGet = true ∧ SUCCEEDED r.hrComplete = true)
    (hclose : closing.hrGet = K.VD_E_CLOSE) :
    commandLoop K (cmds ++ closing :: rest) =
      (cmds.flatMap (fun r => Event.GetCommand r.hrGet r.cmd :: completeRound K r) ++
        [Event.GetCommand K.VD_E_CLOSE closing.cmd], some K.VD_E_CLOSE) := by
  induction cmds with
  | nil =>
    have hf : SUCCEEDED closing.hrGet = false := by
      rw [hclose]; exact not_SUCCEEDED_of_neg _ hK
    rw [List.nil_append, commandLoop_fail K closing rest hf, hclose]
    rfl
  | cons r cmds ih =>
    obtain ⟨h1, h2⟩ := hall r (by simp)
    have ih2 := ih (fun x hx => hall x (List.mem_cons_of_mem _ hx))
    rw [List.cons_append, commandLoop_continue K r _ h1 h2, ih2]
    simp [List.flatMap_cons]

/-- Claim C12: when the sink is open, every `CompleteCommand` succeeds and
`GetCommand` finally returns `VD_E_CLOSE`, `performTransfer` carries out every
delivered command (its `GetCommand`, its sink call, its `CompleteCommand`),
closes the sink and returns 0, whatever the sink calls returned and whatever
completion codes were reported. -/
theorem performTransfer_success_despite_io_errors (K : VdiHeader) (hK : K.WellFormed)
    (cmds : List DeviceRound) (closing : DeviceRound) (rest : List DeviceRound)
    (backup streamId : Int)
    (hall : ∀ r ∈ cmds, SUCCEEDED r.hrGet = true ∧ SUCCEEDED r.hrComplete = true)
    (hclose : closing.hrGet = K.VD_E_CLOSE) :
    performTransfer K true (cmds ++ closing :: rest) backup streamId =
      (Event.fopen (sinkName streamId) (sinkMode backup) true ::
        (cmds.flatMap (fun r => Event.GetCommand r.hrGet r.cmd :: completeRound K r) ++
          [Event.GetCommand K.VD_E_CLOSE closing.cmd, Event.fclose]),
        Outcome.returned 0) := by
  have hloop := commandLoop_closed_run K hK.2.2.2.2.2.2.1 cmds closing rest hall hclose
  unfold performTransfer
  rw [hloop]
  simp

theorem performTransfer_success_despite_io_errors_witness :
    performTransfer sampleHeader true
        ([⟨0, ⟨1, 4096, 0, 7⟩, 4096, 0, 0⟩, ⟨0, ⟨1, 4096, 0, 7⟩, 100, 0, 0⟩] ++
          ⟨sampleHeader.VD_E_CLOSE, ⟨0, 0, 0, 0⟩, 0, 0, 0⟩ :: []) 0 0 =
      (Event.fopen (sinkName 0) (sinkMode 0) true ::
        ([⟨0, ⟨1, 4096, 0, 7⟩, 4096, 0, 0⟩, ⟨0, ⟨1, 4096, 0, 7⟩, 100, 0, 0⟩].flatMap
            (fun r => Event.GetCommand r.hrGet r.cmd :: completeRound sampleHeader r) ++
          [Event.GetCommand sampleHeader.VD_E_CLOSE ⟨0, 0, 0, 0⟩, Event.fclose]),
        Outcome.returned 0) :=
  performTransfer_success_despite_io_errors sampleHeader (by decide)
    [⟨0, ⟨1, 4096, 0, 7⟩, 4096, 0, 0⟩, ⟨0, ⟨1, 4096, 0, 7⟩, 100, 0, 0⟩]
    ⟨sampleHeader.VD_E_CLOSE, ⟨0, 0, 0, 0⟩, 0, 0, 0⟩ [] 0 0 (by decide) rfl

/-- Claim C13: the byte count passed to `CompleteCommand` is the count that
`fread` returned for a `Read` command, the count that `fwrite` returned for a
`Write` command, and 0 for every other command (`Flush`, `ClearError`, unknown
codes), whatever the earlier commands transferred. -/
theorem performTransfer_bytesTransferred (K : VdiHeader) (hK : K.WellFormed) (fopenOk : Bool)
    (script : List DeviceRound) (backup streamId : Int) (pre post : List Event)
    (hr : HRESULT) (cmd : VDC_Command)
    (h : (performTransfer K fopenOk script backup streamId).1 =
      pre ++ Event.GetCommand hr cmd :: post)
    (hs : SUCCEEDED hr = true) :
    (cmd.commandCode = K.VDC_Read → ∃ n code hr2 post2,
      post = Event.fread cmd.buffer cmd.size n ::
        Event.CompleteCommand cmd code n hr2 :: post2) ∧
    (cmd.commandCode = K.VDC_Write → ∃ n code hr2 post2,
      post = Event.fwrite cmd.buffer cmd.size n ::
        Event.CompleteCommand cmd code n hr2 :: post2) ∧
    (cmd.commandCode ≠ K.VDC_Read → cmd.commandCode ≠ K.VDC_Write →
      ∃ sinkCalls code hr2 post2,
        post = sinkCalls ++ Event.CompleteCommand cmd code 0 hr2 :: post2 ∧
        ∀ e ∈ sinkCalls, ∃ ret, e = Event.fflush ret) := by
  obtain ⟨r, tail, hcmd, hp⟩ :=
    performTransfer_pass K fopenOk script backup streamId pre post hr cmd h hs
  subst hcmd
  refine ⟨fun hc => ?_, fun hc => ?_, fun h1 h2 => ?_⟩
  · rw [completeRound_read K r hc] at hp
    exact ⟨r.ioRet, _, r.hrComplete, tail, hp⟩
  · rw [completeRound_write K hK r hc] at hp
    exact ⟨r.ioRet, _, r.hrComplete, tail, hp⟩
  · by_cases h3 : r.cmd.commandCode = K.VDC_Flush
    · rw [completeRound_flush K hK r h3] at hp
      exact ⟨[Event.fflush r.flushRet], ERROR_SUCCESS, r.hrComplete, tail, hp,
        fun e he => ⟨r.flushRet, by simpa using he⟩⟩
    · by_cases h4 : r.cmd.commandCode = K.VDC_ClearError
      · rw [completeRound_clearError K hK r h4] at hp
        exact ⟨[], ERROR_SUCCESS, r.hrComplete, tail, hp, fun e he => by simp at he⟩
      · rw [completeRound_default K r h1 h2 h3 h4] at hp
        exact ⟨[], ERROR_NOT_SUPPORTED, r.hrComplete, tail, hp, fun e he => by simp at he⟩

theorem performTransfer_bytesTransferred_witness :
    ((12 : Nat) = sampleHeader.VDC_Read → ∃ n code hr2 post2,
      [Event.fflush 0, Event.CompleteCommand ⟨12, 0, 0, 0⟩ ERROR_SUCCESS 0 0] =
        Event.fread 0 0 n :: Event.CompleteCommand ⟨12, 0, 0, 0⟩ code n hr2 :: post2) ∧
    ((12 : Nat) = sampleHeader.VDC_Write → ∃ n code hr2 post2,
      [Event.fflush 0, Event.CompleteCommand ⟨12, 0, 0, 0⟩ ERROR_SUCCESS 0 0] =
        Event.fwrite 0 0 n :: Event.CompleteCommand ⟨12, 0, 0, 0⟩ code n hr2 :: post2) ∧
    ((12 : Nat) ≠ sampleHeader.VDC_Read → (12 : Nat) ≠ sampleHeader.VDC_Write →
      ∃ sinkCalls code hr2 post2,
        [Event.fflush 0, Event.CompleteCommand ⟨12, 0, 0, 0⟩ ERROR_SUCCESS 0 0] =
          sinkCalls ++ Event.CompleteCommand ⟨12, 0, 0, 0⟩ code 0 hr2 :: post2 ∧
        ∀ e ∈ sinkCalls, ∃ ret, e = Event.fflush ret) :=
  performTransfer_bytesTransferred sampleHeader (by decide) true
    [⟨0, ⟨2, 4096, 0, 7⟩, 4096, 0, 0⟩, ⟨0, ⟨12, 0, 0, 0⟩, 0, 0, 0⟩] 1 0
    [Event.fopen "multi.0.dmp" "wb" true, Event.GetCommand 0 ⟨2, 4096, 0, 7⟩,
      Event.fwrite 7 4096 4096, Event.CompleteCommand ⟨2, 4096, 0, 7⟩ ERROR_SUCCESS 4096 0]
    [Event.fflush 0, Event.CompleteCommand ⟨12, 0, 0, 0⟩ ERROR_SUCCESS 0 0]
    0 ⟨12, 0, 0, 0⟩ (by decide) (by decide)

/-- Claim C14: for every `ClearError` command delivered, the very next call of
the handler is the `CompleteCommand` for it, with `ERROR_SUCCESS` and zero
bytes: no sink call (read, write or flush) is made for the command. -/
theorem performTransfer_clearError_completion (K : VdiHeader) (hK : K.WellFormed)
    (fopenOk : Bool) (script : List DeviceRound) (backup streamId : Int)
    (pre post : List Event) (hr : HRESULT) (cmd : VDC_Command)
    (h : (performTransfer K fopenOk script backup streamId).1 =
      pre ++ Event.GetCommand hr cmd :: post)
    (hs : SUCCEEDED hr = true) (hc : cmd.commandCode = K.VDC_ClearError) :
    ∃ hr2 post2, post = Event.CompleteCommand cmd ERROR_SUCCESS 0 hr2 :: post2 := by
  obtain ⟨r, tail, hcmd, hp⟩ :=
    performTransfer_pass K fopenOk script backup streamId pre post hr cmd h hs
  subst hcmd
  rw [completeRound_clearError K hK r hc] at hp
  exact ⟨r.hrComplete, tail, hp⟩

theorem performTransfer_clearError_completion_witness :
    ∃ hr2 post2,
      [Event.CompleteCommand ⟨3, 0, 0, 0⟩ ERROR_SUCCESS 0 0] =
        Event.CompleteCommand ⟨3, 0, 0, 0⟩ ERROR_SUCCESS 0 hr2 :: post2 :=
  performTransfer_clearError_completion sampleHeader (by decide) true
    [⟨0, ⟨3, 0, 0, 0⟩, 5, 0, 0⟩] 1 0
    [Event.fopen "multi.0.dmp" "wb" true]
    [Event.CompleteCommand ⟨3, 0, 0, 0⟩ ERROR_SUCCESS 0 0]
    0 ⟨3, 0, 0, 0⟩ (by decide) (by decide) (by decide)

/-! ## The primary process: claims on `main` -/

theorem main_primary (K : VdiHeader) (a : MainArgs) (w : MainWorld) (doBackup : Bool)
    (hp : parseMode a = some (doBackup, false))
    (h1 : SUCCEEDED w.hrCoInitializeEx = true) (h2 : SUCCEEDED w.hrCoCreateInstance = true) :
    main K a w =
      (Event.CoInitializeEx w.hrCoInitializeEx :: Event.CoCreateInstance w.hrCoCreateInstance ::
        (runPrimary a w doBackup (limitStreams (scannedStreams a))).1,
        (runPrimary a w doBackup (limitStreams (scannedStreams a))).2) := by
  simp [main, hp, h1, h2]

theorem runPrimary_create_failed (a : MainArgs) (w : MainWorld) (doBackup : Bool)
    (nStreams : Int) (h3 : SUCCEEDED w.hrCreate = false) :
    runPrimary a w doBackup nStreams =
      ([Event.Create w.guidName nStreams w.hrCreate, Event.CoUninitialize],
        Outcome.returned (-1)) := by
  simp [runPrimary, h3]

theorem runPrimary_execSQL_failed (a : MainArgs) (w : MainWorld) (doBackup : Bool)
    (nStreams : Int) (h3 : SUCCEEDED w.hrCreate = true) (hx : w.execSQL = none) :
    runPrimary a w doBackup nStreams =
      ([Event.Create w.guidName nStreams w.hrCreate,
        Event.CreateProcess (execSQLCommand doBackup w.guidName nStreams.toNat) none,
        Event.Close, Event.Release, Event.CoUninitialize], Outcome.returned (-1)) := by
  simp [runPrimary, h3, hx]

theorem runPrimary_configuration_failed (a : MainArgs) (w : MainWorld) (doBackup : Bool)
    (nStreams : Int) (hProcess : HANDLE) (h3 : SUCCEEDED w.hrCreate = true)
    (hx : w.execSQL = some hProcess) (h4 : SUCCEEDED w.hrGetConfiguration = false) :
    runPrimary a w doBackup nStreams =
      ([Event.Create w.guidName nStreams w.hrCreate,
        Event.CreateProcess (execSQLCommand doBackup w.guidName nStreams.toNat)
          (some hProcess),
        Event.GetConfiguration (some 15000) w.hrGetConfiguration w.features,
        Event.Close, Event.Release, Event.CoUninitialize], Outcome.returned (-1)) := by
  simp [runPrimary, h3, hx, h4]

theorem runPrimary_returned (a : MainArgs) (w : MainWorld) (doBackup : Bool)
    (nStreams : Int) (hProcess : HANDLE) (calls : List Event) (termCode : Int)
    (h3 : SUCCEEDED w.hrCreate = true)
    (hx : w.execSQL = some hProcess) (h4 : SUCCEEDED w.hrGetConfiguration = true)
    (hss : startSecondaries a.argv0 w.guidName w.createProcess w.waits hProcess
      nStreams.toNat = (calls, Outcome.returned termCode)) :
    runPrimary a w doBackup nStreams =
      (Event.Create w.guidName nStreams w.hrCreate ::
        Event.CreateProcess (execSQLCommand doBackup w.guidName nStreams.toNat)
          (some hProcess) ::
        Event.GetConfiguration (some 15000) w.hrGetConfiguration w.features ::
        (calls ++ [Event.Close, Event.Release, Event.CoUninitialize]),
        Outcome.returned termCode) := by
  simp [runPrimary, h3, hx, h4, hss]

theorem runPrimary_blocked (a : MainArgs) (w : MainWorld) (doBackup : Bool)
    (nStreams : Int) (hProcess : HANDLE) (calls : List Event)
    (h3 : SUCCEEDED w.hrCreate = true)
    (hx : w.execSQL = some hProcess) (h4 : SUCCEEDED w.hrGetConfiguration = true)
    (hss : startSecondaries a.argv0 w.guidName w.createProcess w.waits hProcess
      nStreams.toNat = (calls, Outcome.blocked)) :
    runPrimary a w doBackup nStreams =
      (Event.Create w.guidName nStreams w.hrCreate ::
        Event.CreateProcess (execSQLCommand doBackup w.guidName nStreams.toNat)
          (some hProcess) ::
        Event.GetConfiguration (some 15000) w.hrGetConfiguration w.features :: calls,
        Outcome.blocked) := by
  simp [runPrimary, h3, hx, h4, hss]

theorem runPrimary_head (a : MainArgs) (w : MainWorld) (doBackup : Bool) (nStreams : Int) :
    ∃ post, (runPrimary a w doBackup nStreams).1 =
      Event.Create w.guidName nStreams w.hrCreate :: post := by
  cases h3 : SUCCEEDED w.hrCreate with
  | false => rw [runPrimary_create_failed a w doBackup nStreams h3]; exact ⟨_, rfl⟩
  | true =>
    cases hx : w.execSQL with
    | none => rw [runPrimary_execSQL_failed a w doBackup nStreams h3 hx]; exact ⟨_, rfl⟩
    | some hProcess =>
      cases h4 : SUCCEEDED w.hrGetConfiguration with
      | false =>
        rw [runPrimary_configuration_failed a w doBackup nStreams hProcess h3 hx h4]
        exact ⟨_, rfl⟩
      | true =>
        rcases hss : startSecondaries a.argv0 w.guidName w.createProcess w.waits hProcess
            nStreams.toNat with ⟨calls, c | _⟩
        · rw [runPrimary_returned a w doBackup nStreams hProcess calls c h3 hx h4 hss]
          exact ⟨_, rfl⟩
        · rw [runPrimary_blocked a w doBackup nStreams hProcess calls h3 hx h4 hss]
          exact ⟨_, rfl⟩

theorem limitStreams_eq (n : Int) : limitStreams n = min (max n 1) 32 := by
  unfold limitStreams
  split_ifs <;> omega

theorem waitLoop_no_session_end (waits : List WaitRound) (children : Children)
    (nActive : Nat) :
    Event.Close ∉ (waitLoop children nActive waits).1 ∧
      Event.Release ∉ (waitLoop children nActive waits).1 := by
  induction waits generalizing children nActive with
  | nil => simp [waitLoop]
  | cons r rest ih =>
    rcases waitLoop_cases nActive r with h | ⟨h, hok | ⟨hok, hc⟩ | ⟨hok, hc, hn⟩ |
      ⟨hok, hc, hn⟩⟩
    · rw [waitLoop_unexpected children nActive r rest h]; simp
    · rw [waitLoop_query_failed children nActive r rest h hok]; simp
    · rw [waitLoop_nonzero children nActive r rest h hok hc]; simp
    · rw [waitLoop_more children nActive r rest h hok hc hn]
      simp [(ih _ _).1, (ih _ _).2]
    · rw [waitLoop_done children nActive r rest h hok hc hn]; simp

theorem startSecondaries_no_session_end (pgmName wVdsName : String)
    (createProcess : Nat → Option HANDLE) (waits : List WaitRound) (hSQLProcess : HANDLE)
    (nStreams : Nat) :
    Event.Close ∉
        (startSecondaries pgmName wVdsName createProcess waits hSQLProcess nStreams).1 ∧
      Event.Release ∉
        (startSecondaries pgmName wVdsName createProcess waits hSQLProcess nStreams).1 := by
  have hev := spawnLoop_events pgmName wVdsName createProcess nStreams
  have hc : Event.Close ∉ (spawnLoop pgmName wVdsName createProcess nStreams).1 := by
    intro hm
    obtain ⟨c, r, he⟩ := hev _ hm
    simp at he
  have hr : Event.Release ∉ (spawnLoop pgmName wVdsName createProcess nStreams).1 := by
    intro hm
    obtain ⟨c, r, he⟩ := hev _ hm
    simp at he
  cases hsp : (spawnLoop pgmName wVdsName createProcess nStreams).2 with
  | none =>
    rw [startSecondaries_spawn_failed pgmName wVdsName createProcess waits hSQLProcess
      nStreams hsp]
    simp [hc, hr]
  | some children =>
    rw [startSecondaries_spawned pgmName wVdsName createProcess waits hSQLProcess
      nStreams children hsp]
    have hw := waitLoop_no_session_end waits (children.assign nStreams hSQLProcess)
      (nStreams + 1)
    simp [hc, hr, hw.1, hw.2]

/-- Claim C15 (as stated it fails): when `vds->Create` fails, `main` jumps to
the label `exit`, past `shutdown`: neither `Close` nor `Release` is called. -/
theorem main_create_failure_skips_shutdown :
    main sampleHeader ⟨3, "mprocess", 'b', some 2, ""⟩
        ⟨0, 0, "G", -1, some 7, 0, 0, fun _ => none, [], ⟨0, 0, none, true, []⟩⟩ =
      ([Event.CoInitializeEx 0, Event.CoCreateInstance 0, Event.Create "G" 2 (-1),
        Event.CoUninitialize], Outcome.returned (-1)) := by
  decide

/-- Claim C15, amended: on every outcome of the primary run of `main` after
`vds->Create` succeeded (producer launch failure, configuration failure,
`startSecondaries` returning failure or success), the calls of `main` end with
`Close`, `Release`, `CoUninitialize`, and neither `Close` nor `Release` occurs
before: each is called exactly once. -/
theorem main_closes_session_once (K : VdiHeader) (a : MainArgs) (w : MainWorld)
    (doBackup : Bool) (termCode : Int)
    (hp : parseMode a = some (doBackup, false))
    (h1 : SUCCEEDED w.hrCoInitializeEx = true) (h2 : SUCCEEDED w.hrCoCreateInstance = true)
    (h3 : SUCCEEDED w.hrCreate = true)
    (hret : (main K a w).2 = Outcome.returned termCode) :
    ∃ calls, (main K a w).1 = calls ++ [Event.Close, Event.Release, Event.CoUninitialize] ∧
      Event.Close ∉ calls ∧ Event.Release ∉ calls := by
  rw [main_primary K a w doBackup hp h1 h2] at hret ⊢
  cases hx : w.execSQL with
  | none =>
    rw [runPrimary_execSQL_failed a w doBackup _ h3 hx]
    exact ⟨[Event.CoInitializeEx w.hrCoInitializeEx,
      Event.CoCreateInstance w.hrCoCreateInstance,
      Event.Create w.guidName (limitStreams (scannedStreams a)) w.hrCreate,
      Event.CreateProcess (execSQLCommand doBackup w.guidName
        (limitStreams (scannedStreams a)).toNat) none], by simp, by simp, by simp⟩
  | some hProcess =>
    cases h4 : SUCCEEDED w.hrGetConfiguration with
    | false =>
      rw [runPrimary_configuration_failed a w doBackup _ hProcess h3 hx h4]
      exact ⟨[Event.CoInitializeEx w.hrCoInitializeEx,
        Event.CoCreateInstance w.hrCoCreateInstance,
        Event.Create w.guidName (limitStreams (scannedStreams a)) w.hrCreate,
        Event.CreateProcess (execSQLCommand doBackup w.guidName
          (limitStreams (scannedStreams a)).toNat) (some hProcess),
        Event.GetConfiguration (some 15000) w.hrGetConfiguration w.features],
        by simp, by simp, by simp⟩
    | true =>
      have hno := startSecondaries_no_session_end a.argv0 w.guidName w.createProcess w.waits
        hProcess (limitStreams (scannedStreams a)).toNat
      rcases hss : startSecondaries a.argv0 w.guidName w.createProcess w.waits hProcess
          (limitStreams (scannedStreams a)).toNat with ⟨calls, c | _⟩
      · rw [hss] at hno
        rw [runPrimary_returned a w doBackup _ hProcess calls c h3 hx h4 hss]
        refine ⟨Event.CoInitializeEx w.hrCoInitializeEx ::
          Event.CoCreateInstance w.hrCoCreateInstance ::
          Event.Create w.guidName (limitStreams (scannedStreams a)) w.hrCreate ::
          Event.CreateProcess (execSQLCommand doBackup w.guidName
            (limitStreams (scannedStreams a)).toNat) (some hProcess) ::
          Event.GetConfiguration (some 15000) w.hrGetConfiguration w.features :: calls,
          by simp, ?_, ?_⟩
        · simpa using hno.1
        · simpa using hno.2
      · rw [runPrimary_blocked a w doBackup _ hProcess calls h3 hx h4 hss] at hret
        simp at hret

theorem main_closes_session_once_witness :
    ∃ calls, (main sampleHeader ⟨3, "mprocess", 'b', some 2, ""⟩
        ⟨0, 0, "G", 0, some 7, 0, 65536, fun i => some (100 + i),
          [⟨1, true, 0⟩, ⟨1, true, 0⟩, ⟨0, true, 0⟩], ⟨0, 0, none, true, []⟩⟩).1 =
        calls ++ [Event.Close, Event.Release, Event.CoUninitialize] ∧
      Event.Close ∉ calls ∧ Event.Release ∉ calls :=
  main_closes_session_once sampleHeader ⟨3, "mprocess", 'b', some 2, ""⟩
    ⟨0, 0, "G", 0, some 7, 0, 65536, fun i => some (100 + i),
      [⟨1, true, 0⟩, ⟨1, true, 0⟩, ⟨0, true, 0⟩], ⟨0, 0, none, true, []⟩⟩ true 0
    (by decide) (by decide) (by decide) (by decide) (by decide)

/-- Claim C16: when `GetConfiguration` fails in the primary process (a timeout
is one such failure), `main` calls it once, starts no secondary process (the
only `CreateProcess` is the one of `execSQL`), closes and releases the device
set and returns -1. -/
theorem main_configuration_failure (K : VdiHeader) (a : MainArgs) (w : MainWorld)
    (doBackup : Bool) (hProcess : HANDLE)
    (hp : parseMode a = some (doBackup, false))
    (h1 : SUCCEEDED w.hrCoInitializeEx = true) (h2 : SUCCEEDED w.hrCoCreateInstance = true)
    (h3 : SUCCEEDED w.hrCreate = true) (hx : w.execSQL = some hProcess)
    (h4 : SUCCEEDED w.hrGetConfiguration = false) :
    main K a w =
      ([Event.CoInitializeEx w.hrCoInitializeEx, Event.CoCreateInstance w.hrCoCreateInstance,
        Event.Create w.guidName (limitStreams (scannedStreams a)) w.hrCreate,
        Event.CreateProcess
          (execSQLCommand doBackup w.guidName (limitStreams (scannedStreams a)).toNat)
          (some hProcess),
        Event.GetConfiguration (some 15000) w.hrGetConfiguration w.features,
        Event.Close, Event.Release, Event.CoUninitialize], Outcome.returned (-1)) := by
  rw [main_primary K a w doBackup hp h1 h2,
    runPrimary_configuration_failed a w doBackup _ hProcess h3 hx h4]

theorem main_configuration_failure_witness :
    main sampleHeader ⟨3, "mprocess", 'r', some 4, ""⟩
        ⟨0, 0, "G", 0, some 7, -3, 0, fun i => some (100 + i),
          [⟨1, true, 0⟩], ⟨0, 0, none, true, []⟩⟩ =
      ([Event.CoInitializeEx 0, Event.CoCreateInstance 0,
        Event.Create "G" (limitStreams (scannedStreams ⟨3, "mprocess", 'r', some 4, ""⟩)) 0,
        Event.CreateProcess
          (execSQLCommand false "G"
            (limitStreams (scannedStreams ⟨3, "mprocess", 'r', some 4, ""⟩)).toNat)
          (some 7),
        Event.GetConfiguration (some 15000) (-3) 0,
        Event.Close, Event.Release, Event.CoUninitialize], Outcome.returned (-1)) :=
  main_configuration_failure sampleHeader ⟨3, "mprocess", 'r', some 4, ""⟩
    ⟨0, 0, "G", 0, some 7, -3, 0, fun i => some (100 + i),
      [⟨1, true, 0⟩], ⟨0, 0, none, true, []⟩⟩ false 7
    (by decide) (by decide) (by decide) (by decide) rfl (by decide)

/-- Claim C18: for every stream count `n` read from the command line of a
primary (backup or restore) invocation, the device count given to
`vds->Create` is `min (max n 1) 32`; it lies in 1..32 and equals `n` when `n`
already does. -/
theorem main_device_count (K : VdiHeader) (a : MainArgs) (w : MainWorld)
    (doBackup : Bool) (n : Int)
    (hp : parseMode a = some (doBackup, false)) (hn : a.scanned = some n)
    (h1 : SUCCEEDED w.hrCoInitializeEx = true) (h2 : SUCCEEDED w.hrCoCreateInstance = true) :
    (∃ post, (main K a w).1 =
      Event.CoInitializeEx w.hrCoInitializeEx :: Event.CoCreateInstance w.hrCoCreateInstance ::
        Event.Create w.guidName (min (max n 1) 32) w.hrCreate :: post) ∧
    1 ≤ min (max n 1) 32 ∧ min (max n 1) 32 ≤ 32 ∧
    (1 ≤ n → n ≤ 32 → min (max n 1) 32 = n) := by
  have hargc : 3 ≤ a.argc := by
    by_contra hlt
    simp [parseMode, hlt] at hp
  have hscan : scannedStreams a = n := by
    simp [scannedStreams, hargc, hn]
  refine ⟨?_, by omega, by omega, fun _ _ => by omega⟩
  rw [main_primary K a w doBackup hp h1 h2, hscan, limitStreams_eq]
  obtain ⟨post, hpost⟩ := runPrimary_head a w doBackup (min (max n 1) 32)
  exact ⟨post, by rw [hpost]⟩

theorem main_device_count_witness :
    (∃ post, (main sampleHeader ⟨3, "mprocess", 'b', some 40, ""⟩
        ⟨0, 0, "G", -1, none, 0, 0, fun _ => none, [], ⟨0, 0, none, true, []⟩⟩).1 =
      Event.CoInitializeEx 0 :: Event.CoCreateInstance 0 ::
        Event.Create "G" (min (max 40 1) 32) (-1) :: post) ∧
    (1 : Int) ≤ min (max 40 1) 32 ∧ min (max (40 : Int) 1) 32 ≤ 32 ∧
    ((1 : Int) ≤ 40 → (40 : Int) ≤ 32 → min (max (40 : Int) 1) 32 = 40) :=
  main_device_count sampleHeader ⟨3, "mprocess", 'b', some 40, ""⟩
    ⟨0, 0, "G", -1, none, 0, 0, fun _ => none, [], ⟨0, 0, none, true, []⟩⟩ true 40
    (by decide) rfl (by decide) (by decide)

/-! ## The secondaries started by `startSecondaries` -/

theorem processLaunches_append (l t : List Event) :
    processLaunches (l ++ t) = processLaunches l ++ processLaunches t := by
  induction l with
  | nil => rfl
  | cons e l ih => cases e <;> simp [processLaunches, ih]

theorem waitLoop_processLaunches (waits : List WaitRound) (children : Children)
    (nActive : Nat) : processLaunches (waitLoop children nActive waits).1 = [] := by
  induction waits generalizing children nActive with
  | nil => simp [waitLoop, processLaunches]
  | cons r rest ih =>
    rcases waitLoop_cases nActive r with h | ⟨h, hok | ⟨hok, hc⟩ | ⟨hok, hc, hn⟩ |
      ⟨hok, hc, hn⟩⟩
    · rw [waitLoop_unexpected children nActive r rest h]; simp [processLaunches]
    · rw [waitLoop_query_failed children nActive r rest h hok]; simp [processLaunches]
    · rw [waitLoop_nonzero children nActive r rest h hok hc]; simp [processLaunches]
    · rw [waitLoop_more children nActive r rest h hok hc hn]; simp [processLaunches, ih]
    · rw [waitLoop_done children nActive r rest h hok hc hn]; simp [processLaunches]

/-- When every `CreateProcess` succeeds, the first `n` passes of the loop start
the secondaries for the stream ids 0, 1, ..., `n - 1`, in this order. -/
theorem spawnLoop_all (pgmName wVdsName : String) (createProcess : Nat → Option HANDLE)
    (n : Nat) (hall : ∀ ix, ix < n → (createProcess ix).isSome = true) :
    (spawnLoop pgmName wVdsName createProcess n).1 =
        (List.range n).map (fun ix =>
          Event.CreateProcess (secondaryCommandLine pgmName wVdsName ix) (createProcess ix)) ∧
      (spawnLoop pgmName wVdsName createProcess n).2.isSome = true := by
  induction n with
  | zero => simp [spawnLoop]
  | succ n ih =>
    obtain ⟨ih1, ih2⟩ := ih (fun ix hix => hall ix (Nat.lt_succ_of_lt hix))
    have hn := hall n (Nat.lt_succ_self n)
    unfold spawnLoop
    rcases hsp : spawnLoop pgmName wVdsName createProcess n with ⟨calls, _ | children⟩
    · rw [hsp] at ih2
      simp at ih2
    · rw [hsp] at ih1
      simp only at ih1
      cases hc : createProcess n with
      | none => rw [hc] at hn; simp at hn
      | some hd =>
        simp only [Option.isSome_some, and_true]
        rw [List.range_succ, List.map_append, ih1]
        simp [hc]

/-- Claim C17: when every process creation succeeds, the `CreateProcess` calls
of `startSecondaries` are exactly `nStreams` calls, one for each stream id 0, 1,
..., `nStreams - 1` in increasing order, and the command line of the call for
stream `ix` is the program name, the marker `s`, the decimal stream id and the
set name, separated by blanks. -/
theorem startSecondaries_launches (pgmName wVdsName : String)
    (createProcess : Nat → Option HANDLE) (waits : List WaitRound) (hSQLProcess : HANDLE)
    (nStreams : Nat) (hall : ∀ ix, ix < nStreams → (createProcess ix).isSome = true) :
    processLaunches
        (startSecondaries pgmName wVdsName createProcess waits hSQLProcess nStreams).1 =
      (List.range nStreams).map (fun ix =>
        Event.CreateProcess (pgmName ++ " s " ++ toString ix ++ " " ++ wVdsName)
          (createProcess ix)) := by
  obtain ⟨hcalls, hsome⟩ := spawnLoop_all pgmName wVdsName createProcess nStreams hall
  cases hsp : (spawnLoop pgmName wVdsName createProcess nStreams).2 with
  | none => rw [hsp] at hsome; simp at hsome
  | some children =>
    rw [startSecondaries_spawned pgmName wVdsName createProcess waits hSQLProcess
      nStreams children hsp, processLaunches_append, waitLoop_processLaunches,
      List.append_nil, hcalls]
    have hid : ∀ l : List Nat, processLaunches (l.map (fun ix =>
        Event.CreateProcess (secondaryCommandLine pgmName wVdsName ix) (createProcess ix))) =
        l.map (fun ix =>
          Event.CreateProcess (secondaryCommandLine pgmName wVdsName ix)
            (createProcess ix)) := by
      intro l
      induction l with
      | nil => rfl
      | cons x l ih => simp [processLaunches, ih]
    rw [hid]
    rfl

theorem startSecondaries_launches_witness :
    processLaunches
        (startSecondaries "mprocess" "VDS" (fun i => some (100 + i))
          [⟨1, true, 0⟩] 7 3).1 =
      (List.range 3).map (fun ix =>
        Event.CreateProcess ("mprocess" ++ " s " ++ toString ix ++ " " ++ "VDS")
          ((fun i => some (100 + i)) ix)) :=
  startSecondaries_launches "mprocess" "VDS" (fun i => some (100 + i))
    [⟨1, true, 0⟩] 7 3 (fun _ _ => rfl)

/-! ## Device names: `execSQL` and `runSecondary` -/

theorem digitChar_value (k : Nat) (h : k < 10) : (Nat.digitChar k).toNat - 48 = k := by
  interval_cases k <;> rfl

theorem decimalValue_append (l : List Char) (c : Char) :
    decimalValue (l ++ [c]) = 10 * decimalValue l + (c.toNat - 48) := by
  simp [decimalValue, List.foldl_append]

theorem toDigitsCore_value (fuel : Nat) : ∀ (n : Nat) (ds : List Char), n < fuel →
    ∃ front, Nat.toDigitsCore 10 fuel n ds = front ++ ds ∧ decimalValue front = n := by
  induction fuel with
  | zero => intro n ds h; omega
  | succ fuel ih =>
    intro n ds h
    by_cases hz : n / 10 = 0
    · refine ⟨[Nat.digitChar (n % 10)], ?_, ?_⟩
      · simp [Nat.toDigitsCore, hz]
      · have hlt : n < 10 := by omega
        rw [Nat.mod_eq_of_lt hlt]
        simp [decimalValue, digitChar_value n hlt]
    · have hlt : n / 10 < fuel := by omega
      obtain ⟨front, hf, hv⟩ := ih (n / 10) (Nat.digitChar (n % 10) :: ds) hlt
      refine ⟨front ++ [Nat.digitChar (n % 10)], ?_, ?_⟩
      · simp [Nat.toDigitsCore, hz, hf]
      · rw [decimalValue_append, hv, digitChar_value _ (Nat.mod_lt n (by norm_num))]
        omega

/-- The decimal text printed for `n` by `%d` reads back as `n`. -/
theorem decimalValue_repr (n : Nat) : decimalValue (Nat.repr n).data = n := by
  obtain ⟨front, hf, hv⟩ := toDigitsCore_value (n + 1) n [] (Nat.lt_succ_self n)
  have hd : (Nat.repr n).data = front := by
    simp [Nat.repr, Nat.toDigits, hf, List.asString]
  rw [hd, hv]

theorem deviceName_zero (wVdsName : String) : deviceName wVdsName ((0 : Nat) : Int) = wVdsName := by
  simp [deviceName]

theorem deviceName_succ (wVdsName : String) (k : Nat) :
    deviceName wVdsName ((k + 1 : Nat) : Int) = wVdsName ++ Nat.repr (k + 1) := by
  have hne : ((k + 1 : Nat) : Int) ≠ 0 := by omega
  unfold deviceName
  rw [if_neg hne]
  rfl

/-- The device names of different streams differ. -/
theorem deviceName_injective (wVdsName : String) (j k : Nat)
    (h : deviceName wVdsName (j : Int) = deviceName wVdsName (k : Int)) : j = k := by
  have hdata := congrArg String.data h
  cases j with
  | zero =>
    cases k with
    | zero => rfl
    | succ k =>
      rw [deviceName_zero, deviceName_succ, String.data_append] at hdata
      have hnil : (Nat.repr (k + 1)).data = [] := by
        have := congrArg List.length hdata
        simp only [List.length_append] at this
        exact List.length_eq_zero.mp (by omega)
      have hv := decimalValue_repr (k + 1)
      rw [hnil] at hv
      simp [decimalValue] at hv
  | succ j =>
    cases k with
    | zero =>
      rw [deviceName_zero, deviceName_succ, String.data_append] at hdata
      have hnil : (Nat.repr (j + 1)).data = [] := by
        have := congrArg List.length hdata
        simp only [List.length_append] at this
        exact List.length_eq_zero.mp (by omega)
      have hv := decimalValue_repr (j + 1)
      rw [hnil] at hv
      simp [decimalValue] at hv
    | succ k =>
      rw [deviceName_succ, deviceName_succ, String.data_append, String.data_append] at hdata
      have heq := List.append_cancel_left hdata
      rw [← decimalValue_repr (j + 1), ← decimalValue_repr (k + 1), heq]

theorem deviceList_snoc (names : List String) (name : String) (hne : names ≠ []) :
    deviceList (names ++ [name]) = deviceList names ++ ", " ++ deviceClause name := by
  induction names with
  | nil => exact absurd rfl hne
  | cons a names ih =>
    cases names with
    | nil => simp [deviceList]
    | cons b names =>
      have := ih (by simp)
      simp only [List.cons_append] at this ⊢
      simp only [deviceList, this, String.append_assoc]

/-- The first clause and the text appended by `k` passes of the loop of
`execSQL` are the device list for the names of the streams 0, 1, ..., `k`. -/
theorem execSQLExtend_eq (wVdsName : String) (k : Nat) :
    deviceClause wVdsName ++ execSQLExtend wVdsName k =
      deviceList ((List.range (k + 1)).map (fun ix : Nat => deviceName wVdsName (ix : Int))) := by
  induction k with
  | zero =>
    have h0 : deviceName wVdsName (0 : Int) = wVdsName := by simp [deviceName]
    simp [execSQLExtend, deviceList, List.range_succ, h0]
  | succ k ih =>
    have hsep : (", VIRTUAL_DEVICE='" : String) = ", " ++ "VIRTUAL_DEVICE='" := by decide
    rw [List.range_succ, List.map_append, List.map_singleton,
      deviceList_snoc _ _ (by simp), ← ih, deviceName_succ]
    simp only [execSQLExtend, deviceClause, hsep, String.append_assoc]
    rfl

theorem runSecondary_opens (K : VdiHeader) (wVdsName : String) (w : SecondaryWorld)
    (streamId : Int) (h1 : SUCCEEDED w.hrOpenInSecondary = true) :
    ∃ post, (runSecondary K wVdsName w streamId).1 =
      Event.OpenInSecondary wVdsName w.hrOpenInSecondary ::
        Event.OpenDevice (deviceName wVdsName streamId) w.hrOpenDevice :: post := by
  unfold runSecondary
  simp only [h1, if_true]
  cases h2 : SUCCEEDED w.hrOpenDevice with
  | false => exact ⟨_, rfl⟩
  | true =>
    simp only [if_true]
    cases hc : w.configuration with
    | none => exact ⟨_, rfl⟩
    | some c =>
      obtain ⟨hr, features⟩ := c
      simp only
      cases h4 : SUCCEEDED hr with
      | false => exact ⟨_, rfl⟩
      | true =>
        simp only [if_true]
        rcases performTransfer K w.fopenOk w.script
            ((features &&& K.VDF_WriteMedia : Nat) : Int) streamId with ⟨calls, c | _⟩
        · exact ⟨_, rfl⟩
        · exact ⟨_, rfl⟩

/-- Claim C20: for every set name and every `nStreams >= 1`, the SQL command
built by `execSQL` lists, in order, the `VIRTUAL_DEVICE` names that
`runSecondary` opens for the stream ids 0, 1, ..., `nStreams - 1`: the set name
itself for stream 0 and the set name followed by the decimal digits of `k` for
a stream `k >= 1`; these names are pairwise distinct. -/
theorem device_names_agree (K : VdiHeader) (doBackup : Bool) (wVdsName : String)
    (nStreams : Nat) (hn : 1 ≤ nStreams) :
    execSQLCommand doBackup wVdsName nStreams =
        "osql -E -b -Q\"" ++ (if doBackup then "BACKUP" else "RESTORE") ++ " DATABASE PUBS " ++
          (if doBackup then "TO" else "FROM") ++ " " ++
          deviceList ((List.range nStreams).map
            (fun k : Nat => deviceName wVdsName (k : Int))) ++ "\"" ∧
      (∀ (k : Nat) (w : SecondaryWorld), SUCCEEDED w.hrOpenInSecondary = true →
        ∃ post, (runSecondary K wVdsName w (k : Int)).1 =
          Event.OpenInSecondary wVdsName w.hrOpenInSecondary ::
            Event.OpenDevice (deviceName wVdsName (k : Int)) w.hrOpenDevice :: post) ∧
      (∀ k : Nat, deviceName wVdsName (k : Int) =
        if k = 0 then wVdsName else wVdsName ++ toString k) ∧
      ((List.range nStreams).map (fun k : Nat => deviceName wVdsName (k : Int))).Nodup := by
  refine ⟨?_, fun k w h1 => runSecondary_opens K wVdsName w k h1, fun k => ?_, ?_⟩
  · obtain ⟨m, rfl⟩ : ∃ m, nStreams = m + 1 := ⟨nStreams - 1, by omega⟩
    have hsep : (" VIRTUAL_DEVICE='" : String) = " " ++ "VIRTUAL_DEVICE='" := by decide
    rw [← execSQLExtend_eq]
    simp only [execSQLCommand, Nat.add_sub_cancel, deviceClause, hsep, String.append_assoc]
  · cases k with
    | zero => simp [deviceName]
    | succ k =>
      rw [deviceName_succ]
      simp
      rfl
  · apply List.Nodup.map_on
    · intro j _ k _ h
      exact deviceName_injective wVdsName j k h
    · exact List.nodup_range nStreams

theorem device_names_agree_witness :
    execSQLCommand true "G" 3 =
        "osql -E -b -Q\"" ++ (if true then "BACKUP" else "RESTORE") ++ " DATABASE PUBS " ++
          (if true then "TO" else "FROM") ++ " " ++
          deviceList ((List.range 3).map
            (fun k : Nat => deviceName "G" (k : Int))) ++ "\"" ∧
      (∀ (k : Nat) (w : SecondaryWorld), SUCCEEDED w.hrOpenInSecondary = true →
        ∃ post, (runSecondary sampleHeader "G" w (k : Int)).1 =
          Event.OpenInSecondary "G" w.hrOpenInSecondary ::
            Event.OpenDevice (deviceName "G" (k : Int)) w.hrOpenDevice :: post) ∧
      (∀ k : Nat, deviceName "G" (k : Int) =
        if k = 0 then "G" else "G" ++ toString k) ∧
      ((List.range 3).map (fun k : Nat => deviceName "G" (k : Int))).Nodup :=
  device_names_agree sampleHeader true "G" 3 (by decide)

/-! ## The active set of the wait loop -/

/-- The first call of the wait loop is the wait on the active entries. -/
theorem waitLoop_head (waits : List WaitRound) (children : Children) (nActive : Nat)
    (e : Event) (t : List Event) (h : (waitLoop children nActive waits).1 = e :: t) :
    ∃ ret, e = Event.WaitForMultipleObjects nActive (children.active nActive) ret := by
  cases waits with
  | nil => simp [waitLoop] at h
  | cons r rest =>
    rcases waitLoop_cases nActive r with hr | ⟨hr, hok | ⟨hok, hc⟩ | ⟨hok, hc, hn⟩ |
      ⟨hok, hc, hn⟩⟩
    · rw [waitLoop_unexpected children nActive r rest hr] at h
      simp only [List.cons.injEq] at h
      exact ⟨_, h.1.symm⟩
    · rw [waitLoop_query_failed children nActive r rest hr hok] at h
      simp only [List.cons.injEq] at h
      exact ⟨_, h.1.symm⟩
    · rw [waitLoop_nonzero children nActive r rest hr hok hc] at h
      simp only [List.cons.injEq] at h
      exact ⟨_, h.1.symm⟩
    · rw [waitLoop_more children nActive r rest hr hok hc hn] at h
      simp only [List.cons.injEq] at h
      exact ⟨_, h.1.symm⟩
    · rw [waitLoop_done children nActive r rest hr hok hc hn] at h
      simp only [List.cons.injEq] at h
      exact ⟨_, h.1.symm⟩

/-- A successful exit seen at the head of the wait loop: the entry at the index
returned by the wait is the one queried, and the next wait is on the former
active entries without that one. -/
theorem waitLoop_head_step (waits : List WaitRound) (children : Children) (nActive : Nat)
    (n : Nat) (hs : List HANDLE) (ret : Nat) (h1 h2 : HANDLE) (n2 : Nat) (hs2 : List HANDLE)
    (ret2 : Nat) (post : List Event)
    (h : (waitLoop children nActive waits).1 =
      Event.WaitForMultipleObjects n hs ret :: Event.GetExitCodeProcess h1 true 0 ::
        Event.CloseHandle h2 :: Event.WaitForMultipleObjects n2 hs2 ret2 :: post) :
    ret - WAIT_OBJECT_0 < nActive ∧ h1 = children (ret - WAIT_OBJECT_0) ∧
      h2 = children (ret - WAIT_OBJECT_0) ∧ n2 = nActive - 1 ∧
      hs2 = (children.active nActive).eraseIdx (ret - WAIT_OBJECT_0) := by
  cases waits with
  | nil => simp [waitLoop] at h
  | cons r rest =>
    rcases waitLoop_cases nActive r with hr | ⟨hr, hok | ⟨hok, hc⟩ | ⟨hok, hc, hn⟩ |
      ⟨hok, hc, hn⟩⟩
    · rw [waitLoop_unexpected children nActive r rest hr] at h
      simp at h
    · rw [waitLoop_query_failed children nActive r rest hr hok] at h
      simp at h
    · rw [waitLoop_nonzero children nActive r rest hr hok hc] at h
      simp at h
    · rw [waitLoop_more children nActive r rest hr hok hc hn] at h
      simp only [List.cons.injEq, Event.WaitForMultipleObjects.injEq,
        Event.GetExitCodeProcess.injEq, Event.CloseHandle.injEq] at h
      obtain ⟨⟨-, -, hret⟩, ⟨hh1, -, -⟩, hh2, htail⟩ := h
      have hix : r.waitStatus - WAIT_OBJECT_0 < nActive := by
        have := hr.2
        simp only [WAIT_OBJECT_0] at this ⊢
        omega
      obtain ⟨ret3, he⟩ := waitLoop_head rest _ _ _ _ htail
      simp only [Event.WaitForMultipleObjects.injEq] at he
      rw [← hret]
      refine ⟨hix, hh1.symm, hh2.symm, he.1, ?_⟩
      rw [he.2.1, Children.active_memmove children nActive _ hix]
    · rw [waitLoop_done children nActive r rest hr hok hc hn] at h
      simp at h

/-- Every wait of the loop starts a run of the loop on some array: its handles
are the active entries of that array; they are, in the original order, the
entries the loop started with, less the ones seen to exit with code 0. -/
theorem waitLoop_suffix (waits : List WaitRound) (children : Children) (nActive : Nat)
    (pre post : List Event) (n : Nat) (hs : List HANDLE) (ret : Nat)
    (h : (waitLoop children nActive waits).1 =
      pre ++ Event.WaitForMultipleObjects n hs ret :: post) :
    ∃ children2 waits2,
      (waitLoop children2 n waits2).1 = Event.WaitForMultipleObjects n hs ret :: post ∧
      hs = children2.active n ∧
      hs.Sublist (children.active nActive) ∧
      (hs ++ observedExitZero pre).Perm (children.active nActive) := by
  induction waits generalizing children nActive pre with
  | nil => simp [waitLoop] at h
  | cons r rest ih =>
    have hhead : pre = [] → ∃ children2 waits2,
        (waitLoop children2 n waits2).1 = Event.WaitForMultipleObjects n hs ret :: post ∧
        hs = children2.active n ∧
        hs.Sublist (children.active nActive) ∧
        (hs ++ observedExitZero pre).Perm (children.active nActive) := by
      intro hp
      subst hp
      rw [List.nil_append] at h
      obtain ⟨ret3, he⟩ := waitLoop_head (r :: rest) children nActive _ _ h
      simp only [Event.WaitForMultipleObjects.injEq] at he
      obtain ⟨hn, hhs, -⟩ := he
      subst hn
      subst hhs
      exact ⟨children, r :: rest, h, rfl, List.Sublist.refl _, by simp [observedExitZero]⟩
    rcases waitLoop_cases nActive r with hr | ⟨hr, hok | ⟨hok, hc⟩ | ⟨hok, hc, hn⟩ |
      ⟨hok, hc, hn⟩⟩
    · rcases pre with _ | ⟨a, _ | ⟨b, pre⟩⟩
      · exact hhead rfl
      · rw [waitLoop_unexpected children nActive r rest hr] at h
        simp at h
      · rw [waitLoop_unexpected children nActive r rest hr] at h
        simp at h
    · rcases pre with _ | ⟨a, _ | ⟨b, _ | ⟨c, pre⟩⟩⟩
      · exact hhead rfl
      all_goals
        rw [waitLoop_query_failed children nActive r rest hr hok] at h
        simp at h
    · rcases pre with _ | ⟨a, _ | ⟨b, _ | ⟨c, pre⟩⟩⟩
      · exact hhead rfl
      all_goals
        rw [waitLoop_nonzero children nActive r rest hr hok hc] at h
        simp at h
    · rcases pre with _ | ⟨a, _ | ⟨b, _ | ⟨c, pre⟩⟩⟩
      · exact hhead rfl
      · rw [waitLoop_more children nActive r rest hr hok hc hn] at h
        simp at h
      · rw [waitLoop_more children nActive r rest hr hok hc hn] at h
        simp at h
      · rw [waitLoop_more children nActive r rest hr hok hc hn] at h
        simp only [List.cons_append, List.cons.injEq] at h
        obtain ⟨ha, hb, hcl, htail⟩ := h
        have hix : r.waitStatus - WAIT_OBJECT_0 < nActive := by
          have := hr.2
          simp only [WAIT_OBJECT_0] at this ⊢
          omega
        obtain ⟨children2, waits2, hrun, hact, hsub, hperm⟩ := ih _ _ pre htail
        rw [Children.active_memmove children nActive _ hix] at hsub hperm
        refine ⟨children2, waits2, hrun, hact,
          hsub.trans (List.eraseIdx_sublist _ _), ?_⟩
        rw [← ha, ← hb, ← hcl]
        simp only [observedExitZero, and_self, if_true]
        have hlen : r.waitStatus - WAIT_OBJECT_0 < (children.active nActive).length := by
          rw [Children.length_active]; exact hix
        have hp := perm_cons_eraseIdx (children.active nActive) _ hlen
        rw [Children.getElem_active] at hp
        exact (List.perm_middle.trans (hperm.cons _)).trans hp
    · rcases pre with _ | ⟨a, _ | ⟨b, _ | ⟨c, pre⟩⟩⟩
      · exact hhead rfl
      all_goals
        rw [waitLoop_done children nActive r rest hr hok hc hn] at h
        simp at h

/-- Claim C19: at every `WaitForMultipleObjects` call of `startSecondaries`
(the start of a pass of the wait loop) all `nStreams` secondaries were started,
and the `nActive` handles waited on are the initial list (the secondaries 0, 1,
..., `nStreams - 1`, then the SQL process) less the participants seen so far to
exit with code 0: in the original relative order, without duplicates when the
initial handles are distinct, and `nActive` is `nStreams + 1` minus the number
of successful exits seen.  A successful exit at index `ix` makes the next wait
be on the same list with exactly the entry at `ix` removed. -/
theorem startSecondaries_active_set (pgmName wVdsName : String)
    (createProcess : Nat → Option HANDLE) (waits : List WaitRound) (hSQLProcess : HANDLE)
    (nStreams : Nat) (pre post : List Event) (nActive : Nat) (hs : List HANDLE) (ret : Nat)
    (h : (startSecondaries pgmName wVdsName createProcess waits hSQLProcess nStreams).1 =
      pre ++ Event.WaitForMultipleObjects nActive hs ret :: post) :
    (spawned (startSecondaries pgmName wVdsName createProcess waits hSQLProcess
        nStreams).1).length = nStreams ∧
      hs.Sublist (spawned (startSecondaries pgmName wVdsName createProcess waits hSQLProcess
        nStreams).1 ++ [hSQLProcess]) ∧
      (hs ++ observedExitZero pre).Perm
        (spawned (startSecondaries pgmName wVdsName createProcess waits hSQLProcess
          nStreams).1 ++ [hSQLProcess]) ∧
      ((spawned (startSecondaries pgmName wVdsName createProcess waits hSQLProcess
          nStreams).1 ++ [hSQLProcess]).Nodup → hs.Nodup) ∧
      nActive = hs.length ∧
      nActive + (observedExitZero pre).length = nStreams + 1 ∧
      (∀ h1 h2 n2 hs2 ret2 post2,
        post = Event.GetExitCodeProcess h1 true 0 :: Event.CloseHandle h2 ::
          Event.WaitForMultipleObjects n2 hs2 ret2 :: post2 →
        ret - WAIT_OBJECT_0 < nActive ∧ hs[ret - WAIT_OBJECT_0]? = some h1 ∧ h2 = h1 ∧
          n2 = nActive - 1 ∧ hs2 = hs.eraseIdx (ret - WAIT_OBJECT_0)) := by
  have hev := spawnLoop_events pgmName wVdsName createProcess nStreams
  have hnot : Event.WaitForMultipleObjects nActive hs ret ∉
      (spawnLoop pgmName wVdsName createProcess nStreams).1 := by
    intro hm
    obtain ⟨c, r, he⟩ := hev _ hm
    simp at he
  cases hsp : (spawnLoop pgmName wVdsName createProcess nStreams).2 with
  | none =>
    rw [startSecondaries_spawn_failed pgmName wVdsName createProcess waits hSQLProcess
      nStreams hsp] at h
    obtain ⟨p2, -, ht⟩ := append_split_of_not_mem _ _ _ _ _ h hnot
    rcases p2 with _ | ⟨a, p2⟩ <;> simp at ht
  | some children =>
    rw [startSecondaries_spawned pgmName wVdsName createProcess waits hSQLProcess
      nStreams children hsp] at h ⊢
    obtain ⟨p2, hpre, ht⟩ := append_split_of_not_mem _ _ _ _ _ h hnot
    obtain ⟨children2, waits2, hrun, hact, hsub, hperm⟩ :=
      waitLoop_suffix waits _ _ p2 post nActive hs ret ht
    have hspawn := spawnLoop_some pgmName wVdsName createProcess nStreams children hsp
    rw [Children.active_assign] at hsub hperm
    have hobs : observedExitZero pre = observedExitZero p2 := by
      rw [hpre, observedExitZero_append, observedExitZero_of_CreateProcess _ hev,
        List.nil_append]
    simp only [spawned_append, waitLoop_spawned, List.append_nil, hspawn, hobs,
      Children.length_active, true_and]
    have hlen : nActive = hs.length := by rw [hact, Children.length_active]
    refine ⟨hsub, hperm, fun hnd => hsub.nodup hnd, hlen, ?_, ?_⟩
    · have := hperm.length_eq
      simp only [List.length_append, Children.length_active, List.length_singleton] at this
      omega
    · intro h1 h2 n2 hs2 ret2 post2 hpost
      rw [hpost] at hrun
      obtain ⟨hix, hh1, hh2, hn2, hhs2⟩ :=
        waitLoop_head_step waits2 children2 nActive nActive hs ret h1 h2 n2 hs2 ret2 post2 hrun
      refine ⟨hix, ?_, by rw [hh1, hh2], hn2, by rw [hhs2, hact]⟩
      have hlt : ret - WAIT_OBJECT_0 < hs.length := by rw [← hlen]; exact hix
      rw [List.getElem?_eq_getElem hlt]
      subst hact
      rw [Children.getElem_active, hh1]

theorem startSecondaries_active_set_witness :
    (spawned (startSecondaries "mprocess" "VDS" (fun i => some (100 + i))
        [⟨1, true, 0⟩, ⟨1, true, 0⟩, ⟨0, true, 0⟩] 7 2).1).length = 2 ∧
      [100, 7].Sublist (spawned (startSecondaries "mprocess" "VDS" (fun i => some (100 + i))
        [⟨1, true, 0⟩, ⟨1, true, 0⟩, ⟨0, true, 0⟩] 7 2).1 ++ [7]) ∧
      ([100, 7] ++ observedExitZero
          [Event.CreateProcess "mprocess s 0 VDS" (some 100),
            Event.CreateProcess "mprocess s 1 VDS" (some 101),
            Event.WaitForMultipleObjects 3 [100, 101, 7] 1,
            Event.GetExitCodeProcess 101 true 0, Event.CloseHandle 101]).Perm
        (spawned (startSecondaries "mprocess" "VDS" (fun i => some (100 + i))
          [⟨1, true, 0⟩, ⟨1, true, 0⟩, ⟨0, true, 0⟩] 7 2).1 ++ [7]) ∧
      ((spawned (startSecondaries "mprocess" "VDS" (fun i => some (100 + i))
          [⟨1, true, 0⟩, ⟨1, true, 0⟩, ⟨0, true, 0⟩] 7 2).1 ++ [7]).Nodup →
        [100, 7].Nodup) ∧
      2 = [100, 7].length ∧
      2 + (observedExitZero
          [Event.CreateProcess "mprocess s 0 VDS" (some 100),
            Event.CreateProcess "mprocess s 1 VDS" (some 101),
            Event.WaitForMultipleObjects 3 [100, 101, 7] 1,
            Event.GetExitCodeProcess 101 true 0, Event.CloseHandle 101]).length = 2 + 1 ∧
      (∀ h1 h2 n2 hs2 ret2 post2,
        [Event.GetExitCodeProcess 7 true 0, Event.CloseHandle 7,
          Event.WaitForMultipleObjects 1 [100] 0,
          Event.GetExitCodeProcess 100 true 0, Event.CloseHandle 100] =
          Event.GetExitCodeProcess h1 true 0 :: Event.CloseHandle h2 ::
            Event.WaitForMultipleObjects n2 hs2 ret2 :: post2 →
        1 - WAIT_OBJECT_0 < 2 ∧ [100, 7][1 - WAIT_OBJECT_0]? = some h1 ∧ h2 = h1 ∧
          n2 = 2 - 1 ∧ hs2 = [100, 7].eraseIdx (1 - WAIT_OBJECT_0)) :=
  startSecondaries_active_set "mprocess" "VDS" (fun i => some (100 + i))
    [⟨1, true, 0⟩, ⟨1, true, 0⟩, ⟨0, true, 0⟩] 7 2
    [Event.CreateProcess "mprocess s 0 VDS" (some 100),
      Event.CreateProcess "mprocess s 1 VDS" (some 101),
      Event.WaitForMultipleObjects 3 [100, 101, 7] 1,
      Event.GetExitCodeProcess 101 true 0, Event.CloseHandle 101]
    [Event.GetExitCodeProcess 7 true 0, Event.CloseHandle 7,
      Event.WaitForMultipleObjects 1 [100] 0,
      Event.GetExitCodeProcess 100 true 0, Event.CloseHandle 100]
    2 [100, 7] 1 (by decide)

/-! ## The three command loops -/

/-- The loop of `simple.cpp` makes the calls of the loop of `mprocess.cpp` and
is left in the same runs. -/
theorem simple_commandLoop_eq (K : VdiHeader) (s : List DeviceRound) :
    Simple.commandLoop K s = ((commandLoop K s).1, (commandLoop K s).2.isSome) := by
  induction s with
  | nil => rfl
  | cons r rest ih =>
    have hsw : Simple.switchCommandCode K r.cmd r.ioRet r.flushRet =
        switchCommandCode K r.cmd r.ioRet r.flushRet := rfl
    cases h1 : SUCCEEDED r.hrGet with
    | true =>
      cases h2 : SUCCEEDED r.hrComplete with
      | true =>
        rw [commandLoop_continue K r rest h1 h2]
        simp [Simple.commandLoop, h1, h2, ih, hsw, completeRound]
      | false =>
        rw [commandLoop_break K r rest h1 h2]
        simp [Simple.commandLoop, h1, h2, hsw, completeRound]
    | false =>
      rw [commandLoop_fail K r rest h1]
      simp [Simple.commandLoop, h1]

/-- The loop of `osimple.cpp` makes the calls of the loop of `mprocess.cpp` and
is left in the same runs. -/
theorem osimple_commandLoop_eq (K : VdiHeader) (s : List DeviceRound) :
    Osimple.commandLoop K s = ((commandLoop K s).1, (commandLoop K s).2.isSome) := by
  induction s with
  | nil => rfl
  | cons r rest ih =>
    have hsw : Osimple.switchCommandCode K r.cmd r.ioRet r.flushRet =
        switchCommandCode K r.cmd r.ioRet r.flushRet := rfl
    cases h1 : SUCCEEDED r.hrGet with
    | true =>
      cases h2 : SUCCEEDED r.hrComplete with
      | true =>
        rw [commandLoop_continue K r rest h1 h2]
        simp [Osimple.commandLoop, h1, h2, ih, hsw, completeRound]
      | false =>
        rw [commandLoop_break K r rest h1 h2]
        simp [Osimple.commandLoop, h1, h2, hsw, completeRound]
    | false =>
      rw [commandLoop_fail K r rest h1]
      simp [Osimple.commandLoop, h1]

theorem simple_performTransfer_eq (K : VdiHeader) (fopenOk : Bool)
    (script : List DeviceRound) (backup streamId : Int) :
    ∃ calls,
      (performTransfer K fopenOk script backup streamId).1 =
        Event.fopen (sinkName streamId) (sinkMode backup) fopenOk :: calls ∧
      (Simple.performTransfer K fopenOk script backup).1 =
        Event.fopen "superbak.dmp" (sinkMode backup) fopenOk :: calls ∧
      ((Simple.performTransfer K fopenOk script backup).2 = true ↔
        (performTransfer K fopenOk script backup streamId).2 ≠ Outcome.blocked) := by
  cases fopenOk with
  | false =>
    rw [performTransfer_no_sink]
    exact ⟨[], rfl, by simp [Simple.performTransfer, sinkMode],
      by simp [Simple.performTransfer]⟩
  | true =>
    rw [performTransfer_trace, performTransfer_outcome]
    refine ⟨afterRound K script, rfl, ?_, ?_⟩
    · unfold Simple.performTransfer afterRound
      rw [simple_commandLoop_eq]
      cases hx : (commandLoop K script).2 <;> simp [sinkMode]
    · unfold Simple.performTransfer
      rw [simple_commandLoop_eq]
      cases hx : (commandLoop K script).2 <;> simp

theorem osimple_performTransfer_eq (K : VdiHeader) (fopenOk : Bool)
    (script : List DeviceRound) (backup streamId : Int) :
    ∃ calls,
      (performTransfer K fopenOk script backup streamId).1 =
        Event.fopen (sinkName streamId) (sinkMode backup) fopenOk :: calls ∧
      (Osimple.performTransfer K fopenOk script backup).1 =
        Event.fopen "superbak.dmp" (sinkMode backup) fopenOk :: calls ∧
      ((Osimple.performTransfer K fopenOk script backup).2 = true ↔
        (performTransfer K fopenOk script backup streamId).2 ≠ Outcome.blocked) := by
  cases fopenOk with
  | false =>
    rw [performTransfer_no_sink]
    exact ⟨[], rfl, by simp [Osimple.performTransfer, sinkMode],
      by simp [Osimple.performTransfer]⟩
  | true =>
    rw [performTransfer_trace, performTransfer_outcome]
    refine ⟨afterRound K script, rfl, ?_, ?_⟩
    · unfold Osimple.performTransfer afterRound
      rw [osimple_commandLoop_eq]
      cases hx : (commandLoop K script).2 <;> simp [sinkMode]
    · unfold Osimple.performTransfer
      rw [osimple_commandLoop_eq]
      cases hx : (commandLoop K script).2 <;> simp

/-- Claim C23: for every script of `GetCommand`, sink and `CompleteCommand`
results, `performTransfer` of `simple.cpp`, of `osimple.cpp` and of
`mprocess.cpp` make the same calls after the `fopen`, which differs in the file
name only (`superbak.dmp` against `multi.<streamId>.dmp`); in particular they
make the same sink operations and the same `CompleteCommand` calls (same
command, completion code and byte count), and the two `void` functions return
in exactly the runs in which `mprocess` returns its terminal status. -/
theorem performTransfer_samples_agree (K : VdiHeader) (fopenOk : Bool)
    (script : List DeviceRound) (backup streamId : Int) :
    (∃ calls,
      (performTransfer K fopenOk script backup streamId).1 =
        Event.fopen (sinkName streamId) (sinkMode backup) fopenOk :: calls ∧
      (Simple.performTransfer K fopenOk script backup).1 =
        Event.fopen "superbak.dmp" (sinkMode backup) fopenOk :: calls ∧
      (Osimple.performTransfer K fopenOk script backup).1 =
        Event.fopen "superbak.dmp" (sinkMode backup) fopenOk :: calls) ∧
    sinkOperations (Simple.performTransfer K fopenOk script backup).1 =
      sinkOperations (performTransfer K fopenOk script backup streamId).1 ∧
    sinkOperations (Osimple.performTransfer K fopenOk script backup).1 =
      sinkOperations (performTransfer K fopenOk script backup streamId).1 ∧
    completions (Simple.performTransfer K fopenOk script backup).1 =
      completions (performTransfer K fopenOk script backup streamId).1 ∧
    completions (Osimple.performTransfer K fopenOk script backup).1 =
      completions (performTransfer K fopenOk script backup streamId).1 ∧
    ((Simple.performTransfer K fopenOk script backup).2 = true ↔
      (performTransfer K fopenOk script backup streamId).2 ≠ Outcome.blocked) ∧
    ((Osimple.performTransfer K fopenOk script backup).2 = true ↔
      (performTransfer K fopenOk script backup streamId).2 ≠ Outcome.blocked) := by
  obtain ⟨c1, hm1, hs1, hr1⟩ := simple_performTransfer_eq K fopenOk script backup streamId
  obtain ⟨c2, hm2, hs2, hr2⟩ := osimple_performTransfer_eq K fopenOk script backup streamId
  have hc : c2 = c1 := by
    rw [hm1] at hm2
    simp only [List.cons.injEq, true_and] at hm2
    exact hm2.symm
  subst hc
  refine ⟨⟨c2, hm1, hs1, hs2⟩, ?_, ?_, ?_, ?_, hr1, hr2⟩
  · rw [hs1, hm1]; simp [sinkOperations]
  · rw [hs2, hm1]; simp [sinkOperations]
  · rw [hs1, hm1]; simp [completions]
  · rw [hs2, hm1]; simp [completions]

/-! ## Abort and return value of `startSecondaries` -/

/-- The wait loop either ends well (returns 0, or never returns), having seen
no failure and signalled no abort, or it has seen a failure, ends with the one
`SignalAbort`, and returns -1. -/
theorem waitLoop_abort_spec (waits : List WaitRound) (children : Children) (nActive : Nat) :
    (((waitLoop children nActive waits).2 = Outcome.returned 0 ∨
        (waitLoop children nActive waits).2 = Outcome.blocked) ∧
      Event.SignalAbort ∉ (waitLoop children nActive waits).1 ∧
      ∀ e ∈ (waitLoop children nActive waits).1, ¬ ExitFailure e) ∨
    ((waitLoop children nActive waits).2 = Outcome.returned (-1) ∧
      (∃ e ∈ (waitLoop children nActive waits).1, ExitFailure e) ∧
      ∃ calls, (waitLoop children nActive waits).1 = calls ++ [Event.SignalAbort] ∧
        Event.SignalAbort ∉ calls) := by
  induction waits generalizing children nActive with
  | nil => exact Or.inl ⟨Or.inr rfl, by simp [waitLoop], by simp [waitLoop]⟩
  | cons r rest ih =>
    rcases waitLoop_cases nActive r with hr | ⟨hr, hok | ⟨hok, hc⟩ | ⟨hok, hc, hn⟩ |
      ⟨hok, hc, hn⟩⟩
    · rw [waitLoop_unexpected children nActive r rest hr]
      refine Or.inr ⟨rfl, ⟨_, List.mem_cons_self _ _, hr⟩, [_], rfl, by simp⟩
    · rw [waitLoop_query_failed children nActive r rest hr hok]
      refine Or.inr ⟨rfl, ⟨Event.GetExitCodeProcess
        (children (r.waitStatus - WAIT_OBJECT_0)) false r.exitCode, by simp,
        Or.inl rfl⟩, [_, _], rfl, by simp⟩
    · rw [waitLoop_nonzero children nActive r rest hr hok hc]
      refine Or.inr ⟨rfl, ⟨Event.GetExitCodeProcess
        (children (r.waitStatus - WAIT_OBJECT_0)) true r.exitCode, by simp,
        Or.inr hc⟩, [_, _], rfl, by simp⟩
    · rw [waitLoop_more children nActive r rest hr hok hc hn]
      rcases ih (children.memmove (r.waitStatus - WAIT_OBJECT_0)
        (nActive - (r.waitStatus - WAIT_OBJECT_0) - 1)) (nActive - 1) with
        ⟨ho, hab, hnf⟩ | ⟨ho, ⟨e, he, hfe⟩, calls, hcalls, hnot⟩
      · refine Or.inl ⟨ho, by simpa using hab, ?_⟩
        intro e he
        simp only [List.mem_cons] at he
        rcases he with he | he | he | he
        · subst he; exact fun hf => hf hr
        · subst he; simp [ExitFailure]
        · subst he; simp [ExitFailure]
        · exact hnf e he
      · refine Or.inr ⟨ho, ⟨e, by simp [he], hfe⟩,
          Event.WaitForMultipleObjects nActive (children.active nActive) r.waitStatus ::
            Event.GetExitCodeProcess (children (r.waitStatus - WAIT_OBJECT_0)) true 0 ::
            Event.CloseHandle (children (r.waitStatus - WAIT_OBJECT_0)) :: calls, ?_,
          by simpa using hnot⟩
        simp only [List.cons_append, List.cons.injEq, true_and]
        exact hcalls
    · rw [waitLoop_done children nActive r rest hr hok hc hn]
      refine Or.inl ⟨Or.inl rfl, by simp, ?_⟩
      intro e he
      simp only [List.mem_cons, List.mem_singleton, List.not_mem_nil, or_false] at he
      rcases he with he | he | he
      · subst he; exact fun hf => hf hr
      · subst he; simp [ExitFailure]
      · subst he; simp [ExitFailure]

theorem spawnLoop_some_events (pgmName wVdsName : String)
    (createProcess : Nat → Option HANDLE) (n : Nat) (children : Children)
    (h : (spawnLoop pgmName wVdsName createProcess n).2 = some children) :
    ∀ e ∈ (spawnLoop pgmName wVdsName createProcess n).1, ¬ ExitFailure e := by
  induction n generalizing children with
  | zero => simp [spawnLoop]
  | succ n ih =>
    unfold spawnLoop at h ⊢
    rcases hsp : spawnLoop pgmName wVdsName createProcess n with ⟨calls, _ | c0⟩
    · rw [hsp] at h
      simp at h
    · rw [hsp] at h ih
      cases hc : createProcess n with
      | none => simp [hc] at h
      | some hd =>
        intro e he
        simp only [hc, List.mem_append, List.mem_singleton] at he
        rcases he with he | he
        · exact ih c0 rfl e he
        · subst he; simp [ExitFailure]

theorem spawnLoop_none_event (pgmName wVdsName : String)
    (createProcess : Nat → Option HANDLE) (n : Nat)
    (h : (spawnLoop pgmName wVdsName createProcess n).2 = none) :
    ∃ e ∈ (spawnLoop pgmName wVdsName createProcess n).1, ExitFailure e := by
  induction n with
  | zero => simp [spawnLoop] at h
  | succ n ih =>
    unfold spawnLoop at h ⊢
    rcases hsp : spawnLoop pgmName wVdsName createProcess n with ⟨calls, _ | c0⟩
    · rw [hsp] at ih
      exact ih rfl
    · rw [hsp] at h
      cases hc : createProcess n with
      | none =>
        exact ⟨Event.CreateProcess (secondaryCommandLine pgmName wVdsName n) none,
          by simp, rfl⟩
      | some hd => simp [hc] at h

/-- The two ways `startSecondaries` can go: no failure seen, no abort, and the
result is 0 (or the wait never ends); or a failure seen, exactly one
`SignalAbort` as the last call, and the result is -1. -/
theorem startSecondaries_abort_spec (pgmName wVdsName : String)
    (createProcess : Nat → Option HANDLE) (waits : List WaitRound) (hSQLProcess : HANDLE)
    (nStreams : Nat) :
    (((startSecondaries pgmName wVdsName createProcess waits hSQLProcess nStreams).2 =
          Outcome.returned 0 ∨
        (startSecondaries pgmName wVdsName createProcess waits hSQLProcess nStreams).2 =
          Outcome.blocked) ∧
      Event.SignalAbort ∉
        (startSecondaries pgmName wVdsName createProcess waits hSQLProcess nStreams).1 ∧
      ∀ e ∈ (startSecondaries pgmName wVdsName createProcess waits hSQLProcess nStreams).1,
        ¬ ExitFailure e) ∨
    ((startSecondaries pgmName wVdsName createProcess waits hSQLProcess nStreams).2 =
        Outcome.returned (-1) ∧
      (∃ e ∈ (startSecondaries pgmName wVdsName createProcess waits hSQLProcess nStreams).1,
        ExitFailure e) ∧
      ∃ calls,
        (startSecondaries pgmName wVdsName createProcess waits hSQLProcess nStreams).1 =
          calls ++ [Event.SignalAbort] ∧
        Event.SignalAbort ∉ calls) := by
  have hev := spawnLoop_events pgmName wVdsName createProcess nStreams
  have hab : Event.SignalAbort ∉ (spawnLoop pgmName wVdsName createProcess nStreams).1 := by
    intro hm
    obtain ⟨c, r, he⟩ := hev _ hm
    simp at he
  cases hsp : (spawnLoop pgmName wVdsName createProcess nStreams).2 with
  | none =>
    rw [startSecondaries_spawn_failed pgmName wVdsName createProcess waits hSQLProcess
      nStreams hsp]
    obtain ⟨e, he, hfe⟩ := spawnLoop_none_event pgmName wVdsName createProcess nStreams hsp
    exact Or.inr ⟨rfl, ⟨e, by simp [he], hfe⟩, _, rfl, hab⟩
  | some children =>
    rw [startSecondaries_spawned pgmName wVdsName createProcess waits hSQLProcess
      nStreams children hsp]
    have hok := spawnLoop_some_events pgmName wVdsName createProcess nStreams children hsp
    rcases waitLoop_abort_spec waits (children.assign nStreams hSQLProcess) (nStreams + 1)
      with ⟨ho, hnab, hnf⟩ | ⟨ho, ⟨e, he, hfe⟩, calls, hcalls, hnot⟩
    · refine Or.inl ⟨ho, by simp [hab, hnab], ?_⟩
      intro e he
      rcases List.mem_append.mp he with he | he
      · exact hok e he
      · exact hnf e he
    · refine Or.inr ⟨ho, ⟨e, by simp [he], hfe⟩,
        (spawnLoop pgmName wVdsName createProcess nStreams).1 ++ calls, ?_, ?_⟩
      · simp only [hcalls, List.append_assoc]
      · simp [hab, hnot]

/-- Claim C21: in `startSecondaries`, a failure seen (a `CreateProcess` that
fails, also after earlier ones succeeded, a failed or nonzero exit-code query,
an unexpected wait result) makes the function return -1; a return of -1 comes
from such a failure and with exactly one `SignalAbort`, its last call; a return
of 0 comes with no `SignalAbort`.  So the value returned is 0 or -1, and it is 0
exactly when no abort was signalled. -/
theorem startSecondaries_abort_iff_failure (pgmName wVdsName : String)
    (createProcess : Nat → Option HANDLE) (waits : List WaitRound) (hSQLProcess : HANDLE)
    (nStreams : Nat) :
    ((∃ e ∈ (startSecondaries pgmName wVdsName createProcess waits hSQLProcess nStreams).1,
        ExitFailure e) →
      (startSecondaries pgmName wVdsName createProcess waits hSQLProcess nStreams).2 =
        Outcome.returned (-1)) ∧
    ((startSecondaries pgmName wVdsName createProcess waits hSQLProcess nStreams).2 =
        Outcome.returned (-1) →
      (∃ e ∈ (startSecondaries pgmName wVdsName createProcess waits hSQLProcess nStreams).1,
        ExitFailure e) ∧
      ∃ calls,
        (startSecondaries pgmName wVdsName createProcess waits hSQLProcess nStreams).1 =
          calls ++ [Event.SignalAbort] ∧
        Event.SignalAbort ∉ calls) ∧
    (∀ termCode,
      (startSecondaries pgmName wVdsName createProcess waits hSQLProcess nStreams).2 =
        Outcome.returned termCode →
      (termCode = 0 ∨ termCode = -1) ∧
      (termCode = 0 ↔ Event.SignalAbort ∉
        (startSecondaries pgmName wVdsName createProcess waits hSQLProcess nStreams).1)) := by
  rcases startSecondaries_abort_spec pgmName wVdsName createProcess waits hSQLProcess nStreams
    with ⟨ho, hnab, hnf⟩ | ⟨ho, hfail, calls, hcalls, hnot⟩
  · refine ⟨fun ⟨e, he, hfe⟩ => absurd hfe (hnf e he), fun h => ?_, fun termCode h => ?_⟩
    · rw [h] at ho
      simp at ho
    · rw [h] at ho
      simp only [Outcome.returned.injEq, reduceCtorEq, or_false] at ho
      exact ⟨Or.inl ho, fun _ => hnab, fun _ => ho⟩
  · refine ⟨fun _ => ho, fun _ => ⟨hfail, calls, hcalls, hnot⟩, fun termCode h => ?_⟩
    rw [ho] at h
    simp only [Outcome.returned.injEq] at h
    subst h
    refine ⟨Or.inr rfl, fun h0 => by simp at h0, fun hn => ?_⟩
    exact absurd (by rw [hcalls]; simp) hn

theorem startSecondaries_abort_iff_failure_witness :
    ((∃ e ∈ (startSecondaries "mprocess" "VDS"
          (fun i => if i = 1 then none else some (100 + i)) [] 7 3).1,
        ExitFailure e) →
      (startSecondaries "mprocess" "VDS"
        (fun i => if i = 1 then none else some (100 + i)) [] 7 3).2 =
        Outcome.returned (-1)) ∧
    ((startSecondaries "mprocess" "VDS"
        (fun i => if i = 1 then none else some (100 + i)) [] 7 3).2 =
        Outcome.returned (-1) →
      (∃ e ∈ (startSecondaries "mprocess" "VDS"
          (fun i => if i = 1 then none else some (100 + i)) [] 7 3).1,
        ExitFailure e) ∧
      ∃ calls,
        (startSecondaries "mprocess" "VDS"
          (fun i => if i = 1 then none else some (100 + i)) [] 7 3).1 =
          calls ++ [Event.SignalAbort] ∧
        Event.SignalAbort ∉ calls) ∧
    (∀ termCode,
      (startSecondaries "mprocess" "VDS"
        (fun i => if i = 1 then none else some (100 + i)) [] 7 3).2 =
        Outcome.returned termCode →
      (termCode = 0 ∨ termCode = -1) ∧
      (termCode = 0 ↔ Event.SignalAbort ∉
        (startSecondaries "mprocess" "VDS"
          (fun i => if i = 1 then none else some (100 + i)) [] 7 3).1)) :=
  startSecondaries_abort_iff_failure "mprocess" "VDS"
    (fun i => if i = 1 then none else some (100 + i)) [] 7 3

/-- A run in which the second `CreateProcess` fails after the first secondary
was started: one abort, result -1. -/
theorem startSecondaries_second_spawn_fails :
    startSecondaries "mprocess" "VDS" (fun i => if i = 1 then none else some (100 + i))
        [] 7 3 =
      ([Event.CreateProcess "mprocess s 0 VDS" (some 100),
        Event.CreateProcess "mprocess s 1 VDS" none, Event.SignalAbort],
        Outcome.returned (-1)) := by
  decide

/-! ## Abort and return value of `runSecondary` -/

theorem completeRound_no_session_calls (K : VdiHeader) (r : DeviceRound) :
    Event.SignalAbort ∉ completeRound K r ∧ Event.Close ∉ completeRound K r := by
  unfold completeRound switchCommandCode
  split_ifs <;> simp

theorem commandLoop_no_session_calls (K : VdiHeader) (s : List DeviceRound) :
    Event.SignalAbort ∉ (commandLoop K s).1 ∧ Event.Close ∉ (commandLoop K s).1 := by
  induction s with
  | nil => simp [commandLoop]
  | cons r rest ih =>
    have hc := completeRound_no_session_calls K r
    cases h1 : SUCCEEDED r.hrGet with
    | true =>
      cases h2 : SUCCEEDED r.hrComplete with
      | true =>
        rw [commandLoop_continue K r rest h1 h2]
        simp [hc.1, hc.2, ih.1, ih.2]
      | false =>
        rw [commandLoop_break K r rest h1 h2]
        simp [hc.1, hc.2]
    | false =>
      rw [commandLoop_fail K r rest h1]
      simp

theorem performTransfer_no_session_calls (K : VdiHeader) (fopenOk : Bool)
    (script : List DeviceRound) (backup streamId : Int) :
    Event.SignalAbort ∉ (performTransfer K fopenOk script backup streamId).1 ∧
      Event.Close ∉ (performTransfer K fopenOk script backup streamId).1 := by
  cases fopenOk with
  | false => simp [performTransfer_no_sink]
  | true =>
    rw [performTransfer_trace]
    have hl := commandLoop_no_session_calls K script
    unfold afterRound
    split_ifs <;> simp [hl.1, hl.2]

theorem runSecondary_open_failed (K : VdiHeader) (wVdsName : String) (w : SecondaryWorld)
    (streamId : Int) (h1 : SUCCEEDED w.hrOpenInSecondary = false) :
    runSecondary K wVdsName w streamId =
      ([Event.OpenInSecondary wVdsName w.hrOpenInSecondary], Outcome.returned (-1)) := by
  simp [runSecondary, h1]

theorem runSecondary_device_failed (K : VdiHeader) (wVdsName : String) (w : SecondaryWorld)
    (streamId : Int) (h1 : SUCCEEDED w.hrOpenInSecondary = true)
    (h2 : SUCCEEDED w.hrOpenDevice = false) :
    runSecondary K wVdsName w streamId =
      ([Event.OpenInSecondary wVdsName w.hrOpenInSecondary,
        Event.OpenDevice (deviceName wVdsName streamId) w.hrOpenDevice],
        Outcome.returned (-1)) := by
  simp [runSecondary, h1, h2]

theorem runSecondary_configuration_pending (K : VdiHeader) (wVdsName : String)
    (w : SecondaryWorld) (streamId : Int) (h1 : SUCCEEDED w.hrOpenInSecondary = true)
    (h2 : SUCCEEDED w.hrOpenDevice = true) (hc : w.configuration = none) :
    runSecondary K wVdsName w streamId =
      ([Event.OpenInSecondary wVdsName w.hrOpenInSecondary,
        Event.OpenDevice (deviceName wVdsName streamId) w.hrOpenDevice],
        Outcome.blocked) := by
  simp [runSecondary, h1, h2, hc]

theorem runSecondary_configuration_failed (K : VdiHeader) (wVdsName : String)
    (w : SecondaryWorld) (streamId : Int) (hr : HRESULT) (features : Nat)
    (h1 : SUCCEEDED w.hrOpenInSecondary = true) (h2 : SUCCEEDED w.hrOpenDevice = true)
    (hc : w.configuration = some (hr, features)) (h4 : SUCCEEDED hr = false) :
    runSecondary K wVdsName w streamId =
      ([Event.OpenInSecondary wVdsName w.hrOpenInSecondary,
        Event.OpenDevice (deviceName wVdsName streamId) w.hrOpenDevice,
        Event.GetConfiguration none hr features, Event.SignalAbort, Event.Close],
        Outcome.returned (-1)) := by
  simp [runSecondary, h1, h2, hc, h4, errExit]

theorem runSecondary_transfer_returned (K : VdiHeader) (wVdsName : String)
    (w : SecondaryWorld) (streamId : Int) (hr : HRESULT) (features : Nat) (termCode : Int)
    (h1 : SUCCEEDED w.hrOpenInSecondary = true) (h2 : SUCCEEDED w.hrOpenDevice = true)
    (hc : w.configuration = some (hr, features)) (h4 : SUCCEEDED hr = true)
    (ht : (performTransfer K w.fopenOk w.script
      ((features &&& K.VDF_WriteMedia : Nat) : Int) streamId).2 = Outcome.returned termCode) :
    runSecondary K wVdsName w streamId =
      (Event.OpenInSecondary wVdsName w.hrOpenInSecondary ::
        Event.OpenDevice (deviceName wVdsName streamId) w.hrOpenDevice ::
        Event.GetConfiguration none hr features ::
        ((performTransfer K w.fopenOk w.script
          ((features &&& K.VDF_WriteMedia : Nat) : Int) streamId).1 ++ errExit termCode),
        Outcome.returned termCode) := by
  unfold runSecondary
  simp only [h1, h2, hc, h4, if_true]
  rcases hp : performTransfer K w.fopenOk w.script
      ((features &&& K.VDF_WriteMedia : Nat) : Int) streamId with ⟨calls, c | _⟩
  · rw [hp] at ht
    simp only at ht
    cases ht
    rfl
  · rw [hp] at ht
    simp at ht

theorem runSecondary_transfer_blocked (K : VdiHeader) (wVdsName : String)
    (w : SecondaryWorld) (streamId : Int) (hr : HRESULT) (features : Nat)
    (h1 : SUCCEEDED w.hrOpenInSecondary = true) (h2 : SUCCEEDED w.hrOpenDevice = true)
    (hc : w.configuration = some (hr, features)) (h4 : SUCCEEDED hr = true)
    (ht : (performTransfer K w.fopenOk w.script
      ((features &&& K.VDF_WriteMedia : Nat) : Int) streamId).2 = Outcome.blocked) :
    runSecondary K wVdsName w streamId =
      (Event.OpenInSecondary wVdsName w.hrOpenInSecondary ::
        Event.OpenDevice (deviceName wVdsName streamId) w.hrOpenDevice ::
        Event.GetConfiguration none hr features ::
        (performTransfer K w.fopenOk w.script
          ((features &&& K.VDF_WriteMedia : Nat) : Int) streamId).1,
        Outcome.blocked) := by
  unfold runSecondary
  simp only [h1, h2, hc, h4, if_true]
  rcases hp : performTransfer K w.fopenOk w.script
      ((features &&& K.VDF_WriteMedia : Nat) : Int) streamId with ⟨calls, c | _⟩
  · rw [hp] at ht
    simp at ht
  · rfl

/-- Claim C22: in `runSecondary`, when `OpenInSecondary` fails the function
returns -1 after that single call, and when `OpenDevice` fails it returns -1
after those two calls, in both cases without `SignalAbort` and without `Close`.
Once both have succeeded: a failed `GetConfiguration` makes the terminal status
-1, a `performTransfer` that returns `termCode` makes it `termCode`, and the
function returns exactly that status; whenever it returns `termCode`, its trace
ends with `SignalAbort, Close` if `termCode` is nonzero and with `Close` alone
if it is zero, with no other `SignalAbort` or `Close` before, so that the abort
is signalled if and only if the terminal status is nonzero and the device set
is closed exactly once; a run that never returns signals and closes nothing. -/
theorem runSecondary_abort_iff_failure (K : VdiHeader) (wVdsName : String)
    (w : SecondaryWorld) (streamId : Int) :
    (SUCCEEDED w.hrOpenInSecondary = false →
      runSecondary K wVdsName w streamId =
        ([Event.OpenInSecondary wVdsName w.hrOpenInSecondary], Outcome.returned (-1))) ∧
    (SUCCEEDED w.hrOpenInSecondary = true → SUCCEEDED w.hrOpenDevice = false →
      runSecondary K wVdsName w streamId =
        ([Event.OpenInSecondary wVdsName w.hrOpenInSecondary,
          Event.OpenDevice (deviceName wVdsName streamId) w.hrOpenDevice],
          Outcome.returned (-1))) ∧
    (SUCCEEDED w.hrOpenInSecondary = true → SUCCEEDED w.hrOpenDevice = true →
      (∀ hr features, w.configuration = some (hr, features) → SUCCEEDED hr = false →
        (runSecondary K wVdsName w streamId).2 = Outcome.returned (-1)) ∧
      (∀ hr features termCode, w.configuration = some (hr, features) →
        SUCCEEDED hr = true →
        (performTransfer K w.fopenOk w.script
          ((features &&& K.VDF_WriteMedia : Nat) : Int) streamId).2 =
          Outcome.returned termCode →
        (runSecondary K wVdsName w streamId).2 = Outcome.returned termCode) ∧
      (∀ termCode, (runSecondary K wVdsName w streamId).2 = Outcome.returned termCode →
        (∃ calls, (runSecondary K wVdsName w streamId).1 =
            calls ++ (if termCode ≠ 0 then [Event.SignalAbort, Event.Close]
              else [Event.Close]) ∧
          Event.SignalAbort ∉ calls ∧ Event.Close ∉ calls) ∧
        (Event.SignalAbort ∈ (runSecondary K wVdsName w streamId).1 ↔ termCode ≠ 0) ∧
        ∃ hr features, w.configuration = some (hr, features) ∧
          ((SUCCEEDED hr = false ∧ termCode = -1) ∨
            (SUCCEEDED hr = true ∧
              (performTransfer K w.fopenOk w.script
                ((features &&& K.VDF_WriteMedia : Nat) : Int) streamId).2 =
                Outcome.returned termCode))) ∧
      ((runSecondary K wVdsName w streamId).2 = Outcome.blocked →
        Event.SignalAbort ∉ (runSecondary K wVdsName w streamId).1 ∧
          Event.Close ∉ (runSecondary K wVdsName w streamId).1)) := by
  refine ⟨runSecondary_open_failed K wVdsName w streamId,
    runSecondary_device_failed K wVdsName w streamId, fun h1 h2 => ⟨?_, ?_, ?_, ?_⟩⟩
  · intro hr features hc h4
    rw [runSecondary_configuration_failed K wVdsName w streamId hr features h1 h2 hc h4]
  · intro hr features termCode hc h4 ht
    rw [runSecondary_transfer_returned K wVdsName w streamId hr features termCode
      h1 h2 hc h4 ht]
  · intro termCode hret
    cases hc : w.configuration with
    | none =>
      rw [runSecondary_configuration_pending K wVdsName w streamId h1 h2 hc] at hret
      simp at hret
    | some c =>
      obtain ⟨hr, features⟩ := c
      cases h4 : SUCCEEDED hr with
      | false =>
        rw [runSecondary_configuration_failed K wVdsName w streamId hr features
          h1 h2 hc h4] at hret ⊢
        simp only [Outcome.returned.injEq] at hret
        subst hret
        refine ⟨⟨[Event.OpenInSecondary wVdsName w.hrOpenInSecondary,
          Event.OpenDevice (deviceName wVdsName streamId) w.hrOpenDevice,
          Event.GetConfiguration none hr features], by simp, by simp, by simp⟩,
          by simp, hr, features, rfl, Or.inl ⟨h4, rfl⟩⟩
      | true =>
        have hn := performTransfer_no_session_calls K w.fopenOk w.script
          ((features &&& K.VDF_WriteMedia : Nat) : Int) streamId
        cases ht : (performTransfer K w.fopenOk w.script
            ((features &&& K.VDF_WriteMedia : Nat) : Int) streamId).2 with
        | blocked =>
          rw [runSecondary_transfer_blocked K wVdsName w streamId hr features
            h1 h2 hc h4 ht] at hret
          simp at hret
        | returned t =>
          rw [runSecondary_transfer_returned K wVdsName w streamId hr features t
            h1 h2 hc h4 ht] at hret ⊢
          simp only [Outcome.returned.injEq] at hret
          subst hret
          refine ⟨⟨Event.OpenInSecondary wVdsName w.hrOpenInSecondary ::
            Event.OpenDevice (deviceName wVdsName streamId) w.hrOpenDevice ::
            Event.GetConfiguration none hr features ::
            (performTransfer K w.fopenOk w.script
              ((features &&& K.VDF_WriteMedia : Nat) : Int) streamId).1, ?_, ?_, ?_⟩,
            ?_, hr, features, rfl, Or.inr ⟨h4, ht⟩⟩
          · by_cases h0 : t = 0 <;> simp [errExit, h0]
          · simp [hn.1]
          · simp [hn.2]
          · by_cases h0 : t = 0 <;> simp [errExit, h0, hn.1]
  · intro hblk
    cases hc : w.configuration with
    | none =>
      rw [runSecondary_configuration_pending K wVdsName w streamId h1 h2 hc]
      simp
    | some c =>
      obtain ⟨hr, features⟩ := c
      cases h4 : SUCCEEDED hr with
      | false =>
        rw [runSecondary_configuration_failed K wVdsName w streamId hr features
          h1 h2 hc h4] at hblk
        simp at hblk
      | true =>
        have hn := performTransfer_no_session_calls K w.fopenOk w.script
          ((features &&& K.VDF_WriteMedia : Nat) : Int) streamId
        cases ht : (performTransfer K w.fopenOk w.script
            ((features &&& K.VDF_WriteMedia : Nat) : Int) streamId).2 with
        | blocked =>
          rw [runSecondary_transfer_blocked K wVdsName w streamId hr features
            h1 h2 hc h4 ht]
          simp [hn.1, hn.2]
        | returned t =>
          rw [runSecondary_transfer_returned K wVdsName w streamId hr features t
            h1 h2 hc h4 ht] at hblk
          simp at hblk

theorem runSecondary_abort_iff_failure_witness :
    SUCCEEDED (0 : HRESULT) = true ∧
      (runSecondary sampleHeader "VDS"
        ⟨0, 0, some (0, sampleHeader.VDF_WriteMedia), false, []⟩ 1).2 =
        Outcome.returned (-1) ∧
      (Event.SignalAbort ∈ (runSecondary sampleHeader "VDS"
        ⟨0, 0, some (0, sampleHeader.VDF_WriteMedia), false, []⟩ 1).1 ↔ (-1 : Int) ≠ 0) :=
  ⟨by decide, by decide,
    (((runSecondary_abort_iff_failure sampleHeader "VDS"
      ⟨0, 0, some (0, sampleHeader.VDF_WriteMedia), false, []⟩ 1).2.2
      (by decide) (by decide)).2.2.1 (-1) (by decide)).2.1⟩

/-- A handler whose sink cannot be opened: the transfer fails, the handler
signals the abort once, closes the device set once and returns -1. -/
theorem runSecondary_sink_failure_run :
    runSecondary sampleHeader "VDS"
        ⟨0, 0, some (0, sampleHeader.VDF_WriteMedia), false, []⟩ 1 =
      ([Event.OpenInSecondary "VDS" 0, Event.OpenDevice "VDS1" 0,
        Event.GetConfiguration none 0 65536, Event.fopen (sinkName 1) "wb" false,
        Event.SignalAbort, Event.Close], Outcome.returned (-1)) := by
  decide

/-- A handler whose transfer ends with the close status: no abort, one
`Close`, result 0. -/
theorem runSecondary_clean_run :
    runSecondary sampleHeader "VDS"
        ⟨0, 0, some (0, 0), true, [⟨sampleHeader.VD_E_CLOSE, ⟨0, 0, 0, 0⟩, 0, 0, 0⟩]⟩ 0 =
      ([Event.OpenInSecondary "VDS" 0, Event.OpenDevice "VDS" 0,
        Event.GetConfiguration none 0 0, Event.fopen (sinkName 0) "rb" true,
        Event.GetCommand sampleHeader.VD_E_CLOSE ⟨0, 0, 0, 0⟩, Event.fclose,
        Event.Close], Outcome.returned 0) := by
  decide

end Mprocess
